import Mathlib

/-!
# xHCI platform bus glue (`drivers/usb/host/xhci-plat.c`)

A shallow embedding of the attach (`xhci_plat_probe`), teardown
(`xhci_plat_remove`), system sleep (`xhci_plat_suspend`, `xhci_plat_resume`)
and diagnostic attribute (`xhci_platg_store_ss_compliance`) paths.

Conventions of the embedding

* Every call that leaves the file (clock, PHY, runtime-PM, USB core, MMIO) is
  recorded as an `Ev` in the order the C code issues it; the answer the callee
  gives is part of the environment record of the entry point and is repeated
  in the event.  Log output (`dev_info`, `pr_info`, `dev_err`, `xhci_info`) and
  the spin lock are not recorded.  The hooks `xhci_plat_setup` and
  `xhci_plat_start` run inside `usb_add_hcd` and are part of that call.
* The variables the file itself owns (the global `is_rewa_enabled`, the
  `xhci_hcd` fields it assigns, the register window) live in `State`.
* An entry point is a function from its environment and the state before to a
  `Result`: the state after, the calls made, and how it ended.  A C function
  that is one long sequence with early exits is cut into consecutive pieces,
  each a definition that ends in an early exit or in the next piece
  (`Result.after`); a `goto` label is the list of calls from the label to the
  `return`.
* A pointer whose target matters only by its presence is a `Ptr`
  (`ERR_PTR(e)`, NULL or valid), a `Bool` (non-NULL) or an `Option`.  A read
  through `parent` or through a root hub pointer, which the code itself tests
  for NULL elsewhere, or through `xhci->shared_hcd`, which the code itself
  sets to NULL, ends the function with `Outcome.null_deref` when the pointer
  is NULL.
* `int` results are `Int`; `u32` values are `Nat` reduced `% 2 ^ 32` where
  they are produced.
* Constants of headers outside the file (`xhci.h`) are the parameter `XhciH`;
  the preprocessor switches are the parameter `Config`.
-/

namespace XhciPlat

/-! ## Constants -/

/-- errno-base.h -/
def ENOMEM : Int := 12

/-- errno-base.h -/
def ENODEV : Int := 19

/-- errno-base.h -/
def EINVAL : Int := 22

/-- linux/errno.h -/
def EPROBE_DEFER : Int := 517

/-- Macro `PORTSC_OFFSET`. -/
def PORTSC_OFFSET : Nat := 0x430

/-- Constants of `xhci.h`, which is not part of the translated file: they are
parameters of the embedding. -/
structure XhciH where
  XHCI_LPM_SUPPORT : Nat
  XHCI_BROKEN_PORT_PED : Nat
  XHCI_HW_LPM_DISABLE : Nat
  XHCI_SKIP_PHY_INIT : Nat
  XHCI_L2_SUPPORT : Nat
  XHCI_USE_URAM_FOR_EXYNOS_AUDIO : Nat
  XHCI_STATE_REMOVING : Nat
  XHCI_HUB_EVENT_TIMEOUT : Nat
  deriving Repr

/-- Preprocessor switches that select code in the translated functions. -/
structure Config where
  CONFIG_PCI : Bool
  CONFIG_SND_EXYNOS_USB_AUDIO : Bool
  CONFIG_USB_HOST_SAMSUNG_FEATURE : Bool
  CONFIG_USB_PORT_POWER_OPTIMIZATION : Bool
  deriving Repr, DecidableEq

/-! ## Events -/

/-- The two host controller contexts: `hcd` (primary) and `xhci->shared_hcd`
(companion). -/
inductive HcdId where
  | main
  | shared
  deriving DecidableEq, Repr

/-- The two wakeup sources `main_wakelock` and `shared_wakelock`. -/
inductive WakeId where
  | main
  | shared
  deriving DecidableEq, Repr

/-- The clocks `xhci->reg_clk` ("reg") and `xhci->clk` (unnamed bus clock). -/
inductive ClkId where
  | reg
  | bus
  deriving DecidableEq, Repr

/-- The PHYs `xhci->phy_usb2` and `xhci->phy_usb3`. -/
inductive PhyId where
  | usb2
  | usb3
  deriving DecidableEq, Repr

/-- Device a runtime-PM `forbid` is addressed to. -/
inductive PmTarget where
  | pdev
  | main_root_hub
  | shared_root_hub
  deriving DecidableEq, Repr

/-- Calls that leave the file, with the arguments that tell them apart and the
result the callee gave.  `set_is_rewa_enabled` records a store to the global
`is_rewa_enabled`. -/
inductive Ev where
  | wakeup_source_register (w : WakeId)
  | pm_stay_awake (w : WakeId)
  | pm_relax (w : WakeId)
  | wakeup_source_unregister (w : WakeId)
  | dma_coerce_mask_and_coherent (bits : Nat) (ret : Int)
  | dma_set_mask_and_coherent (bits : Nat) (ret : Int)
  | xhci_pm_runtime_init
  | pm_runtime_set_active
  | pm_runtime_enable
  | pm_runtime_get_noresume
  | pm_runtime_put_noidle
  | pm_runtime_disable
  | pm_runtime_get_sync
  | pm_runtime_set_suspended
  | pm_runtime_forbid (t : PmTarget)
  | usb_create_hcd (h : HcdId) (ok : Bool)
  | usb_put_hcd (h : HcdId)
  | devm_ioremap_resource (ok : Bool)
  | devm_iounmap
  | xhci_portsc_power_off
  | devm_clk_get_optional (c : ClkId)
  | clk_prepare_enable (c : ClkId) (present : Bool) (ret : Int)
  | clk_disable_unprepare (c : ClkId) (present : Bool)
  | device_set_wakeup_capable
  | devm_usb_get_phy_by_phandle
  | usb_phy_init (present : Bool) (ret : Int)
  | usb_phy_shutdown (present : Bool)
  | devm_phy_get (p : PhyId)
  | plat_setup (ret : Int)
  | usb_add_hcd (h : HcdId) (ret : Int)
  | usb_remove_hcd (h : HcdId)
  | exynos_usb_audio_init (ret : Int)
  | sysfs_create_group (ret : Int)
  | device_enable_async_suspend
  | device_set_wakeup_enable (h : HcdId)
  | usleep_range
  | xhci_suspend (do_wakeup : Bool) (ret : Int)
  | xhci_resume (ret : Int)
  | resume_quirk (ret : Int)
  | exynos_usbdrd_phy_vendor_set (p : PhyId) (a b : Nat)
  | set_is_rewa_enabled (v : Int)
  | readl (off : Nat) (v : Nat)
  | writel (v : Nat) (off : Nat)
  deriving DecidableEq, Repr

/-! ## State owned by the file -/

/-- The members of `struct xhci_plat_priv` that attach consults.  The hook
`plat_setup` is `none` when the function pointer is NULL and otherwise carries
the value the hook returns.  (The `resume_quirk` hook is part of `ResumeEnv`.) -/
structure PlatPriv where
  plat_setup : Option Int
  quirks : Nat
  deriving Repr, DecidableEq

/-- A pointer result: `ERR_PTR(e)`, NULL, or a valid object. -/
inductive Ptr where
  | err (e : Int)
  | null
  | valid
  deriving DecidableEq, Repr

/-- Test `IS_ERR`. -/
def Ptr.IS_ERR : Ptr → Bool
  | .err _ => true
  | _ => false

/-- Test `IS_ERR_OR_NULL`. -/
def Ptr.IS_ERR_OR_NULL : Ptr → Bool
  | .valid => false
  | _ => true

/-- Whether the pointer is NULL (the C test `!p`). -/
def Ptr.is_null : Ptr → Bool
  | .null => true
  | _ => false

/-- Whether the pointer designates an object. -/
def Ptr.is_valid : Ptr → Bool
  | .valid => true
  | _ => false

/-- Variables assigned by the translated functions. -/
structure State where
  /-- The file-scope `static int is_rewa_enabled` -/
  is_rewa_enabled : Int
  port_off_done : Int
  portsc_control_priority : Nat
  pp_set_delayed : Nat
  /-- Global `usb3_portsc`: NULL or the offset of the register within the window -/
  usb3_portsc : Option Nat
  /-- contents of the mapped register window, by byte offset -/
  regs : Nat → Nat
  /-- Field `xhci->quirks` -/
  quirks : Nat
  /-- Field `xhci->imod_interval` -/
  imod_interval : Nat
  /-- Field `xhci->xhc_state` -/
  xhc_state : Nat
  /-- Field `xhci->xhci_alloc->offset` -/
  xhci_alloc_offset : Nat
  /-- Field `xhci->reg_clk` -/
  reg_clk : Ptr
  /-- Field `xhci->clk` -/
  clk : Ptr
  /-- Field `hcd->usb_phy` -/
  usb_phy : Ptr
  /-- Field `xhci->phy_usb2` -/
  phy_usb2 : Ptr
  /-- Field `xhci->phy_usb3` -/
  phy_usb3 : Ptr
  /-- Whether `xhci->shared_hcd` is not NULL -/
  shared_hcd : Bool
  /-- Field `hcd->skip_phy_initialization` -/
  skip_phy_initialization : Bool
  /-- Field `xhci->shared_hcd->skip_phy_initialization` -/
  shared_skip_phy_initialization : Bool
  /-- Field `xhci->shared_hcd->can_do_streams` -/
  shared_can_do_streams : Bool
  /-- Field `hcd->tpl_support`, copied to the companion -/
  tpl_support : Bool
  /-- the private area filled from the match data, when there is match data -/
  priv : Option PlatPriv

/-- How an entry point ends: it returns a code, or it reads a field through a
NULL pointer. -/
inductive Outcome where
  | returned (code : Int)
  | null_deref
  deriving DecidableEq, Repr

/-- State after an entry point, the calls it made, and how it ended. -/
structure Result where
  st : State
  trace : List Ev
  ret : Outcome

/-! ## `ss_compliance` attribute -/

/-- A `u32` complement. -/
def not32 (x : Nat) : Nat := (2 ^ 32 - 1) - x % 2 ^ 32

/-- Conversion of the `size_t` byte count to the `ssize_t` result. -/
def to_ssize_t (n : Nat) : Int :=
  if n % 2 ^ 64 < 2 ^ 63 then ((n % 2 ^ 64 : Nat) : Int) else ((n % 2 ^ 64 : Nat) : Int) - 2 ^ 64

/-- The read `readl(reg_base + off)`. -/
def readl (st : State) (off : Nat) : Nat := st.regs off % 2 ^ 32

/-- The write `writel(v, reg_base + off)`. -/
def writel (st : State) (v : Nat) (off : Nat) : State :=
  { st with regs := fun o => if o = off then v % 2 ^ 32 else st.regs o }

/-- Result of the store: state, calls made, `ssize_t` value returned. -/
structure StoreResult where
  st : State
  trace : List Ev
  ret : Int

/-- Function `xhci_platg_store_ss_compliance`.  `scanned` is what
`sscanf(buf, "%d", &value)` delivers: `none` when it does not convert one
item, `some value` otherwise; `n` is the byte count of the write. -/
def xhci_platg_store_ss_compliance (st : State) (scanned : Option Int) (n : Nat) : StoreResult :=
  match scanned with
  | none => ⟨st, [], -EINVAL⟩
  | some value =>
    if value = 1 then
      let reg := readl st PORTSC_OFFSET
      let reg1 := reg &&& not32 ((0xF <<< 5) ||| (1 <<< 16))
      let reg2 := (reg1 ||| ((10 <<< 5) ||| (1 <<< 16))) % 2 ^ 32
      ⟨writel st reg2 PORTSC_OFFSET,
        [Ev.readl PORTSC_OFFSET reg, Ev.writel reg2 PORTSC_OFFSET], to_ssize_t n⟩
    else
      ⟨st, [], to_ssize_t n⟩

/-! ## System sleep -/

/-- Answers of the callees of `xhci_plat_suspend`. -/
structure SuspendEnv where
  /-- Value of `device_may_wakeup(dev)` -/
  may_wakeup : Bool
  /-- return value of `xhci_suspend` -/
  xhci_suspend_ret : Int
  /-- return value of `otg_is_connect()` -/
  otg_is_connect : Nat
  deriving Repr, DecidableEq

/-- Function `xhci_plat_suspend`. -/
def xhci_plat_suspend (env : SuspendEnv) (st : State) : Result :=
  let ret := env.xhci_suspend_ret
  let tr := [Ev.xhci_suspend env.may_wakeup ret]
  if ret ≠ 0 then
    ⟨st, tr, .returned ret⟩
  else if env.otg_is_connect ≠ 1 then
    ⟨{ st with is_rewa_enabled := 1 },
      tr ++ [Ev.exynos_usbdrd_phy_vendor_set .usb2 1 0,
             Ev.exynos_usbdrd_phy_vendor_set .usb3 1 0,
             Ev.set_is_rewa_enabled 1],
      .returned ret⟩
  else
    ⟨st, tr, .returned ret⟩

/-- Answers of the callees of `xhci_plat_resume`. -/
structure ResumeEnv where
  /-- Hook `priv->resume_quirk`: NULL, or the value the hook returns -/
  resume_quirk : Option Int
  /-- return value of `xhci_resume` -/
  xhci_resume_ret : Int
  deriving Repr, DecidableEq

/-- Function `xhci_priv_resume_quirk`: the value returned and the call made, if any. -/
def xhci_priv_resume_quirk (env : ResumeEnv) : Int × List Ev :=
  match env.resume_quirk with
  | none => (0, [])
  | some r => (r, [Ev.resume_quirk r])

/-- Function `xhci_plat_resume`. -/
def xhci_plat_resume (env : ResumeEnv) (st : State) : Result :=
  let q := xhci_priv_resume_quirk env
  let ret := q.1
  let tr := q.2
  if ret ≠ 0 then
    ⟨st, tr, .returned ret⟩
  else if st.is_rewa_enabled = 1 then
    ⟨{ st with is_rewa_enabled := 0 },
      tr ++ [Ev.exynos_usbdrd_phy_vendor_set .usb3 1 1,
             Ev.exynos_usbdrd_phy_vendor_set .usb2 1 1,
             Ev.exynos_usbdrd_phy_vendor_set .usb2 0 0,
             Ev.set_is_rewa_enabled 0,
             Ev.xhci_resume env.xhci_resume_ret],
      .returned env.xhci_resume_ret⟩
  else
    ⟨st, tr ++ [Ev.xhci_resume env.xhci_resume_ret], .returned env.xhci_resume_ret⟩

/-! ## Attach -/

/-- Result of `of_property_read_u32`: the return value and the word stored
through the pointer (meaningful when the return value is 0). -/
structure PropRead where
  ret : Int
  value : Nat
  deriving Repr, DecidableEq

/-- What attach asks of one device of the ancestor chain. -/
structure Device where
  /-- Value of `is_of_node(dev->fwnode)` -/
  is_of_node : Bool
  /-- Value of `is_acpi_device_node(dev->fwnode)` -/
  is_acpi_device_node : Bool
  /-- Whether `dev->bus == &pci_bus_type` -/
  on_pci_bus : Bool
  /-- Whether `dev->dma_mask` is not NULL -/
  has_dma_mask : Bool
  /-- Return value of `dma_coerce_mask_and_coherent(dev, DMA_BIT_MASK(64))` -/
  dma_coerce64_ret : Int
  /-- Return value of `dma_set_mask_and_coherent(dev, DMA_BIT_MASK(64))` -/
  dma_set64_ret : Int
  /-- Return value of `dma_set_mask_and_coherent(dev, DMA_BIT_MASK(32))` -/
  dma_set32_ret : Int
  /-- Value of `device_property_read_bool(dev, "usb2-lpm-disable")` -/
  usb2_lpm_disable : Bool
  /-- Value of `device_property_read_bool(dev, "usb3-lpm-capable")` -/
  usb3_lpm_capable : Bool
  /-- Value of `device_property_read_bool(dev, "quirk-broken-port-ped")` -/
  quirk_broken_port_ped : Bool
  /-- Word stored by `device_property_read_u32(dev, "imod-interval-ns", ..)`,
  `none` when the read fails and stores nothing -/
  imod_interval_ns : Option Nat
  /-- Result of `devm_usb_get_phy_by_phandle(dev, "usb-phy", 0)` -/
  usb_phy : Ptr
  /-- Return value of the `init` method of that PHY -/
  usb_phy_init_ret : Int
  /-- Result of `devm_phy_get(dev, "usb2-phy")` -/
  phy_usb2 : Ptr
  /-- Result of `devm_phy_get(dev, "usb3-phy")` -/
  phy_usb3 : Ptr
  /-- Result of `of_property_read_u32(dev->of_node, "xhci_l2_support", ..)` -/
  xhci_l2_support : PropRead
  /-- Result of `of_property_read_u32(dev->of_node, "xhci_use_uram_for_audio", ..)` -/
  xhci_use_uram_for_audio : PropRead
  /-- Result of `of_property_read_u32(dev->of_node, "usb_audio_offloading", ..)` -/
  usb_audio_offloading : PropRead
  /-- Value of `of_usb_host_tpl_support(dev->of_node)` -/
  tpl_support : Bool
  deriving Repr, DecidableEq

/-- Answers of the callees of `xhci_plat_probe`. -/
structure ProbeEnv where
  /-- The platform device itself, `pdev->dev` -/
  dev : Device
  /-- The chain `pdev->dev.parent`, its parent, and so on; empty when
  `pdev->dev.parent` is NULL -/
  ancestors : List Device
  /-- Value of `usb_disabled()` -/
  usb_disabled : Bool
  /-- Value of `platform_get_irq(pdev, 0)` -/
  irq : Int
  /-- Whether `__usb_create_hcd` delivers the primary context -/
  create_hcd_ok : Bool
  /-- Result of `devm_ioremap_resource` -/
  ioremap : Ptr
  /-- Result of `devm_clk_get_optional(&pdev->dev, "reg")` -/
  reg_clk : Ptr
  /-- Return value of `clk_prepare_enable` on a valid reg clock -/
  reg_clk_enable_ret : Int
  /-- Result of `devm_clk_get_optional(&pdev->dev, NULL)` -/
  clk : Ptr
  /-- Return value of `clk_prepare_enable` on a valid bus clock -/
  clk_enable_ret : Int
  /-- Value of `of_device_get_match_data(&pdev->dev)`, `none` for NULL -/
  priv_match : Option PlatPriv
  /-- Whether `__usb_create_hcd` delivers the companion context -/
  create_shared_hcd_ok : Bool
  /-- Whether all of the `EXYNOS_URAM_*_ADDR` constants are non-zero -/
  uram_addrs_defined : Bool
  /-- Return value of `usb_add_hcd(hcd, irq, IRQF_SHARED)` -/
  add_hcd_ret : Int
  /-- Value of `HCC_MAX_PSA(xhci->hcc_params)` -/
  hcc_max_psa : Nat
  /-- Return value of `usb_add_hcd(xhci->shared_hcd, irq, IRQF_SHARED)` -/
  add_shared_hcd_ret : Int
  /-- Return value of `exynos_usb_audio_init(parent, pdev)` -/
  exynos_usb_audio_init_ret : Int
  /-- Return value of `sysfs_create_group` -/
  sysfs_create_group_ret : Int
  deriving Repr, DecidableEq

/-- The loop that picks `sysdev`: the first device of the chain, starting at
`pdev->dev`, that has a firmware node or (with `CONFIG_PCI`) sits on the PCI
bus; `pdev->dev` when the loop runs off the chain. -/
def probe_sysdev (cfg : Config) (dev : Device) : List Device → Device
  | [] => dev
  | d :: rest =>
    if d.is_of_node || d.is_acpi_device_node then d
    else if cfg.CONFIG_PCI && d.on_pci_bus then d
    else probe_sysdev cfg dev rest

/-- The two fields the property walk assigns: `xhci->quirks` and
`xhci->imod_interval`. -/
structure WalkVars where
  quirks : Nat
  imod_interval : Nat
  deriving Repr, DecidableEq

/-- One iteration of the "Iterate over all parent nodes for finding quirks"
loop, on device `d`. -/
def probe_walk_step (k : XhciH) (v : WalkVars) (d : Device) : WalkVars :=
  let q := v.quirks
  let q := if d.usb2_lpm_disable then q ||| k.XHCI_HW_LPM_DISABLE else q
  let q := if d.usb3_lpm_capable then q ||| k.XHCI_LPM_SUPPORT else q
  let q := if d.quirk_broken_port_ped then q ||| k.XHCI_BROKEN_PORT_PED else q
  let imod :=
    match d.imod_interval_ns with
    | some w => w % 2 ^ 32
    | none => v.imod_interval
  ⟨q, imod⟩

/-- The loop `for (tmpdev = &pdev->dev; tmpdev; tmpdev = tmpdev->parent)`
over the chain, nearest device first. -/
def probe_walk (k : XhciH) : List Device → WalkVars → WalkVars
  | [], v => v
  | d :: rest, v => probe_walk k rest (probe_walk_step k v d)

/-- The default `xhci->imod_interval = 40000` followed by the property walk,
started with `xhci->quirks = quirks`. -/
def probe_props (k : XhciH) (chain : List Device) (quirks : Nat) : WalkVars :=
  probe_walk k chain ⟨quirks, 40000⟩

/-- The result `r` of the rest of a function, after the calls `tr` were made. -/
def Result.after (tr : List Ev) (r : Result) : Result :=
  { r with trace := tr ++ r.trace }

/-- Label `disable_runtime`: the calls from there to `return ret`. -/
def probe_disable_runtime : List Ev :=
  [Ev.pm_runtime_put_noidle, Ev.pm_runtime_disable]

/-- Label `put_hcd`, falling through to `disable_runtime`. -/
def probe_put_hcd : List Ev :=
  Ev.usb_put_hcd .main :: probe_disable_runtime

/-- Label `disable_reg_clk`, falling through to `put_hcd`. -/
def probe_disable_reg_clk (st : State) : List Ev :=
  Ev.clk_disable_unprepare .reg st.reg_clk.is_valid :: probe_put_hcd

/-- Label `disable_clk`, falling through to `disable_reg_clk`. -/
def probe_disable_clk (st : State) : List Ev :=
  Ev.clk_disable_unprepare .bus st.clk.is_valid :: probe_disable_reg_clk st

/-- Label `put_usb3_hcd`, falling through to `disable_clk`. -/
def probe_put_usb3_hcd (st : State) : List Ev :=
  Ev.usb_put_hcd .shared :: probe_disable_clk st

/-- Label `disable_usb_phy`, falling through to `put_usb3_hcd`. -/
def probe_disable_usb_phy (st : State) : List Ev :=
  Ev.usb_phy_shutdown st.usb_phy.is_valid :: probe_put_usb3_hcd st

/-- Label `dealloc_usb2_hcd`, falling through to `disable_usb_phy`. -/
def probe_dealloc_usb2_hcd (st : State) : List Ev :=
  Ev.usb_remove_hcd .main :: probe_disable_usb_phy st

/-- From `sysfs_create_group` to `return 0`. -/
def probe_success (env : ProbeEnv) (st : State) : Result :=
  ⟨st,
    [Ev.sysfs_create_group env.sysfs_create_group_ret,
     Ev.device_enable_async_suspend,
     Ev.pm_runtime_put_noidle,
     Ev.device_set_wakeup_enable .main,
     Ev.device_set_wakeup_enable .shared,
     Ev.pm_runtime_forbid .pdev],
    .returned 0⟩

/-- The `usb_audio_offloading` block after both controllers are registered
(compiled with `CONFIG_SND_EXYNOS_USB_AUDIO`), then the rest of attach. -/
def probe_audio (cfg : Config) (env : ProbeEnv) (parent : Device) (st : State) : Result :=
  if cfg.CONFIG_SND_EXYNOS_USB_AUDIO then
    let rd := parent.usb_audio_offloading
    if rd.ret = 0 ∧ rd.value = 1 then
      let ret := env.exynos_usb_audio_init_ret
      let tr := [Ev.exynos_usb_audio_init ret]
      if ret ≠ 0 then ⟨st, tr, .returned ret⟩
      else (probe_success env st).after tr
    else
      ⟨st, [], .returned rd.ret⟩
  else
    probe_success env st

/-- Function `xhci_priv_plat_setup` under `if (priv)`: the value of `ret` and
the call made, if any.  `priv` is NULL when there is no match data. -/
def xhci_priv_plat_setup (priv : Option PlatPriv) : Int × List Ev :=
  match priv with
  | none => (0, [])
  | some pv =>
    match pv.plat_setup with
    | none => (0, [])
    | some r => (r, [Ev.plat_setup r])

/-- From `if (priv) ret = xhci_priv_plat_setup(hcd)` to the registration of
the companion. -/
def probe_register (cfg : Config) (k : XhciH) (env : ProbeEnv) (parent : Device)
    (st : State) : Result :=
  let setup := xhci_priv_plat_setup env.priv_match
  let tr := setup.2
  if setup.1 ≠ 0 then ⟨st, tr ++ probe_disable_usb_phy st, .returned setup.1⟩
  else
    let skip :=
      (st.quirks &&& k.XHCI_SKIP_PHY_INIT != 0) ||
      (match env.priv_match with
       | none => false
       | some pv => pv.quirks &&& k.XHCI_SKIP_PHY_INIT != 0)
    let st := { st with skip_phy_initialization :=
      if skip then true else st.skip_phy_initialization }
    let tr := tr ++ [Ev.usb_add_hcd .main env.add_hcd_ret]
    if env.add_hcd_ret ≠ 0 then ⟨st, tr ++ probe_disable_usb_phy st, .returned env.add_hcd_ret⟩
    else
      let st := { st with shared_can_do_streams :=
        if env.hcc_max_psa ≥ 4 then true else st.shared_can_do_streams }
      let tr := tr ++ [Ev.usb_add_hcd .shared env.add_shared_hcd_ret]
      if env.add_shared_hcd_ret ≠ 0 then
        ⟨st, tr ++ probe_dealloc_usb2_hcd st, .returned env.add_shared_hcd_ret⟩
      else (probe_audio cfg env parent st).after tr

/-- From the USB2 PHY lookup to `tpl_support`; `parent` is `pdev->dev.parent`.
The read `parent->of_node` of the `xhci_l2_support` lookup is not guarded by
`if (parent)`. -/
def probe_parent (cfg : Config) (k : XhciH) (env : ProbeEnv) (sysdev : Device)
    (st : State) : Result :=
  let parent := env.ancestors.head?
  let st := { st with
    phy_usb2 :=
      match parent with
      | some p => if p.phy_usb2.IS_ERR_OR_NULL then Ptr.null else p.phy_usb2
      | none => st.phy_usb2 }
  let tr := if parent.isSome then [Ev.devm_phy_get .usb2] else []
  let st := { st with
    phy_usb3 :=
      match parent with
      | some p => if p.phy_usb3.IS_ERR_OR_NULL then Ptr.null else p.phy_usb3
      | none => st.phy_usb3 }
  let tr := if parent.isSome then tr ++ [Ev.devm_phy_get .usb3] else tr
  match parent with
  | none => ⟨st, tr, .null_deref⟩
  | some p =>
    let st := { st with quirks :=
      if p.xhci_l2_support.ret = 0 ∧ p.xhci_l2_support.value = 1 then
        st.quirks ||| k.XHCI_L2_SUPPORT
      else st.quirks }
    let st := { st with quirks :=
      if cfg.CONFIG_SND_EXYNOS_USB_AUDIO then
        if p.xhci_use_uram_for_audio.ret = 0 ∧ p.xhci_use_uram_for_audio.value = 1 then
          if env.uram_addrs_defined then st.quirks ||| k.XHCI_USE_URAM_FOR_EXYNOS_AUDIO
          else st.quirks
        else st.quirks
      else st.quirks }
    let st := { st with tpl_support := sysdev.tpl_support }
    (probe_register cfg k env p st).after tr

/-- The system PHY lookup `devm_usb_get_phy_by_phandle(sysdev, "usb-phy", 0)`
and `usb_phy_init`, then the rest of attach. -/
def probe_usb_phy (cfg : Config) (k : XhciH) (env : ProbeEnv) (sysdev : Device)
    (st : State) : Result :=
  let tr := [Ev.devm_usb_get_phy_by_phandle]
  match sysdev.usb_phy with
  | .err e =>
    let st := { st with usb_phy := .err e }
    if e = -EPROBE_DEFER then
      ⟨st, tr ++ probe_put_usb3_hcd st, .returned e⟩
    else
      (probe_parent cfg k env sysdev { st with usb_phy := .null }).after tr
  | p =>
    let st := { st with usb_phy := p }
    let ret := if p.is_valid then sysdev.usb_phy_init_ret else 0
    let tr := tr ++ [Ev.usb_phy_init p.is_valid ret]
    if ret ≠ 0 then ⟨st, tr ++ probe_put_usb3_hcd st, .returned ret⟩
    else (probe_parent cfg k env sysdev st).after tr

/-- From the bus clock lookup to the property walk, then the rest of attach. -/
def probe_bus_clk (cfg : Config) (k : XhciH) (env : ProbeEnv) (sysdev : Device)
    (st : State) : Result :=
  let st := { st with clk := env.clk }
  let tr := [Ev.devm_clk_get_optional .bus]
  match env.clk with
  | .err e => ⟨st, tr ++ probe_disable_reg_clk st, .returned e⟩
  | _ =>
    let ret := if env.clk.is_valid then env.clk_enable_ret else 0
    let tr := tr ++ [Ev.clk_prepare_enable .bus env.clk.is_valid ret]
    if ret ≠ 0 then ⟨st, tr ++ probe_disable_reg_clk st, .returned ret⟩
    else
      let st := { st with priv :=
        match env.priv_match with
        | some pv => some pv
        | none => st.priv }
      let tr := tr ++ [Ev.device_set_wakeup_capable,
                       Ev.usb_create_hcd .shared env.create_shared_hcd_ok]
      let st := { st with shared_hcd := env.create_shared_hcd_ok }
      if !env.create_shared_hcd_ok then ⟨st, tr ++ probe_disable_clk st, .returned (-ENOMEM)⟩
      else
        let st := { st with shared_skip_phy_initialization := true }
        let w := probe_props k (env.dev :: env.ancestors) st.quirks
        let st := { st with quirks := w.quirks, imod_interval := w.imod_interval }
        (probe_usb_phy cfg k env sysdev st).after tr

/-- The reg clock lookup and enable, then the rest of attach. -/
def probe_reg_clk (cfg : Config) (k : XhciH) (env : ProbeEnv) (sysdev : Device)
    (st : State) : Result :=
  let st := { st with reg_clk := env.reg_clk }
  let tr := [Ev.devm_clk_get_optional .reg]
  match env.reg_clk with
  | .err e => ⟨st, tr ++ probe_put_hcd, .returned e⟩
  | _ =>
    let ret := if env.reg_clk.is_valid then env.reg_clk_enable_ret else 0
    let tr := tr ++ [Ev.clk_prepare_enable .reg env.reg_clk.is_valid ret]
    if ret ≠ 0 then ⟨st, tr ++ probe_put_hcd, .returned ret⟩
    else (probe_bus_clk cfg k env sysdev st).after tr

/-- From `xhci_pm_runtime_init` to the delayed port power-off, then the rest
of attach. -/
def probe_hcd (cfg : Config) (k : XhciH) (env : ProbeEnv) (sysdev : Device)
    (st : State) : Result :=
  let tr := [Ev.xhci_pm_runtime_init, Ev.pm_runtime_set_active, Ev.pm_runtime_enable,
             Ev.pm_runtime_get_noresume, Ev.usb_create_hcd .main env.create_hcd_ok]
  if !env.create_hcd_ok then ⟨st, tr ++ probe_disable_runtime, .returned (-ENOMEM)⟩
  else
    let st := { st with skip_phy_initialization := true }
    let tr := tr ++ [Ev.devm_ioremap_resource (!env.ioremap.IS_ERR)]
    match env.ioremap with
    | .err e => ⟨st, tr ++ probe_put_hcd, .returned e⟩
    | _ =>
      let st := { st with usb3_portsc := some PORTSC_OFFSET }
      let tr := if st.pp_set_delayed ≠ 0 then tr ++ [Ev.xhci_portsc_power_off] else tr
      let st := { st with
        pp_set_delayed := if st.pp_set_delayed ≠ 0 then 0 else st.pp_set_delayed }
      (probe_reg_clk cfg k env sysdev st).after tr

/-- The first DMA mask call: `dma_coerce_mask_and_coherent` when the platform
left `sysdev->dma_mask` NULL, `dma_set_mask_and_coherent` otherwise, both for
64 bits.  The value of `ret` and the call. -/
def probe_dma64 (sysdev : Device) : Int × Ev :=
  if !sysdev.has_dma_mask then
    (sysdev.dma_coerce64_ret, Ev.dma_coerce_mask_and_coherent 64 sysdev.dma_coerce64_ret)
  else
    (sysdev.dma_set64_ret, Ev.dma_set_mask_and_coherent 64 sysdev.dma_set64_ret)

/-- The stores to the globals at the head of `xhci_plat_probe`:
`port_off_done = 0` and `portsc_control_priority = 0` (compiled with
`CONFIG_USB_PORT_POWER_OPTIMIZATION`), then `is_rewa_enabled = 0`. -/
def probe_globals (cfg : Config) (st : State) : State :=
  { st with
    port_off_done := if cfg.CONFIG_USB_PORT_POWER_OPTIMIZATION then 0 else st.port_off_done,
    portsc_control_priority :=
      if cfg.CONFIG_USB_PORT_POWER_OPTIMIZATION then 0 else st.portsc_control_priority,
    is_rewa_enabled := 0 }

/-- Function `xhci_plat_probe`. -/
def xhci_plat_probe (cfg : Config) (k : XhciH) (env : ProbeEnv) (st : State) : Result :=
  let tr := [Ev.wakeup_source_register .main, Ev.pm_stay_awake .main,
             Ev.wakeup_source_register .shared, Ev.pm_stay_awake .shared]
  let st := probe_globals cfg st
  let tr := tr ++ [Ev.set_is_rewa_enabled 0]
  if env.usb_disabled then ⟨st, tr, .returned (-ENODEV)⟩
  else if env.irq < 0 then ⟨st, tr, .returned env.irq⟩
  else
    let sysdev := probe_sysdev cfg env.dev (env.dev :: env.ancestors)
    let d64 := probe_dma64 sysdev
    let tr := tr ++ [d64.2]
    if d64.1 ≠ 0 then
      let ret := sysdev.dma_set32_ret
      let tr := tr ++ [Ev.dma_set_mask_and_coherent 32 ret]
      if ret ≠ 0 then ⟨st, tr, .returned ret⟩
      else (probe_hcd cfg k env sysdev st).after tr
    else (probe_hcd cfg k env sysdev st).after tr

/-! ## Teardown -/

/-- What one pass of the wait loop sees below a root hub: for every port the
child device (`none` when `usb_hub_find_child` gives NULL) with its `devnum`.
The argument is the number of the pass, counted from 0. -/
abbrev RootHub := Nat → List (Option Int)

/-- Answers of the callees of `xhci_plat_remove`. -/
structure RemoveEnv where
  /-- Whether `dev->dev.parent` is not NULL -/
  parent : Bool
  /-- The root hub `hcd->self.root_hub`, `none` for NULL -/
  rhdev : Option RootHub
  /-- The root hub `shared_hcd->self.root_hub`, `none` for NULL -/
  srhdev : Option RootHub
  /-- Value of `pm_runtime_suspended` on the companion root hub -/
  shared_rh_suspended : Bool
  /-- Value of `pm_runtime_suspended` on the primary root hub -/
  main_rh_suspended : Bool

/-- One `usb_hub_for_each_child` scan: some child has `devnum != -1`. -/
def hub_has_device (children : List (Option Int)) : Bool :=
  children.any fun udev =>
    match udev with
    | some devnum => devnum != -1
    | none => false

/-- The value of `need_wait` at the end of pass `i` of the loop body. -/
def need_wait (rh srh : RootHub) (i : Nat) : Bool :=
  let nw := hub_has_device (rh i)
  if nw == false then hub_has_device (srh i) else nw

/-- The loop `for (timeout = 0; timeout < XHCI_HUB_EVENT_TIMEOUT; timeout++)`
entered with counter `timeout` at pass `i`, where `T` is the bound: the calls
it makes.  A waiting pass adds 20 to the counter before the `timeout++` of the
loop header.  The counter is an `int` in C; it stays below `T + 21`. -/
def hub_wait_loop (T : Nat) (rh srh : RootHub) (timeout i : Nat) : List Ev :=
  if timeout < T then
    if need_wait rh srh i == true then
      Ev.usleep_range :: hub_wait_loop T rh srh (timeout + 20 + 1) (i + 1)
    else
      []
  else
    []
termination_by T - timeout
decreasing_by omega

/-- From label `remove_hcd` to `return 0`. -/
def remove_hcd (env : RemoveEnv) (st : State) : Result :=
  let tr := [Ev.usb_remove_hcd .shared]
  let st := { st with shared_hcd := false }
  let tr := tr ++ [Ev.usb_phy_shutdown st.usb_phy.is_valid]
  let st := { st with
    phy_usb2 := if env.parent && !st.phy_usb2.is_null then .null else st.phy_usb2 }
  let st := { st with
    phy_usb3 := if env.parent && !st.phy_usb3.is_null then .null else st.phy_usb3 }
  ⟨st,
    tr ++ [Ev.usb_remove_hcd .main,
           Ev.devm_iounmap,
           Ev.usb_put_hcd .shared,
           Ev.clk_disable_unprepare .bus st.clk.is_valid,
           Ev.clk_disable_unprepare .reg st.reg_clk.is_valid,
           Ev.usb_put_hcd .main,
           Ev.pm_runtime_disable,
           Ev.pm_runtime_put_noidle,
           Ev.pm_runtime_set_suspended],
    .returned 0⟩

/-- The calls of the wait for the downstream devices: none when a root hub is
NULL (`goto remove_hcd`), the loop otherwise. -/
def remove_wait (k : XhciH) (env : RemoveEnv) : List Ev :=
  match env.rhdev, env.srhdev with
  | some rh, some srh => hub_wait_loop k.XHCI_HUB_EVENT_TIMEOUT rh srh 0 0
  | _, _ => []

/-- From `pm_runtime_get_sync` to the end of `xhci_plat_remove`. -/
def remove_body (k : XhciH) (env : RemoveEnv) (st : State) : Result :=
  let tr := [Ev.pm_runtime_get_sync]
  let st := { st with xhc_state := st.xhc_state ||| k.XHCI_STATE_REMOVING,
                      xhci_alloc_offset := 0 }
  let tr := tr ++ [Ev.pm_relax .main, Ev.pm_relax .shared,
                   Ev.wakeup_source_unregister .main, Ev.wakeup_source_unregister .shared]
  (remove_hcd env st).after (tr ++ remove_wait k env)

/-- The statements of `xhci_plat_remove`, after its declarations.  With
`CONFIG_USB_HOST_SAMSUNG_FEATURE` the runtime-PM status of both root hub
devices is read before the NULL test of the root hubs. -/
def remove_statements (cfg : Config) (k : XhciH) (env : RemoveEnv) (st : State) : Result :=
  let st := { st with usb3_portsc := none, pp_set_delayed := 0 }
  if cfg.CONFIG_USB_HOST_SAMSUNG_FEATURE then
    match env.srhdev with
    | none => ⟨st, [], .null_deref⟩
    | some _ =>
      let tr := if !env.shared_rh_suspended then [Ev.pm_runtime_forbid .shared_root_hub] else []
      match env.rhdev with
      | none => ⟨st, tr, .null_deref⟩
      | some _ =>
        let tr := if !env.main_rh_suspended then tr ++ [Ev.pm_runtime_forbid .main_root_hub]
          else tr
        (remove_body k env st).after tr
  else
    remove_body k env st

/-- Function `xhci_plat_remove`.  Its declarations read the root hub of the
companion through `xhci->shared_hcd`, before any call; the function itself
sets that pointer to NULL further down (in `remove_hcd`). -/
def xhci_plat_remove (cfg : Config) (k : XhciH) (env : RemoveEnv) (st : State) : Result :=
  if !st.shared_hcd then ⟨st, [], .null_deref⟩
  else remove_statements cfg k env st

/-! ## Concrete data for examples -/

/-- A zero-filled state. -/
def State.zero : State :=
  { is_rewa_enabled := 0, port_off_done := 0, portsc_control_priority := 0,
    pp_set_delayed := 0, usb3_portsc := none, regs := fun _ => 0, quirks := 0,
    imod_interval := 0, xhc_state := 0, xhci_alloc_offset := 0, reg_clk := .null,
    clk := .null, usb_phy := .null, phy_usb2 := .null, phy_usb3 := .null,
    shared_hcd := false, skip_phy_initialization := false,
    shared_skip_phy_initialization := false, shared_can_do_streams := false,
    tpl_support := false, priv := none }

/-- The quirk and state bits of mainline `xhci.h`; the vendor bits and the
hub event bound are sample values. -/
def XhciH.sample : XhciH :=
  { XHCI_LPM_SUPPORT := 2 ^ 11, XHCI_BROKEN_PORT_PED := 2 ^ 25,
    XHCI_HW_LPM_DISABLE := 2 ^ 29, XHCI_SKIP_PHY_INIT := 2 ^ 37,
    XHCI_L2_SUPPORT := 2 ^ 40, XHCI_USE_URAM_FOR_EXYNOS_AUDIO := 2 ^ 41,
    XHCI_STATE_REMOVING := 2 ^ 2, XHCI_HUB_EVENT_TIMEOUT := 100 }

/-- All switches off except the port power optimisation the file relies on. -/
def Config.sample : Config :=
  { CONFIG_PCI := false, CONFIG_SND_EXYNOS_USB_AUDIO := false,
    CONFIG_USB_HOST_SAMSUNG_FEATURE := false, CONFIG_USB_PORT_POWER_OPTIMIZATION := true }

/-- A device with a firmware node and a DMA mask, none of the quirk
properties, no system PHY (`-ENODEV`), both Exynos PHYs and
`xhci_l2_support = 1`. -/
def Device.plain : Device :=
  { is_of_node := true, is_acpi_device_node := false, on_pci_bus := false,
    has_dma_mask := true, dma_coerce64_ret := 0, dma_set64_ret := 0, dma_set32_ret := 0,
    usb2_lpm_disable := false, usb3_lpm_capable := false, quirk_broken_port_ped := false,
    imod_interval_ns := none, usb_phy := .err (-19), usb_phy_init_ret := 0,
    phy_usb2 := .valid, phy_usb3 := .valid,
    xhci_l2_support := ⟨0, 1⟩, xhci_use_uram_for_audio := ⟨-22, 0⟩,
    usb_audio_offloading := ⟨-22, 0⟩, tpl_support := false }

/-- An environment in which every step of attach succeeds: the device has one
parent and both clocks. -/
def ProbeEnv.good : ProbeEnv :=
  { dev := Device.plain, ancestors := [Device.plain], usb_disabled := false, irq := 42,
    create_hcd_ok := true, ioremap := .valid, reg_clk := .valid, reg_clk_enable_ret := 0,
    clk := .valid, clk_enable_ret := 0, priv_match := none, create_shared_hcd_ok := true,
    uram_addrs_defined := true, add_hcd_ret := 0, hcc_max_psa := 4, add_shared_hcd_ret := 0,
    exynos_usb_audio_init_ret := 0, sysfs_create_group_ret := 0 }

/-- An environment that differs from `ProbeEnv.good` in `usb_disabled()`. -/
def ProbeEnv.usb_off : ProbeEnv := { ProbeEnv.good with usb_disabled := true }

/-- A state whose status register reads all ones. -/
def State.ones : State := { State.zero with regs := fun _ => 0xFFFFFFFF }

/-- A device that defines `imod-interval-ns` as `v`. -/
def Device.with_imod (v : Nat) : Device := { Device.plain with imod_interval_ns := some v }

/-- A device that has the property `usb2-lpm-disable`. -/
def Device.lpm_off : Device := { Device.plain with usb2_lpm_disable := true }

/-- An environment in which only the registration of the companion fails. -/
def ProbeEnv.companion_fails : ProbeEnv := { ProbeEnv.good with add_shared_hcd_ret := -12 }

/-- A root hub below which a device stays for the first `n` passes. -/
def RootHub.busy_for (n : Nat) : RootHub := fun i => if i < n then [none, some 2] else [none]

/-- Teardown with a parent, both root hubs present, a device on the primary
root hub for the first `n` passes. -/
def RemoveEnv.busy_for (n : Nat) : RemoveEnv :=
  { parent := true, rhdev := some (RootHub.busy_for n), srhdev := some (fun _ => []),
    shared_rh_suspended := true, main_rh_suspended := true }

/-- The state a successful attach leaves behind. -/
def State.bound : State :=
  (xhci_plat_probe Config.sample XhciH.sample ProbeEnv.good State.zero).st

/-- The state after a successful attach, with the removal flag already set. -/
def State.removing : State :=
  { State.bound with xhc_state := State.bound.xhc_state ||| XhciH.sample.XHCI_STATE_REMOVING }

/-- An environment in which both DMA mask calls fail with -5. -/
def ProbeEnv.no_dma : ProbeEnv :=
  { ProbeEnv.good with dev := { Device.plain with dma_set64_ret := -5, dma_set32_ret := -5 } }

/-- An environment that differs from `ProbeEnv.good` in the system PHY lookup,
which fails with `-EPROBE_DEFER`. -/
def ProbeEnv.phy_deferred : ProbeEnv :=
  { ProbeEnv.good with dev := { Device.plain with usb_phy := .err (-EPROBE_DEFER) } }

/-- The system PHY lookup fails with `-ENODEV`, as in `ProbeEnv.good`, and the
registration of the primary fails with `-EPROBE_DEFER`. -/
def ProbeEnv.late_defer : ProbeEnv := { ProbeEnv.good with add_hcd_ret := -EPROBE_DEFER }

/-- The system PHY lookup fails with `-ENODEV`, as in `ProbeEnv.good`, and the
registration of the primary fails with `-ENODEV` as well. -/
def ProbeEnv.late_enodev : ProbeEnv := { ProbeEnv.good with add_hcd_ret := -ENODEV }

/-- An environment that differs from `ProbeEnv.good` in that the platform
device has no parent. -/
def ProbeEnv.orphan : ProbeEnv := { ProbeEnv.good with ancestors := [] }

/-- The controller's own device defines `imod-interval-ns` as 100 and its
parent as 200; everything else as in `ProbeEnv.good`. -/
def ProbeEnv.imod_chain : ProbeEnv :=
  { ProbeEnv.good with dev := Device.with_imod 100, ancestors := [Device.with_imod 200] }

/-- The controller's own device and its parent do not have `usb2-lpm-disable`,
the grandparent has it; everything else as in `ProbeEnv.good`. -/
def ProbeEnv.lpm_grandparent : ProbeEnv :=
  { ProbeEnv.good with ancestors := [Device.plain, Device.lpm_off] }

/-! ## Reading a trace -/

/-- Effect of one call on the registration of controller `h`. -/
def hcd_step (h : HcdId) (b : Bool) : Ev → Bool
  | .usb_add_hcd h1 ret => if h1 = h ∧ ret = 0 then true else b
  | .usb_remove_hcd h1 => if h1 = h then false else b
  | _ => b

/-- Whether controller `h` is registered with the USB core after the calls of
`tr`, when `init` says whether it was registered before them: a successful
`usb_add_hcd` registers it, `usb_remove_hcd` unregisters it. -/
def hcd_registered (h : HcdId) (init : Bool) (tr : List Ev) : Bool :=
  tr.foldl (hcd_step h) init

/-- The values stored to `is_rewa_enabled`, in order. -/
def rewa_stores (tr : List Ev) : List Int :=
  tr.filterMap fun e =>
    match e with
    | .set_is_rewa_enabled v => some v
    | _ => none

/-- The `exynos_usbdrd_phy_vendor_set` calls, in order. -/
def phy_vendor_calls (tr : List Ev) : List Ev :=
  tr.filter fun e =>
    match e with
    | .exynos_usbdrd_phy_vendor_set _ _ _ => true
    | _ => false

/-- Calls that register or unregister a controller. -/
def Ev.is_hcd_reg : Ev → Bool
  | .usb_add_hcd _ _ => true
  | .usb_remove_hcd _ => true
  | _ => false

/-- The DMA mask calls. -/
def Ev.is_dma : Ev → Bool
  | .dma_coerce_mask_and_coherent _ _ => true
  | .dma_set_mask_and_coherent _ _ => true
  | _ => false

/-- Calls that release a wake lock or unregister a wakeup source. -/
def Ev.is_wake_release : Ev → Bool
  | .pm_relax _ => true
  | .wakeup_source_unregister _ => true
  | _ => false

/-- Stores to `is_rewa_enabled`. -/
def Ev.is_rewa_store : Ev → Bool
  | .set_is_rewa_enabled _ => true
  | _ => false

/-- Calls other than DMA mask calls, controller (un)registration, wake-lock
release and stores to `is_rewa_enabled`. -/
def Ev.is_plain (e : Ev) : Bool :=
  !e.is_hcd_reg && !e.is_dma && !e.is_wake_release && !e.is_rewa_store

/-- Number of consecutive passes, starting at pass `i` and at most `bound`
of them, in which `poll` holds. -/
def leading_waits (poll : Nat → Bool) : Nat → Nat → Nat
  | 0, _ => 0
  | bound + 1, i => if poll i then leading_waits poll bound (i + 1) + 1 else 0

/-- The registration of the companion failed with `e` and the function undid
the registration of the primary right after it and returned `e`. -/
def CompanionFailUnwound (e : Int) (r : Result) : Prop :=
  r.ret = .returned e ∧
  (∃ pre post, r.trace = pre ++ Ev.usb_add_hcd .main 0 :: Ev.usb_add_hcd .shared e ::
      Ev.usb_remove_hcd .main :: post) ∧
  hcd_registered .main false r.trace = false ∧
  hcd_registered .shared false r.trace = false

/-- Number of `usleep_range` calls the wait of teardown is to make: the
leading passes that see a device, at most `ceil(T / 21)` of them, and none
when a root hub is NULL. -/
def remove_sleeps (k : XhciH) (env : RemoveEnv) : Nat :=
  match env.rhdev, env.srhdev with
  | some rh, some srh =>
    leading_waits (need_wait rh srh) ((k.XHCI_HUB_EVENT_TIMEOUT + 20) / 21) 0
  | _, _ => 0

/-- Calls that map, unmap or access the register window, or hand the
controller to code that does. -/
def Ev.touches_regs : Ev → Bool
  | .devm_ioremap_resource _ => true
  | .devm_iounmap => true
  | .xhci_portsc_power_off => true
  | .plat_setup _ => true
  | .usb_add_hcd _ _ => true
  | .usb_remove_hcd _ => true
  | .readl _ _ => true
  | .writel _ _ => true
  | _ => false

/-- A DMA mask call that returned 0. -/
def Ev.is_dma_ok : Ev → Bool
  | .dma_coerce_mask_and_coherent _ ret => ret == 0
  | .dma_set_mask_and_coherent _ ret => ret == 0
  | _ => false

/-- The DMA mask calls of a trace, in order. -/
def dma_calls (tr : List Ev) : List Ev := tr.filter Ev.is_dma

/-- The resources attach acquires. -/
inductive Resource where
  | wakeup_source (w : WakeId)
  | wake_lock (w : WakeId)
  | runtime_pm_enable
  | runtime_pm_ref
  | hcd_context (h : HcdId)
  | clk_enabled (c : ClkId)
  | usb_phy_initialised
  | hcd_registration (h : HcdId)
  deriving DecidableEq, Repr

/-- Whether the call acquires the resource. -/
def Ev.acquires : Ev → Resource → Bool
  | .wakeup_source_register w, .wakeup_source w1 => w = w1
  | .pm_stay_awake w, .wake_lock w1 => w = w1
  | .pm_runtime_enable, .runtime_pm_enable => true
  | .pm_runtime_get_noresume, .runtime_pm_ref => true
  | .pm_runtime_get_sync, .runtime_pm_ref => true
  | .usb_create_hcd h ok, .hcd_context h1 => h = h1 && ok
  | .clk_prepare_enable c present ret, .clk_enabled c1 => c = c1 && present && ret == 0
  | .usb_phy_init present ret, .usb_phy_initialised => present && ret == 0
  | .usb_add_hcd h ret, .hcd_registration h1 => h = h1 && ret == 0
  | _, _ => false

/-- Whether the call releases the resource. -/
def Ev.releases : Ev → Resource → Bool
  | .wakeup_source_unregister w, .wakeup_source w1 => w = w1
  | .pm_relax w, .wake_lock w1 => w = w1
  | .pm_runtime_disable, .runtime_pm_enable => true
  | .pm_runtime_put_noidle, .runtime_pm_ref => true
  | .usb_put_hcd h, .hcd_context h1 => h = h1
  | .clk_disable_unprepare c present, .clk_enabled c1 => c = c1 && present
  | .usb_phy_shutdown present, .usb_phy_initialised => present
  | .usb_remove_hcd h, .hcd_registration h1 => h = h1
  | _, _ => false

/-- Number of calls of `tr` that acquire `r`. -/
def acquired (r : Resource) (tr : List Ev) : Nat := tr.countP fun e => e.acquires r

/-- Number of calls of `tr` that release `r`. -/
def released (r : Resource) (tr : List Ev) : Nat := tr.countP fun e => e.releases r

/-- Plain calls and controller (un)registration. -/
def Ev.is_plain_or_reg (e : Ev) : Bool := e.is_plain || e.is_hcd_reg

/-- The resources released by the unwind labels of attach (all but the
wakeup sources and wake locks). -/
def Resource.unwound : Resource → Bool
  | .wakeup_source _ => false
  | .wake_lock _ => false
  | _ => true

/-- What attach holds of a resource after `stage` of its acquisition steps:
1 the runtime-PM enable and reference and the primary context, 2 the reg
clock, 3 the bus clock and the companion context, 4 the system PHY. -/
def probe_held (stage : Nat) (st : State) : Resource → Nat
  | .runtime_pm_enable => if 1 ≤ stage then 1 else 0
  | .runtime_pm_ref => if 1 ≤ stage then 1 else 0
  | .hcd_context .main => if 1 ≤ stage then 1 else 0
  | .clk_enabled .reg => if 2 ≤ stage ∧ st.reg_clk.is_valid then 1 else 0
  | .clk_enabled .bus => if 3 ≤ stage ∧ st.clk.is_valid then 1 else 0
  | .hcd_context .shared => if 3 ≤ stage then 1 else 0
  | .usb_phy_initialised => if 4 ≤ stage ∧ st.usb_phy.is_valid then 1 else 0
  | _ => 0

/-- The Exynos PHY lookups `devm_phy_get(parent, ...)`. -/
def Ev.is_phy_get : Ev → Bool
  | .devm_phy_get _ => true
  | _ => false

/-- The calls of `tr` that follow the first call `e`. -/
def calls_after (e : Ev) (tr : List Ev) : List Ev :=
  (tr.dropWhile fun x => x != e).tail

/-! ## Rules for reasoning about attach -/

@[simp]
theorem after_trace (tr : List Ev) (r : Result) : (r.after tr).trace = tr ++ r.trace :=
  rfl

theorem after_after (r : Result) (a b : List Ev) : (r.after a).after b = r.after (b ++ a) := by
  simp [Result.after, List.append_assoc]

@[simp]
theorem after_ret (tr : List Ev) (r : Result) : (r.after tr).ret = r.ret := rfl

@[simp]
theorem after_st (tr : List Ev) (r : Result) : (r.after tr).st = r.st := rfl

@[simp]
theorem hcd_registered_nil (h : HcdId) (b : Bool) : hcd_registered h b [] = b := rfl

@[simp]
theorem hcd_registered_cons (h : HcdId) (b : Bool) (e : Ev) (t : List Ev) :
    hcd_registered h b (e :: t) = hcd_registered h (hcd_step h b e) t := rfl

@[simp]
theorem hcd_registered_append (h : HcdId) (b : Bool) (t u : List Ev) :
    hcd_registered h b (t ++ u) = hcd_registered h (hcd_registered h b t) u := by
  simp [hcd_registered, List.foldl_append]

theorem hcd_registered_of_no_reg (h : HcdId) (b : Bool) (tr : List Ev)
    (hn : ∀ x ∈ tr, x.is_hcd_reg = false) : hcd_registered h b tr = b := by
  induction tr generalizing b with
  | nil => rfl
  | cons x t ih =>
    have hx := hn x (by simp)
    have ht := ih (b := hcd_step h b x) (fun y hy => hn y (by simp [hy]))
    rw [hcd_registered_cons, ht]
    cases x <;> first | rfl | simp [Ev.is_hcd_reg] at hx

@[simp]
theorem acquired_nil (r : Resource) : acquired r [] = 0 := rfl

@[simp]
theorem released_nil (r : Resource) : released r [] = 0 := rfl

@[simp]
theorem acquired_cons (r : Resource) (e : Ev) (t : List Ev) :
    acquired r (e :: t) = acquired r t + (if e.acquires r then 1 else 0) := by
  simp [acquired, List.countP_cons]

@[simp]
theorem released_cons (r : Resource) (e : Ev) (t : List Ev) :
    released r (e :: t) = released r t + (if e.releases r then 1 else 0) := by
  simp [released, List.countP_cons]

@[simp]
theorem acquired_append (r : Resource) (t u : List Ev) :
    acquired r (t ++ u) = acquired r t + acquired r u := by
  simp [acquired, List.countP_append]

@[simp]
theorem released_append (r : Resource) (t u : List Ev) :
    released r (t ++ u) = released r t + released r u := by
  simp [released, List.countP_append]

theorem countP_eq_zero_of_all (P : Ev → Bool) (tr : List Ev)
    (h : ∀ x ∈ tr, P x = false) : tr.countP P = 0 := by
  rw [List.countP_eq_zero]
  intro x hx
  simp [h x hx]

theorem no_reg_of_plain (tr : List Ev) (hp : ∀ x ∈ tr, x.is_plain = true) :
    ∀ x ∈ tr, x.is_hcd_reg = false := by
  intro x hx
  have := hp x hx
  simp only [Ev.is_plain, Bool.and_eq_true, Bool.not_eq_true'] at this
  exact this.1.1.1

theorem no_dma_of_plain (tr : List Ev) (hp : ∀ x ∈ tr, x.is_plain = true) :
    ∀ x ∈ tr, x.is_dma = false := by
  intro x hx
  have := hp x hx
  simp only [Ev.is_plain, Bool.and_eq_true, Bool.not_eq_true'] at this
  exact this.1.1.2

theorem no_wake_release_of_plain (tr : List Ev) (hp : ∀ x ∈ tr, x.is_plain = true) :
    ∀ x ∈ tr, x.is_wake_release = false := by
  intro x hx
  have := hp x hx
  simp only [Ev.is_plain, Bool.and_eq_true, Bool.not_eq_true'] at this
  exact this.1.2

theorem no_rewa_store_of_plain (tr : List Ev) (hp : ∀ x ∈ tr, x.is_plain = true) :
    ∀ x ∈ tr, x.is_rewa_store = false := by
  intro x hx
  have := hp x hx
  simp only [Ev.is_plain, Bool.and_eq_true, Bool.not_eq_true'] at this
  exact this.2

theorem plain_or_reg_spec (x : Ev) (h : x.is_plain_or_reg = true) :
    x.is_dma = false ∧ x.is_wake_release = false ∧ x.is_rewa_store = false := by
  cases x <;>
    simp [Ev.is_plain_or_reg, Ev.is_plain, Ev.is_hcd_reg, Ev.is_dma, Ev.is_wake_release,
      Ev.is_rewa_store] at h ⊢

theorem all_plain_or_reg_of_plain (tr : List Ev) (hp : ∀ x ∈ tr, x.is_plain = true) :
    tr.all Ev.is_plain_or_reg = true := by
  rw [List.all_eq_true]
  intro x hx
  simp [Ev.is_plain_or_reg, hp x hx]

theorem plat_setup_plain (p : Option PlatPriv) :
    ∀ x ∈ (xhci_priv_plat_setup p).2, x.is_plain = true := by
  unfold xhci_priv_plat_setup
  cases p with
  | none => simp
  | some pv => cases hp : pv.plat_setup <;> simp [hp, Ev.is_plain, Ev.is_hcd_reg, Ev.is_dma, Ev.is_wake_release, Ev.is_rewa_store]

theorem plat_setup_counts (p : Option PlatPriv) (r : Resource) :
    acquired r (xhci_priv_plat_setup p).2 = 0 ∧ released r (xhci_priv_plat_setup p).2 = 0 := by
  unfold xhci_priv_plat_setup
  cases p with
  | none => simp
  | some pv => cases hp : pv.plat_setup <;> cases r <;> simp [hp, Ev.acquires, Ev.releases]

theorem probe_audio_plain (cfg : Config) (env : ProbeEnv) (parent : Device) (st : State) :
    ∀ x ∈ (probe_audio cfg env parent st).trace, x.is_plain = true := by
  unfold probe_audio probe_success
  simp only []
  split_ifs <;> simp [Ev.is_plain, Ev.is_hcd_reg, Ev.is_dma, Ev.is_wake_release, Ev.is_rewa_store, Ev.is_wake_release, Ev.is_rewa_store]

theorem probe_dma64_cases (d : Device) :
    (probe_dma64 d).2 = Ev.dma_coerce_mask_and_coherent 64 (probe_dma64 d).1 ∨
    (probe_dma64 d).2 = Ev.dma_set_mask_and_coherent 64 (probe_dma64 d).1 := by
  unfold probe_dma64
  split_ifs <;> simp

theorem probe_dma64_is_dma (d : Device) : (probe_dma64 d).2.is_dma = true := by
  rcases probe_dma64_cases d with h | h <;> rw [h] <;> rfl

theorem probe_dma64_ok (d : Device) (h : (probe_dma64 d).1 = 0) :
    (probe_dma64 d).2.is_dma_ok = true := by
  rcases probe_dma64_cases d with h1 | h1 <;> rw [h1, h] <;> rfl

theorem probe_dma64_no_touch (d : Device) : (probe_dma64 d).2.touches_regs = false := by
  rcases probe_dma64_cases d with h | h <;> rw [h] <;> rfl

theorem probe_dma64_counts (d : Device) (r : Resource) :
    (probe_dma64 d).2.acquires r = false ∧ (probe_dma64 d).2.releases r = false := by
  rcases probe_dma64_cases d with h | h <;> rw [h] <;> cases r <;> exact ⟨rfl, rfl⟩

section chain

variable (cfg : Config) (k : XhciH) (env : ProbeEnv) (Q : Result → Prop)
  (hafter : ∀ (r : Result) (tr : List Ev), (∀ x ∈ tr, x.is_plain = true) → Q r → Q (r.after tr))
  (hleaf : ∀ (st : State) (tr : List Ev) (ret : Outcome), (∀ x ∈ tr, x.is_plain = true) →
    Q ⟨st, tr, ret⟩)
  (hreg : ∀ (parent : Device) (st : State), Q (probe_register cfg k env parent st))

include hafter hleaf hreg

theorem probe_parent_rule (sysdev : Device) (st : State) :
    Q (probe_parent cfg k env sysdev st) := by
  unfold probe_parent
  simp only []
  cases env.ancestors.head? with
  | none => exact hleaf _ _ _ (by simp)
  | some p => exact hafter _ _ (by simp [Ev.is_plain, Ev.is_hcd_reg, Ev.is_dma, Ev.is_wake_release, Ev.is_rewa_store, Ev.is_wake_release, Ev.is_rewa_store]) (hreg _ _)

theorem probe_usb_phy_rule (sysdev : Device) (st : State) :
    Q (probe_usb_phy cfg k env sysdev st) := by
  have hp := probe_parent_rule cfg k env Q hafter hleaf hreg sysdev
  unfold probe_usb_phy
  simp only []
  split <;> (try split_ifs) <;>
    first
    | exact hafter _ _ (by simp [Ev.is_plain, Ev.is_hcd_reg, Ev.is_dma, Ev.is_wake_release, Ev.is_rewa_store, Ev.is_wake_release, Ev.is_rewa_store]) (hp _)
    | exact hleaf _ _ _ (by simp [Ev.is_plain, Ev.is_hcd_reg, Ev.is_dma, Ev.is_wake_release, Ev.is_rewa_store, probe_put_usb3_hcd,
        probe_disable_clk, probe_disable_reg_clk, probe_put_hcd, probe_disable_runtime])

theorem probe_bus_clk_rule (sysdev : Device) (st : State) :
    Q (probe_bus_clk cfg k env sysdev st) := by
  have hp := probe_usb_phy_rule cfg k env Q hafter hleaf hreg sysdev
  unfold probe_bus_clk
  simp only []
  split <;> (try split_ifs) <;>
    first
    | exact hafter _ _ (by simp [Ev.is_plain, Ev.is_hcd_reg, Ev.is_dma, Ev.is_wake_release, Ev.is_rewa_store, Ev.is_wake_release, Ev.is_rewa_store]) (hp _)
    | exact hleaf _ _ _ (by simp [Ev.is_plain, Ev.is_hcd_reg, Ev.is_dma, Ev.is_wake_release, Ev.is_rewa_store,
        probe_disable_clk, probe_disable_reg_clk, probe_put_hcd, probe_disable_runtime])

theorem probe_reg_clk_rule (sysdev : Device) (st : State) :
    Q (probe_reg_clk cfg k env sysdev st) := by
  have hp := probe_bus_clk_rule cfg k env Q hafter hleaf hreg sysdev
  unfold probe_reg_clk
  simp only []
  split <;> (try split_ifs) <;>
    first
    | exact hafter _ _ (by simp [Ev.is_plain, Ev.is_hcd_reg, Ev.is_dma, Ev.is_wake_release, Ev.is_rewa_store, Ev.is_wake_release, Ev.is_rewa_store]) (hp _)
    | exact hleaf _ _ _ (by simp [Ev.is_plain, Ev.is_hcd_reg, Ev.is_dma, Ev.is_wake_release, Ev.is_rewa_store,
        probe_put_hcd, probe_disable_runtime])

/-- Induction over the steps of attach between the DMA mask and the
registration: a property that holds of `probe_register`, of every result
whose calls are plain, and that survives plain calls made before, holds of
`probe_hcd`. -/
theorem probe_hcd_rule (sysdev : Device) (st : State) :
    Q (probe_hcd cfg k env sysdev st) := by
  have hp := probe_reg_clk_rule cfg k env Q hafter hleaf hreg sysdev
  unfold probe_hcd
  simp only []
  split_ifs <;> (try split) <;>
    first
    | exact hafter _ _ (by simp [Ev.is_plain, Ev.is_hcd_reg, Ev.is_dma, Ev.is_wake_release, Ev.is_rewa_store, Ev.is_wake_release, Ev.is_rewa_store]) (hp _)
    | exact hleaf _ _ _ (by simp [Ev.is_plain, Ev.is_hcd_reg, Ev.is_dma, Ev.is_wake_release, Ev.is_rewa_store,
        probe_put_hcd, probe_disable_runtime])

end chain

theorem probe_register_events (cfg : Config) (k : XhciH) (env : ProbeEnv)
    (parent : Device) (st : State) :
    (probe_register cfg k env parent st).trace.all Ev.is_plain_or_reg = true := by
  have hs := all_plain_or_reg_of_plain _ (plat_setup_plain env.priv_match)
  have ha := fun st => all_plain_or_reg_of_plain _ (probe_audio_plain cfg env parent st)
  unfold probe_register
  simp only []
  split_ifs <;>
    simp [List.all_append, hs, ha, probe_dealloc_usb2_hcd, probe_disable_usb_phy,
      probe_put_usb3_hcd, probe_disable_clk, probe_disable_reg_clk, probe_put_hcd,
      probe_disable_runtime, Ev.is_plain_or_reg, Ev.is_plain, Ev.is_hcd_reg, Ev.is_dma,
      Ev.is_wake_release, Ev.is_rewa_store]

theorem probe_hcd_events (cfg : Config) (k : XhciH) (env : ProbeEnv)
    (sysdev : Device) (st : State) :
    (probe_hcd cfg k env sysdev st).trace.all Ev.is_plain_or_reg = true :=
  probe_hcd_rule cfg k env (fun r => r.trace.all Ev.is_plain_or_reg = true)
    (fun r tr hp h => by
      show (r.after tr).trace.all Ev.is_plain_or_reg = true
      rw [after_trace, List.all_append, all_plain_or_reg_of_plain tr hp, h]
      rfl)
    (fun st tr ret hp => all_plain_or_reg_of_plain tr hp)
    (probe_register_events cfg k env) sysdev st

theorem probe_hcd_no_dma (cfg : Config) (k : XhciH) (env : ProbeEnv) (sysdev : Device)
    (st : State) : ∀ x ∈ (probe_hcd cfg k env sysdev st).trace, x.is_dma = false :=
  fun x hx => (plain_or_reg_spec x
    (List.all_eq_true.mp (probe_hcd_events cfg k env sysdev st) x hx)).1

theorem probe_head_no_touch (d : Device) (tail : List Ev)
    (ht : ∀ x ∈ tail, x.touches_regs = false) :
    ∀ x ∈ [Ev.wakeup_source_register .main, Ev.pm_stay_awake .main,
        Ev.wakeup_source_register .shared, Ev.pm_stay_awake .shared,
        Ev.set_is_rewa_enabled 0] ++ (probe_dma64 d).2 :: tail,
      x.touches_regs = false := by
  intro x hx
  simp only [List.cons_append, List.nil_append, List.mem_cons] at hx
  rcases hx with rfl | rfl | rfl | rfl | rfl | rfl | hx
  · rfl
  · rfl
  · rfl
  · rfl
  · rfl
  · exact probe_dma64_no_touch d
  · exact ht x hx

/-- The ways `xhci_plat_probe` gets past, or fails at, the DMA mask. -/
theorem probe_cases (cfg : Config) (k : XhciH) (env : ProbeEnv) (st : State) :
    let sysdev := probe_sysdev cfg env.dev (env.dev :: env.ancestors)
    let A0 := [Ev.wakeup_source_register .main, Ev.pm_stay_awake .main,
      Ev.wakeup_source_register .shared, Ev.pm_stay_awake .shared, Ev.set_is_rewa_enabled 0]
    ((env.usb_disabled = true ∨ env.irq < 0) ∧ (xhci_plat_probe cfg k env st).trace = A0) ∨
    (env.usb_disabled = false ∧ 0 ≤ env.irq ∧ (probe_dma64 sysdev).1 ≠ 0 ∧
      sysdev.dma_set32_ret ≠ 0 ∧
      (xhci_plat_probe cfg k env st).ret = .returned sysdev.dma_set32_ret ∧
      (xhci_plat_probe cfg k env st).trace
        = A0 ++ [(probe_dma64 sysdev).2, Ev.dma_set_mask_and_coherent 32 sysdev.dma_set32_ret]) ∨
    (env.usb_disabled = false ∧ 0 ≤ env.irq ∧ (probe_dma64 sysdev).1 ≠ 0 ∧
      sysdev.dma_set32_ret = 0 ∧
      ∃ st1, xhci_plat_probe cfg k env st = (probe_hcd cfg k env sysdev st1).after
        (A0 ++ [(probe_dma64 sysdev).2, Ev.dma_set_mask_and_coherent 32 0])) ∨
    (env.usb_disabled = false ∧ 0 ≤ env.irq ∧ (probe_dma64 sysdev).1 = 0 ∧
      ∃ st1, xhci_plat_probe cfg k env st = (probe_hcd cfg k env sysdev st1).after
        (A0 ++ [(probe_dma64 sysdev).2])) := by
  intro sysdev A0
  unfold xhci_plat_probe
  simp only []
  by_cases h1 : env.usb_disabled = true
  · left
    rw [if_pos h1]
    exact ⟨Or.inl h1, rfl⟩
  · by_cases h2 : env.irq < 0
    · left
      rw [if_neg h1, if_pos h2]
      exact ⟨Or.inr h2, rfl⟩
    · have h1' : env.usb_disabled = false := by simpa using h1
      have h2' : 0 ≤ env.irq := by omega
      right
      rw [if_neg h1, if_neg h2]
      by_cases h3 : (probe_dma64 sysdev).1 = 0
      · right; right
        rw [if_neg (not_not.mpr h3)]
        exact ⟨h1', h2', h3, _, rfl⟩
      · rw [if_pos h3]
        by_cases h4 : sysdev.dma_set32_ret = 0
        · right; left
          rw [if_neg (not_not.mpr h4)]
          refine ⟨h1', h2', h3, h4, probe_globals cfg st, ?_⟩
          simp only [sysdev] at h4 ⊢
          rw [h4]
          rfl
        · left
          rw [if_pos h4]
          exact ⟨h1', h2', h3, h4, rfl, rfl⟩

/-! ## The wait loop of teardown -/

theorem hub_wait_loop_eq (T : Nat) (rh srh : RootHub) (n : Nat) :
    ∀ t i, T - t = n →
      hub_wait_loop T rh srh t i
        = List.replicate (leading_waits (need_wait rh srh) ((T - t + 20) / 21) i)
            Ev.usleep_range := by
  induction n using Nat.strong_induction_on with
  | _ n ih =>
    intro t i hn
    rw [hub_wait_loop]
    by_cases ht : t < T
    · have hb : (T - t + 20) / 21 = (T - (t + 20 + 1) + 20) / 21 + 1 := by omega
      rw [if_pos ht, hb, leading_waits]
      by_cases hw : need_wait rh srh i = true
      · simp only [hw, beq_self_eq_true, if_true]
        rw [ih (T - (t + 20 + 1)) (by omega) (t + 20 + 1) (i + 1) rfl]
        rfl
      · simp [hw]
    · have hb : (T - t + 20) / 21 = 0 := by omega
      rw [if_neg ht, hb]
      rfl

theorem leading_waits_le (poll : Nat → Bool) (b i : Nat) : leading_waits poll b i ≤ b := by
  induction b generalizing i with
  | zero => simp [leading_waits]
  | succ b ih =>
    rw [leading_waits]
    split_ifs
    · have := ih (i + 1); omega
    · omega

theorem leading_waits_of_first_clear (poll : Nat → Bool) (b : Nat) :
    ∀ i N, (∀ j, j < N → poll (i + j) = true) → poll (i + N) = false →
      leading_waits poll b i = min N b := by
  induction b with
  | zero => intro i N _ _; simp [leading_waits]
  | succ b ih =>
    intro i N h1 h2
    rw [leading_waits]
    cases N with
    | zero =>
      have : poll i = false := by simpa using h2
      simp [this]
    | succ N =>
      have h0 : poll i = true := by simpa using h1 0 (by omega)
      have := ih (i + 1) N (fun j hj => by
        have := h1 (j + 1) (by omega)
        rwa [show i + (j + 1) = i + 1 + j by omega] at this)
        (by rwa [show i + (N + 1) = i + 1 + N by omega] at h2)
      rw [if_pos h0, this]
      omega

theorem leading_waits_of_never_clear (poll : Nat → Bool) (b : Nat) :
    ∀ i, (∀ j, poll (i + j) = true) → leading_waits poll b i = b := by
  induction b with
  | zero => intro i _; simp [leading_waits]
  | succ b ih =>
    intro i h
    rw [leading_waits]
    have h0 : poll i = true := by simpa using h 0
    have := ih (i + 1) (fun j => by
      have := h (j + 1)
      rwa [show i + (j + 1) = i + 1 + j by omega] at this)
    rw [if_pos h0, this]

theorem remove_wait_eq (k : XhciH) (env : RemoveEnv) :
    remove_wait k env = List.replicate (remove_sleeps k env) Ev.usleep_range := by
  unfold remove_wait remove_sleeps
  split
  · rw [hub_wait_loop_eq _ _ _ _ 0 0 rfl]
    rfl
  · rfl

theorem replicate_usleep_plain (n : Nat) :
    ∀ x ∈ List.replicate n Ev.usleep_range, x.is_plain = true := by
  intro x hx
  rw [List.eq_of_mem_replicate hx]
  rfl

/-- The calls of teardown from `pm_runtime_get_sync` on. -/
theorem remove_body_trace (k : XhciH) (env : RemoveEnv) (st : State) :
    (remove_body k env st).trace =
      [Ev.pm_runtime_get_sync, Ev.pm_relax .main, Ev.pm_relax .shared,
       Ev.wakeup_source_unregister .main, Ev.wakeup_source_unregister .shared]
      ++ List.replicate (remove_sleeps k env) Ev.usleep_range
      ++ [Ev.usb_remove_hcd .shared, Ev.usb_phy_shutdown st.usb_phy.is_valid,
          Ev.usb_remove_hcd .main, Ev.devm_iounmap, Ev.usb_put_hcd .shared,
          Ev.clk_disable_unprepare .bus st.clk.is_valid,
          Ev.clk_disable_unprepare .reg st.reg_clk.is_valid, Ev.usb_put_hcd .main,
          Ev.pm_runtime_disable, Ev.pm_runtime_put_noidle, Ev.pm_runtime_set_suspended] := by
  simp [remove_body, remove_hcd, remove_wait_eq]

theorem remove_body_ret (k : XhciH) (env : RemoveEnv) (st : State) :
    (remove_body k env st).ret = .returned 0 := rfl

theorem remove_body_unregisters (k : XhciH) (env : RemoveEnv) (st : State) (h : HcdId)
    (b : Bool) : hcd_registered h b (remove_body k env st).trace = false := by
  rw [remove_body_trace]
  simp only [hcd_registered_append,
    hcd_registered_of_no_reg _ _ _ (no_reg_of_plain _ (replicate_usleep_plain _))]
  cases h <;> simp [hcd_step]

/-- How the statements of teardown end: they return 0 after the calls of
`remove_body`, preceded by the `pm_runtime_forbid` calls of the Samsung block,
or they read the runtime-PM status of a NULL root hub before any other call
than `pm_runtime_forbid`. -/
theorem remove_statements_cases (cfg : Config) (k : XhciH) (env : RemoveEnv) (st : State) :
    (∃ pre, (∀ x ∈ pre, ∃ t, x = Ev.pm_runtime_forbid t) ∧
      (cfg.CONFIG_USB_HOST_SAMSUNG_FEATURE = false → pre = []) ∧
      (remove_statements cfg k env st).trace
        = pre ++ (remove_body k env
            { st with usb3_portsc := none, pp_set_delayed := 0 }).trace ∧
      (remove_statements cfg k env st).ret = .returned 0 ∧
      (cfg.CONFIG_USB_HOST_SAMSUNG_FEATURE = false ∨
        (env.rhdev.isSome = true ∧ env.srhdev.isSome = true))) ∨
    ((remove_statements cfg k env st).ret = .null_deref ∧
      cfg.CONFIG_USB_HOST_SAMSUNG_FEATURE = true ∧
      (env.rhdev = none ∨ env.srhdev = none) ∧
      ∀ x ∈ (remove_statements cfg k env st).trace, ∃ t, x = Ev.pm_runtime_forbid t) := by
  unfold remove_statements
  simp only []
  by_cases hc : cfg.CONFIG_USB_HOST_SAMSUNG_FEATURE = true
  · rw [if_pos hc]
    cases hs : env.srhdev with
    | none => right; simp [hc]
    | some srh =>
      cases hr : env.rhdev with
      | none =>
        right
        refine ⟨rfl, hc, Or.inl rfl, ?_⟩
        simp only []
        split_ifs <;> simp
      | some rh =>
        left
        refine ⟨_, ?_, ?_, rfl, rfl, Or.inr ⟨rfl, rfl⟩⟩
        · intro x hx
          split_ifs at hx <;> simp at hx <;> aesop
        · simp [hc]
  · left
    rw [if_neg hc]
    exact ⟨[], by simp, fun _ => rfl, by simp, rfl, Or.inl (by simpa using hc)⟩

theorem remove_of_shared (cfg : Config) (k : XhciH) (env : RemoveEnv) (st : State)
    (h : st.shared_hcd = true) :
    xhci_plat_remove cfg k env st = remove_statements cfg k env st := by
  unfold xhci_plat_remove
  simp [h]

theorem remove_of_no_shared (cfg : Config) (k : XhciH) (env : RemoveEnv) (st : State)
    (h : st.shared_hcd = false) :
    xhci_plat_remove cfg k env st = ⟨st, [], .null_deref⟩ := by
  unfold xhci_plat_remove
  simp [h]

/-- How teardown ends: it returns 0 after the calls of `remove_body`, preceded
by the `pm_runtime_forbid` calls of the Samsung block, or it reads through a
NULL `xhci->shared_hcd` before any call, or it reads the runtime-PM status of
a NULL root hub before it made any other call than `pm_runtime_forbid`. -/
theorem remove_cases (cfg : Config) (k : XhciH) (env : RemoveEnv) (st : State) :
    (∃ pre, (∀ x ∈ pre, ∃ t, x = Ev.pm_runtime_forbid t) ∧
      (cfg.CONFIG_USB_HOST_SAMSUNG_FEATURE = false → pre = []) ∧
      (xhci_plat_remove cfg k env st).trace
        = pre ++ (remove_body k env
            { st with usb3_portsc := none, pp_set_delayed := 0 }).trace ∧
      (xhci_plat_remove cfg k env st).ret = .returned 0 ∧
      st.shared_hcd = true ∧
      (cfg.CONFIG_USB_HOST_SAMSUNG_FEATURE = false ∨
        (env.rhdev.isSome = true ∧ env.srhdev.isSome = true))) ∨
    ((xhci_plat_remove cfg k env st).ret = .null_deref ∧
      (st.shared_hcd = false ∨
        (cfg.CONFIG_USB_HOST_SAMSUNG_FEATURE = true ∧
          (env.rhdev = none ∨ env.srhdev = none))) ∧
      (st.shared_hcd = false → (xhci_plat_remove cfg k env st).trace = []) ∧
      ∀ x ∈ (xhci_plat_remove cfg k env st).trace, ∃ t, x = Ev.pm_runtime_forbid t) := by
  by_cases hsh : st.shared_hcd = true
  · rw [remove_of_shared cfg k env st hsh]
    rcases remove_statements_cases cfg k env st with
      ⟨pre, hpre, hnil, htr, hret, hor⟩ | ⟨hret, hc, hn, hall⟩
    · exact Or.inl ⟨pre, hpre, hnil, htr, hret, hsh, hor⟩
    · refine Or.inr ⟨hret, Or.inr ⟨hc, hn⟩, ?_, hall⟩
      intro h
      rw [hsh] at h
      cases h
  · have hsh' : st.shared_hcd = false := by simpa using hsh
    rw [remove_of_no_shared cfg k env st hsh']
    exact Or.inr ⟨rfl, Or.inl hsh', fun _ => rfl, by simp⟩

theorem forbid_no_reg (pre : List Ev) (h : ∀ x ∈ pre, ∃ t, x = Ev.pm_runtime_forbid t) :
    ∀ x ∈ pre, x.is_hcd_reg = false := by
  intro x hx
  obtain ⟨t, rfl⟩ := h x hx
  rfl

theorem count_usleep_remove_body (k : XhciH) (env : RemoveEnv) (st : State) :
    (remove_body k env st).trace.count Ev.usleep_range = remove_sleeps k env := by
  rw [remove_body_trace]
  simp [List.count_replicate]

theorem count_usleep_forbid (pre : List Ev) (h : ∀ x ∈ pre, ∃ t, x = Ev.pm_runtime_forbid t) :
    pre.count Ev.usleep_range = 0 := by
  rw [List.count_eq_zero]
  intro hm
  obtain ⟨t, ht⟩ := h _ hm
  cases ht

/-! ## Attach failure and the wakeup sources -/

/-- C1: at the first failure point of attach, `usb_disabled()` true, attach
returns `-ENODEV` after it registered both wakeup sources and took both wake
locks, and it released none of them: each was acquired once and released zero
times. -/
theorem probe_usb_disabled_leaks_wakeup_sources :
    (xhci_plat_probe Config.sample XhciH.sample ProbeEnv.usb_off State.zero).ret
        = Outcome.returned (-ENODEV) ∧
    (xhci_plat_probe Config.sample XhciH.sample ProbeEnv.usb_off State.zero).trace
        = [Ev.wakeup_source_register .main, Ev.pm_stay_awake .main,
           Ev.wakeup_source_register .shared, Ev.pm_stay_awake .shared,
           Ev.set_is_rewa_enabled 0] ∧
    (∀ w, acquired (.wakeup_source w)
        (xhci_plat_probe Config.sample XhciH.sample ProbeEnv.usb_off State.zero).trace = 1 ∧
      released (.wakeup_source w)
        (xhci_plat_probe Config.sample XhciH.sample ProbeEnv.usb_off State.zero).trace = 0 ∧
      acquired (.wake_lock w)
        (xhci_plat_probe Config.sample XhciH.sample ProbeEnv.usb_off State.zero).trace = 1 ∧
      released (.wake_lock w)
        (xhci_plat_probe Config.sample XhciH.sample ProbeEnv.usb_off State.zero).trace = 0) := by
  refine ⟨by decide, by decide, ?_⟩
  intro w
  cases w <;> decide

/-- Attach never releases a wake lock and never unregisters a wakeup source,
on any path: both wakeup sources it registered and both wake locks it took
are still held when it ends. -/
theorem probe_keeps_wakeup_sources (cfg : Config) (k : XhciH) (env : ProbeEnv) (st : State)
    (w : WakeId) :
    released (.wakeup_source w) (xhci_plat_probe cfg k env st).trace = 0 ∧
    released (.wake_lock w) (xhci_plat_probe cfg k env st).trace = 0 := by
  have hh : ∀ sysdev st1 x, x ∈ (probe_hcd cfg k env sysdev st1).trace →
      x.is_wake_release = false := fun sysdev st1 x hx =>
    (plain_or_reg_spec x (List.all_eq_true.mp (probe_hcd_events cfg k env sysdev st1) x hx)).2.1
  have hrel : ∀ (x : Ev) (r : Resource), x.is_wake_release = false →
      (r = .wakeup_source w ∨ r = .wake_lock w) → x.releases r = false := by
    intro x r hx hr
    rcases hr with rfl | rfl <;> cases x <;>
      first | rfl | simp [Ev.is_wake_release] at hx
  have hall : ∀ x ∈ (xhci_plat_probe cfg k env st).trace, x.is_wake_release = false := by
    intro x hx
    have hc := probe_cases cfg k env st
    simp only [] at hc
    have hd : (probe_dma64 (probe_sysdev cfg env.dev (env.dev :: env.ancestors))).2.is_wake_release
        = false := by
      rcases probe_dma64_cases (probe_sysdev cfg env.dev (env.dev :: env.ancestors)) with h | h <;>
        rw [h] <;> rfl
    rcases hc with ⟨_, htr⟩ | ⟨_, _, _, _, _, htr⟩ | ⟨_, _, _, _, st1, heq⟩ | ⟨_, _, _, st1, heq⟩
    · rw [htr] at hx
      simp only [List.mem_cons, List.mem_nil_iff, or_false] at hx
      rcases hx with rfl | rfl | rfl | rfl | rfl <;> rfl
    · rw [htr] at hx
      simp only [List.cons_append, List.nil_append, List.mem_cons, List.mem_nil_iff,
        or_false] at hx
      rcases hx with rfl | rfl | rfl | rfl | rfl | rfl | rfl
      all_goals first | rfl | exact hd
    · rw [heq, after_trace, List.mem_append] at hx
      rcases hx with hx | hx
      · simp only [List.cons_append, List.nil_append, List.mem_cons, List.mem_nil_iff,
          or_false] at hx
        rcases hx with rfl | rfl | rfl | rfl | rfl | rfl | rfl
        all_goals first | rfl | exact hd
      · exact hh _ _ _ hx
    · rw [heq, after_trace, List.mem_append] at hx
      rcases hx with hx | hx
      · simp only [List.cons_append, List.nil_append, List.mem_cons, List.mem_nil_iff,
          or_false] at hx
        rcases hx with rfl | rfl | rfl | rfl | rfl | rfl
        all_goals first | rfl | exact hd
      · exact hh _ _ _ hx
  exact ⟨countP_eq_zero_of_all _ _ (fun x hx => hrel x _ (hall x hx) (Or.inl rfl)),
    countP_eq_zero_of_all _ _ (fun x hx => hrel x _ (hall x hx) (Or.inr rfl))⟩

theorem probe_register_balanced (cfg : Config) (k : XhciH) (env : ProbeEnv)
    (parent : Device) (st : State) (r : Resource) (hr : r.unwound = true)
    (hf : Ev.usb_add_hcd .shared 0 ∉ (probe_register cfg k env parent st).trace) :
    acquired r (probe_register cfg k env parent st).trace + probe_held 4 st r
      = released r (probe_register cfg k env parent st).trace := by
  have hs := plat_setup_counts env.priv_match r
  unfold probe_register at hf ⊢
  simp only [] at hf ⊢
  by_cases h1 : (xhci_priv_plat_setup env.priv_match).1 = 0
  · by_cases h2 : env.add_hcd_ret = 0
    · by_cases h3 : env.add_shared_hcd_ret = 0
      · exfalso
        apply hf
        simp [h1, h2, h3]
      · simp only [h1, h2, h3, ne_eq, not_true_eq_false, not_false_eq_true, if_false, if_true,
          probe_dealloc_usb2_hcd, probe_disable_usb_phy, probe_put_usb3_hcd, probe_disable_clk,
          probe_disable_reg_clk, probe_put_hcd, probe_disable_runtime, acquired_append,
          released_append, acquired_cons, released_cons, acquired_nil, released_nil, hs.1, hs.2]
        rcases r with (_ | _) | (_ | _) | _ | _ | (_ | _) | (_ | _) | _ | (_ | _) <;>
          simp [Ev.acquires, Ev.releases, probe_held, Resource.unwound, h3] at hr ⊢
    · simp only [h1, h2, ne_eq, not_true_eq_false, not_false_eq_true, if_false, if_true,
        probe_dealloc_usb2_hcd, probe_disable_usb_phy, probe_put_usb3_hcd, probe_disable_clk,
        probe_disable_reg_clk, probe_put_hcd, probe_disable_runtime, acquired_append,
        released_append, acquired_cons, released_cons, acquired_nil, released_nil, hs.1, hs.2]
      rcases r with (_ | _) | (_ | _) | _ | _ | (_ | _) | (_ | _) | _ | (_ | _) <;>
        simp [Ev.acquires, Ev.releases, probe_held, Resource.unwound, h2] at hr ⊢
  · simp only [h1, ne_eq, not_true_eq_false, not_false_eq_true, if_false, if_true,
      probe_dealloc_usb2_hcd, probe_disable_usb_phy, probe_put_usb3_hcd, probe_disable_clk,
      probe_disable_reg_clk, probe_put_hcd, probe_disable_runtime, acquired_append,
      released_append, acquired_cons, released_cons, acquired_nil, released_nil, hs.1, hs.2]
    rcases r with (_ | _) | (_ | _) | _ | _ | (_ | _) | (_ | _) | _ | (_ | _) <;>
      simp [Ev.acquires, Ev.releases, probe_held, Resource.unwound] at hr ⊢

theorem probe_parent_balanced (cfg : Config) (k : XhciH) (env : ProbeEnv)
    (sysdev : Device) (st : State) (r : Resource) (hr : r.unwound = true)
    (hret : (probe_parent cfg k env sysdev st).ret ≠ .null_deref)
    (hf : Ev.usb_add_hcd .shared 0 ∉ (probe_parent cfg k env sysdev st).trace) :
    acquired r (probe_parent cfg k env sysdev st).trace + probe_held 4 st r
      = released r (probe_parent cfg k env sysdev st).trace := by
  unfold probe_parent at hret hf ⊢
  simp only [] at hret hf ⊢
  cases hp : env.ancestors.head? with
  | none => simp [hp] at hret
  | some p =>
    simp only [hp, after_trace, List.mem_append, not_or] at hf ⊢
    rw [acquired_append, released_append, ← probe_register_balanced cfg k env p _ r hr hf.2]
    rcases r with (_ | _) | (_ | _) | _ | _ | (_ | _) | (_ | _) | _ | (_ | _) <;>
      (simp [Ev.acquires, Ev.releases, probe_held, Resource.unwound] at hr ⊢)

theorem probe_usb_phy_balanced (cfg : Config) (k : XhciH) (env : ProbeEnv)
    (sysdev : Device) (st : State) (r : Resource) (hr : r.unwound = true)
    (hret : (probe_usb_phy cfg k env sysdev st).ret ≠ .null_deref)
    (hf : Ev.usb_add_hcd .shared 0 ∉ (probe_usb_phy cfg k env sysdev st).trace) :
    acquired r (probe_usb_phy cfg k env sysdev st).trace + probe_held 3 st r
      = released r (probe_usb_phy cfg k env sysdev st).trace := by
  revert hret hf
  unfold probe_usb_phy
  simp only []
  cases hu : sysdev.usb_phy with
  | err e =>
    simp only []
    by_cases h1 : e = -EPROBE_DEFER
    · intro _ _
      simp only [h1, if_true, probe_put_usb3_hcd, probe_disable_clk, probe_disable_reg_clk,
        probe_put_hcd, probe_disable_runtime, acquired_append, released_append,
        acquired_cons, released_cons, acquired_nil, released_nil]
      rcases r with (_ | _) | (_ | _) | _ | _ | (_ | _) | (_ | _) | _ | (_ | _) <;>
        (simp [Ev.acquires, Ev.releases, probe_held, Resource.unwound] at hr ⊢)
    · simp only [h1, if_false, after_trace, after_ret, List.mem_append, not_or]
      intro hret hf
      rw [acquired_append, released_append,
        ← probe_parent_balanced cfg k env sysdev _ r hr hret hf.2]
      rcases r with (_ | _) | (_ | _) | _ | _ | (_ | _) | (_ | _) | _ | (_ | _) <;>
        (simp [Ev.acquires, Ev.releases, probe_held, Resource.unwound, Ptr.is_valid] at hr ⊢)
  | null =>
    simp only [Ptr.is_valid, Bool.false_eq_true, if_false, ne_eq, not_true_eq_false,
      after_trace, after_ret, List.mem_append, not_or]
    intro hret hf
    rw [acquired_append, released_append,
      ← probe_parent_balanced cfg k env sysdev _ r hr hret hf.2]
    rcases r with (_ | _) | (_ | _) | _ | _ | (_ | _) | (_ | _) | _ | (_ | _) <;>
      (simp [Ev.acquires, Ev.releases, probe_held, Resource.unwound, Ptr.is_valid] at hr ⊢)
  | valid =>
    simp only [Ptr.is_valid, if_true]
    by_cases h1 : sysdev.usb_phy_init_ret = 0
    · simp only [h1, ne_eq, not_true_eq_false, if_false, after_trace, after_ret,
        List.mem_append, not_or]
      intro hret hf
      rw [acquired_append, released_append,
        ← probe_parent_balanced cfg k env sysdev _ r hr hret hf.2]
      rcases r with (_ | _) | (_ | _) | _ | _ | (_ | _) | (_ | _) | _ | (_ | _) <;>
        simp [Ev.acquires, Ev.releases, probe_held, Resource.unwound, Ptr.is_valid] at hr ⊢
      all_goals omega
    · intro _ _
      simp only [h1, ne_eq, not_false_eq_true, if_true, probe_put_usb3_hcd, probe_disable_clk,
        probe_disable_reg_clk, probe_put_hcd, probe_disable_runtime, acquired_append,
        released_append, acquired_cons, released_cons, acquired_nil, released_nil]
      rcases r with (_ | _) | (_ | _) | _ | _ | (_ | _) | (_ | _) | _ | (_ | _) <;>
        (simp [Ev.acquires, Ev.releases, probe_held, Resource.unwound, h1] at hr ⊢)

theorem probe_bus_clk_balanced (cfg : Config) (k : XhciH) (env : ProbeEnv)
    (sysdev : Device) (st : State) (r : Resource) (hr : r.unwound = true)
    (hret : (probe_bus_clk cfg k env sysdev st).ret ≠ .null_deref)
    (hf : Ev.usb_add_hcd .shared 0 ∉ (probe_bus_clk cfg k env sysdev st).trace) :
    acquired r (probe_bus_clk cfg k env sysdev st).trace + probe_held 2 st r
      = released r (probe_bus_clk cfg k env sysdev st).trace := by
  revert hret hf
  unfold probe_bus_clk
  simp only []
  cases hclk : env.clk with
  | err e =>
    intro _ _
    simp only [probe_disable_reg_clk, probe_put_hcd, probe_disable_runtime, acquired_append,
      released_append, acquired_cons, released_cons, acquired_nil, released_nil]
    rcases r with (_ | _) | (_ | _) | _ | _ | (_ | _) | (_ | _) | _ | (_ | _) <;>
      simp [Ev.acquires, Ev.releases, probe_held, Resource.unwound, Ptr.is_valid] at hr ⊢
  | null =>
    simp only [Ptr.is_valid, Bool.false_eq_true, if_false, ne_eq, not_true_eq_false]
    by_cases h2 : env.create_shared_hcd_ok = true
    · simp only [h2, Bool.not_true, Bool.false_eq_true, if_false, after_trace, after_ret,
        List.mem_append, not_or]
      intro hret hf
      rw [acquired_append, released_append,
        ← probe_usb_phy_balanced cfg k env sysdev _ r hr hret hf.2]
      rcases r with (_ | _) | (_ | _) | _ | _ | (_ | _) | (_ | _) | _ | (_ | _) <;>
        simp [Ev.acquires, Ev.releases, probe_held, Resource.unwound, Ptr.is_valid] at hr ⊢
      all_goals omega
    · have h2' : env.create_shared_hcd_ok = false := by simpa using h2
      intro _ _
      simp only [h2', Bool.not_false, if_true, probe_disable_clk, probe_disable_reg_clk,
        probe_put_hcd, probe_disable_runtime, acquired_append, released_append,
        acquired_cons, released_cons, acquired_nil, released_nil]
      rcases r with (_ | _) | (_ | _) | _ | _ | (_ | _) | (_ | _) | _ | (_ | _) <;>
        simp [Ev.acquires, Ev.releases, probe_held, Resource.unwound, Ptr.is_valid] at hr ⊢
  | valid =>
    simp only [Ptr.is_valid, if_true]
    by_cases h1 : env.clk_enable_ret = 0
    · simp only [h1, ne_eq, not_true_eq_false, if_false]
      by_cases h2 : env.create_shared_hcd_ok = true
      · simp only [h2, Bool.not_true, Bool.false_eq_true, if_false, after_trace, after_ret,
          List.mem_append, not_or]
        intro hret hf
        rw [acquired_append, released_append,
          ← probe_usb_phy_balanced cfg k env sysdev _ r hr hret hf.2]
        rcases r with (_ | _) | (_ | _) | _ | _ | (_ | _) | (_ | _) | _ | (_ | _) <;>
          simp [Ev.acquires, Ev.releases, probe_held, Resource.unwound, Ptr.is_valid] at hr ⊢ <;>
          omega
      · have h2' : env.create_shared_hcd_ok = false := by simpa using h2
        intro _ _
        simp only [h2', Bool.not_false, if_true, probe_disable_clk, probe_disable_reg_clk,
          probe_put_hcd, probe_disable_runtime, acquired_append, released_append,
          acquired_cons, released_cons, acquired_nil, released_nil]
        rcases r with (_ | _) | (_ | _) | _ | _ | (_ | _) | (_ | _) | _ | (_ | _) <;>
          simp [Ev.acquires, Ev.releases, probe_held, Resource.unwound, Ptr.is_valid] at hr ⊢
    · intro _ _
      simp only [h1, ne_eq, not_false_eq_true, if_true, probe_disable_reg_clk,
        probe_put_hcd, probe_disable_runtime, acquired_append, released_append,
        acquired_cons, released_cons, acquired_nil, released_nil]
      rcases r with (_ | _) | (_ | _) | _ | _ | (_ | _) | (_ | _) | _ | (_ | _) <;>
        simp [Ev.acquires, Ev.releases, probe_held, Resource.unwound, Ptr.is_valid, h1] at hr ⊢

theorem probe_reg_clk_balanced (cfg : Config) (k : XhciH) (env : ProbeEnv)
    (sysdev : Device) (st : State) (r : Resource) (hr : r.unwound = true)
    (hret : (probe_reg_clk cfg k env sysdev st).ret ≠ .null_deref)
    (hf : Ev.usb_add_hcd .shared 0 ∉ (probe_reg_clk cfg k env sysdev st).trace) :
    acquired r (probe_reg_clk cfg k env sysdev st).trace + probe_held 1 st r
      = released r (probe_reg_clk cfg k env sysdev st).trace := by
  revert hret hf
  unfold probe_reg_clk
  simp only []
  cases hclk : env.reg_clk with
  | err e =>
    intro _ _
    simp only [probe_put_hcd, probe_disable_runtime, acquired_append,
      released_append, acquired_cons, released_cons, acquired_nil, released_nil]
    rcases r with (_ | _) | (_ | _) | _ | _ | (_ | _) | (_ | _) | _ | (_ | _) <;>
      simp [Ev.acquires, Ev.releases, probe_held, Resource.unwound, Ptr.is_valid] at hr ⊢
  | null =>
    simp only [Ptr.is_valid, Bool.false_eq_true, if_false, ne_eq, not_true_eq_false,
      after_trace, after_ret, List.mem_append, not_or]
    intro hret hf
    rw [acquired_append, released_append,
      ← probe_bus_clk_balanced cfg k env sysdev _ r hr hret hf.2]
    rcases r with (_ | _) | (_ | _) | _ | _ | (_ | _) | (_ | _) | _ | (_ | _) <;>
      simp [Ev.acquires, Ev.releases, probe_held, Resource.unwound, Ptr.is_valid] at hr ⊢
  | valid =>
    simp only [Ptr.is_valid, if_true]
    by_cases h1 : env.reg_clk_enable_ret = 0
    · simp only [h1, ne_eq, not_true_eq_false, if_false, after_trace, after_ret,
        List.mem_append, not_or]
      intro hret hf
      rw [acquired_append, released_append,
        ← probe_bus_clk_balanced cfg k env sysdev _ r hr hret hf.2]
      rcases r with (_ | _) | (_ | _) | _ | _ | (_ | _) | (_ | _) | _ | (_ | _) <;>
        simp [Ev.acquires, Ev.releases, probe_held, Resource.unwound, Ptr.is_valid] at hr ⊢
      all_goals omega
    · intro _ _
      simp only [h1, ne_eq, not_false_eq_true, if_true,
        probe_put_hcd, probe_disable_runtime, acquired_append, released_append,
        acquired_cons, released_cons, acquired_nil, released_nil]
      rcases r with (_ | _) | (_ | _) | _ | _ | (_ | _) | (_ | _) | _ | (_ | _) <;>
        simp [Ev.acquires, Ev.releases, probe_held, Resource.unwound, Ptr.is_valid, h1] at hr ⊢

theorem probe_hcd_balanced (cfg : Config) (k : XhciH) (env : ProbeEnv)
    (sysdev : Device) (st : State) (r : Resource) (hr : r.unwound = true)
    (hret : (probe_hcd cfg k env sysdev st).ret ≠ .null_deref)
    (hf : Ev.usb_add_hcd .shared 0 ∉ (probe_hcd cfg k env sysdev st).trace) :
    acquired r (probe_hcd cfg k env sysdev st).trace
      = released r (probe_hcd cfg k env sysdev st).trace := by
  revert hret hf
  unfold probe_hcd
  simp only []
  by_cases h1 : env.create_hcd_ok = true
  · simp only [h1, Bool.not_true, Bool.false_eq_true, if_false]
    cases hio : env.ioremap with
    | err e =>
      intro _ _
      simp only [probe_put_hcd, probe_disable_runtime, acquired_append,
        released_append, acquired_cons, released_cons, acquired_nil, released_nil]
      rcases r with (_ | _) | (_ | _) | _ | _ | (_ | _) | (_ | _) | _ | (_ | _) <;>
        simp [Ev.acquires, Ev.releases, Resource.unwound] at hr ⊢
    | null =>
      simp only [after_trace, after_ret, List.mem_append, not_or]
      intro hret hf
      rw [acquired_append, released_append,
        ← probe_reg_clk_balanced cfg k env sysdev _ r hr hret hf.2]
      by_cases hpp : st.pp_set_delayed = 0 <;>
        rcases r with (_ | _) | (_ | _) | _ | _ | (_ | _) | (_ | _) | _ | (_ | _) <;>
        simp [Ev.acquires, Ev.releases, probe_held, Resource.unwound, hpp] at hr ⊢ <;>
        omega
    | valid =>
      simp only [after_trace, after_ret, List.mem_append, not_or]
      intro hret hf
      rw [acquired_append, released_append,
        ← probe_reg_clk_balanced cfg k env sysdev _ r hr hret hf.2]
      by_cases hpp : st.pp_set_delayed = 0 <;>
        rcases r with (_ | _) | (_ | _) | _ | _ | (_ | _) | (_ | _) | _ | (_ | _) <;>
        simp [Ev.acquires, Ev.releases, probe_held, Resource.unwound, hpp] at hr ⊢ <;>
        omega
  · have h1' : env.create_hcd_ok = false := by simpa using h1
    intro _ _
    simp only [h1', Bool.not_false, if_true, probe_disable_runtime, acquired_append,
      released_append, acquired_cons, released_cons, acquired_nil, released_nil]
    rcases r with (_ | _) | (_ | _) | _ | _ | (_ | _) | (_ | _) | _ | (_ | _) <;>
      simp [Ev.acquires, Ev.releases, Resource.unwound] at hr ⊢

/-- On every path of attach that returns without having registered the
companion, every resource other than the wakeup sources and wake locks is
released as often as it was acquired. -/
theorem probe_failure_unwinds (cfg : Config) (k : XhciH) (env : ProbeEnv) (st : State)
    (r : Resource) (hr : r.unwound = true)
    (hret : (xhci_plat_probe cfg k env st).ret ≠ .null_deref)
    (hf : Ev.usb_add_hcd .shared 0 ∉ (xhci_plat_probe cfg k env st).trace) :
    acquired r (xhci_plat_probe cfg k env st).trace
      = released r (xhci_plat_probe cfg k env st).trace := by
  have hc := probe_cases cfg k env st
  simp only [] at hc
  have hd := probe_dma64_counts (probe_sysdev cfg env.dev (env.dev :: env.ancestors)) r
  rcases hc with ⟨_, htr⟩ | ⟨_, _, _, _, _, htr⟩ | ⟨_, _, _, _, st1, heq⟩ | ⟨_, _, _, st1, heq⟩
  · rw [htr]
    rcases r with (_ | _) | (_ | _) | _ | _ | (_ | _) | (_ | _) | _ | (_ | _) <;>
      simp [Ev.acquires, Ev.releases, Resource.unwound] at hr ⊢
  · rw [htr]
    simp only [acquired_append, released_append, acquired_cons, released_cons, acquired_nil,
      released_nil, hd.1, hd.2]
    rcases r with (_ | _) | (_ | _) | _ | _ | (_ | _) | (_ | _) | _ | (_ | _) <;>
      simp [Ev.acquires, Ev.releases, Resource.unwound] at hr ⊢
  · rw [heq] at hret hf ⊢
    simp only [after_trace, after_ret, List.mem_append, not_or] at hret hf ⊢
    rw [acquired_append, released_append, probe_hcd_balanced cfg k env _ st1 r hr hret hf.2]
    simp only [acquired_append, released_append, acquired_cons, released_cons, acquired_nil,
      released_nil, hd.1, hd.2]
    rcases r with (_ | _) | (_ | _) | _ | _ | (_ | _) | (_ | _) | _ | (_ | _) <;>
      simp [Ev.acquires, Ev.releases, Resource.unwound] at hr ⊢
  · rw [heq] at hret hf ⊢
    simp only [after_trace, after_ret, List.mem_append, not_or] at hret hf ⊢
    rw [acquired_append, released_append, probe_hcd_balanced cfg k env _ st1 r hr hret hf.2]
    simp only [acquired_append, released_append, acquired_cons, released_cons, acquired_nil,
      released_nil, hd.1, hd.2]
    rcases r with (_ | _) | (_ | _) | _ | _ | (_ | _) | (_ | _) | _ | (_ | _) <;>
      simp [Ev.acquires, Ev.releases, Resource.unwound] at hr ⊢

/-! ## Registration of the pair -/

theorem probe_register_pair (cfg : Config) (k : XhciH) (env : ProbeEnv) (parent : Device)
    (st : State) :
    hcd_registered .main false (probe_register cfg k env parent st).trace
      = hcd_registered .shared false (probe_register cfg k env parent st).trace := by
  have hs : ∀ h b, hcd_registered h b (xhci_priv_plat_setup env.priv_match).2 = b :=
    fun h b => hcd_registered_of_no_reg h b _
      (no_reg_of_plain _ (plat_setup_plain env.priv_match))
  have ha : ∀ h b st, hcd_registered h b (probe_audio cfg env parent st).trace = b :=
    fun h b st => hcd_registered_of_no_reg h b _
      (no_reg_of_plain _ (probe_audio_plain cfg env parent st))
  unfold probe_register
  simp only []
  split_ifs <;>
    simp_all [hcd_step, probe_dealloc_usb2_hcd,
      probe_disable_usb_phy, probe_put_usb3_hcd, probe_disable_clk, probe_disable_reg_clk,
      probe_put_hcd, probe_disable_runtime]

theorem probe_pair (cfg : Config) (k : XhciH) (env : ProbeEnv) (st : State) :
    hcd_registered .main false (xhci_plat_probe cfg k env st).trace
      = hcd_registered .shared false (xhci_plat_probe cfg k env st).trace := by
  have hh : ∀ sysdev st,
      hcd_registered .main false (probe_hcd cfg k env sysdev st).trace
        = hcd_registered .shared false (probe_hcd cfg k env sysdev st).trace :=
    probe_hcd_rule cfg k env
      (fun r => hcd_registered .main false r.trace = hcd_registered .shared false r.trace)
      (fun r tr hp h => by
        simp [hcd_registered_of_no_reg _ _ tr (no_reg_of_plain tr hp), h])
      (fun st tr ret hp => by
        simp [hcd_registered_of_no_reg _ _ tr (no_reg_of_plain tr hp)])
      (probe_register_pair cfg k env)
  unfold xhci_plat_probe
  simp only []
  rcases probe_dma64_cases (probe_sysdev cfg env.dev (env.dev :: env.ancestors)) with h | h <;>
    split_ifs <;> simp [h, hcd_step, hh]

theorem companion_fail_after (e : Int) (r : Result) (tr : List Ev)
    (hn : ∀ x ∈ tr, x.is_hcd_reg = false)
    (H : Ev.usb_add_hcd .shared e ∈ r.trace → CompanionFailUnwound e r)
    (hm : Ev.usb_add_hcd .shared e ∈ (r.after tr).trace) :
    CompanionFailUnwound e (r.after tr) := by
  simp only [after_trace, List.mem_append] at hm
  rcases hm with hm | hm
  · have := hn _ hm
    simp [Ev.is_hcd_reg] at this
  · obtain ⟨h1, ⟨pre, post, h2⟩, h3, h4⟩ := H hm
    refine ⟨h1, ⟨tr ++ pre, post, ?_⟩, ?_, ?_⟩
    · simp [h2]
    · simp [hcd_registered_of_no_reg _ _ tr hn, h3]
    · simp [hcd_registered_of_no_reg _ _ tr hn, h4]

theorem companion_fail_leaf (e : Int) (st : State) (tr : List Ev) (ret : Outcome)
    (hn : ∀ x ∈ tr, x.is_hcd_reg = false)
    (hm : Ev.usb_add_hcd .shared e ∈ (Result.mk st tr ret).trace) :
    CompanionFailUnwound e ⟨st, tr, ret⟩ := by
  have := hn _ hm
  simp [Ev.is_hcd_reg] at this

theorem probe_register_companion_fail (cfg : Config) (k : XhciH) (env : ProbeEnv)
    (parent : Device) (st : State) (e : Int) (he : e ≠ 0)
    (hm : Ev.usb_add_hcd .shared e ∈ (probe_register cfg k env parent st).trace) :
    CompanionFailUnwound e (probe_register cfg k env parent st) := by
  have hs := no_reg_of_plain _ (plat_setup_plain env.priv_match)
  have hs' : Ev.usb_add_hcd .shared e ∉ (xhci_priv_plat_setup env.priv_match).2 := by
    intro hx
    simpa [Ev.is_hcd_reg] using hs _ hx
  have ha := fun st => no_reg_of_plain _ (probe_audio_plain cfg env parent st)
  unfold probe_register at hm ⊢
  simp only [] at hm ⊢
  by_cases h1 : (xhci_priv_plat_setup env.priv_match).1 = 0
  · by_cases h2 : env.add_hcd_ret = 0
    · by_cases h3 : env.add_shared_hcd_ret = 0
      · exfalso
        simp only [h1, h2, h3, ne_eq, not_true_eq_false, if_false, after_trace,
          List.mem_append, List.mem_cons, List.mem_singleton] at hm
        rcases hm with ((hm | hm) | hm | hm) | hm
        · exact hs' hm
        · simp at hm
        · simp at hm
          exact he hm
        · simp at hm
        · simpa [Ev.is_hcd_reg] using ha _ _ hm
      · simp only [h1, h2, h3, ne_eq, not_true_eq_false, not_false_eq_true, if_false, if_true,
          List.mem_append, List.mem_cons, List.mem_singleton, probe_dealloc_usb2_hcd,
          probe_disable_usb_phy, probe_put_usb3_hcd, probe_disable_clk,
          probe_disable_reg_clk, probe_put_hcd, probe_disable_runtime] at hm ⊢
        have hE : e = env.add_shared_hcd_ret := by
          rcases hm with ((hm | hm) | hm) | hm
          · exact absurd hm hs'
          · simp at hm
          · simpa using hm
          · simp at hm
        subst hE
        refine ⟨rfl, ⟨(xhci_priv_plat_setup env.priv_match).2,
          [Ev.usb_phy_shutdown st.usb_phy.is_valid, Ev.usb_put_hcd .shared,
           Ev.clk_disable_unprepare .bus st.clk.is_valid,
           Ev.clk_disable_unprepare .reg st.reg_clk.is_valid, Ev.usb_put_hcd .main,
           Ev.pm_runtime_put_noidle, Ev.pm_runtime_disable], ?_⟩, ?_, ?_⟩
        · simp
        · simp [hcd_step, hcd_registered_of_no_reg _ _ _ hs]
        · simp [hcd_step, hcd_registered_of_no_reg _ _ _ hs, h3]
    · exfalso
      simp [h1, h2, probe_disable_usb_phy, probe_put_usb3_hcd, probe_disable_clk,
        probe_disable_reg_clk, probe_put_hcd, probe_disable_runtime] at hm
      exact hs' hm
  · exfalso
    simp [h1, probe_disable_usb_phy, probe_put_usb3_hcd, probe_disable_clk,
      probe_disable_reg_clk, probe_put_hcd, probe_disable_runtime] at hm
    exact hs' hm

theorem probe_companion_fail (cfg : Config) (k : XhciH) (env : ProbeEnv) (st : State)
    (e : Int) (he : e ≠ 0)
    (hm : Ev.usb_add_hcd .shared e ∈ (xhci_plat_probe cfg k env st).trace) :
    CompanionFailUnwound e (xhci_plat_probe cfg k env st) := by
  have hh : ∀ sysdev st, Ev.usb_add_hcd .shared e ∈ (probe_hcd cfg k env sysdev st).trace →
      CompanionFailUnwound e (probe_hcd cfg k env sysdev st) :=
    probe_hcd_rule cfg k env
      (fun r => Ev.usb_add_hcd .shared e ∈ r.trace → CompanionFailUnwound e r)
      (fun r tr hp H => companion_fail_after e r tr (no_reg_of_plain tr hp) H)
      (fun st tr ret hp => companion_fail_leaf e st tr ret (no_reg_of_plain tr hp))
      (fun parent st => probe_register_companion_fail cfg k env parent st e he)
  unfold xhci_plat_probe at hm ⊢
  simp only [] at hm ⊢
  rcases probe_dma64_cases (probe_sysdev cfg env.dev (env.dev :: env.ancestors)) with h | h <;>
    split_ifs at hm ⊢ <;>
    first
    | exact companion_fail_after e _ _ (by simp [h, Ev.is_hcd_reg]) (hh _ _) hm
    | exact companion_fail_leaf e _ _ _ (by simp [h, Ev.is_hcd_reg]) hm

/-- C2: primary and companion are registered as a pair.  After attach,
however it ends, the primary is registered exactly when the companion is;
when the registration of the companion fails with `e`, attach has registered
the primary, unregisters it right after the failed call and returns `e` with
neither registered; teardown keeps a pair a pair, and when it returns it
returns 0 with neither controller registered, whatever was registered before
(it fails to return only when it reads through a NULL `xhci->shared_hcd` or
reads the runtime-PM status of a NULL root hub in the Samsung block, in both
cases before any unregistration). -/
theorem registration_paired (cfg : Config) (k : XhciH) :
    (∀ (env : ProbeEnv) (st : State),
      hcd_registered .main false (xhci_plat_probe cfg k env st).trace
        = hcd_registered .shared false (xhci_plat_probe cfg k env st).trace) ∧
    (∀ (env : ProbeEnv) (st : State) (e : Int), e ≠ 0 →
      Ev.usb_add_hcd .shared e ∈ (xhci_plat_probe cfg k env st).trace →
        (xhci_plat_probe cfg k env st).ret = .returned e ∧
        (∃ pre post, (xhci_plat_probe cfg k env st).trace =
          pre ++ Ev.usb_add_hcd .main 0 :: Ev.usb_add_hcd .shared e ::
            Ev.usb_remove_hcd .main :: post) ∧
        hcd_registered .main false (xhci_plat_probe cfg k env st).trace = false ∧
        hcd_registered .shared false (xhci_plat_probe cfg k env st).trace = false) ∧
    (∀ (env : RemoveEnv) (st : State) (b : Bool),
      hcd_registered .main b (xhci_plat_remove cfg k env st).trace
        = hcd_registered .shared b (xhci_plat_remove cfg k env st).trace) ∧
    (∀ (env : RemoveEnv) (st : State) (b1 b2 : Bool),
      ((xhci_plat_remove cfg k env st).ret = .returned 0 ∧
        hcd_registered .main b1 (xhci_plat_remove cfg k env st).trace = false ∧
        hcd_registered .shared b2 (xhci_plat_remove cfg k env st).trace = false) ∨
      ((xhci_plat_remove cfg k env st).ret = .null_deref ∧
        (st.shared_hcd = false ∨
          (cfg.CONFIG_USB_HOST_SAMSUNG_FEATURE = true ∧
            (env.rhdev = none ∨ env.srhdev = none))) ∧
        ∀ x ∈ (xhci_plat_remove cfg k env st).trace, x.is_hcd_reg = false)) := by
  refine ⟨probe_pair cfg k, fun env st e he hm => probe_companion_fail cfg k env st e he hm,
    ?_, ?_⟩
  · intro env st b
    rcases remove_cases cfg k env st with ⟨pre, hpre, _, htr, _, _⟩ | ⟨_, _, _, hall⟩
    · rw [htr]
      simp [remove_body_unregisters]
    · simp [hcd_registered_of_no_reg _ _ _ (forbid_no_reg _ hall)]
  · intro env st b1 b2
    rcases remove_cases cfg k env st with ⟨pre, hpre, _, htr, hret, _⟩ | ⟨hret, hc, _, hall⟩
    · left
      rw [htr]
      exact ⟨hret, by simp [remove_body_unregisters], by simp [remove_body_unregisters]⟩
    · right
      exact ⟨hret, hc, forbid_no_reg _ hall⟩

/-- C2, at a concrete input: with every step but the registration of the
companion succeeding and that one failing with -12, attach returns -12 and
neither controller is registered. -/
theorem registration_paired_witness :
    (-12 : Int) ≠ 0 ∧
    Ev.usb_add_hcd .shared (-12) ∈
      (xhci_plat_probe Config.sample XhciH.sample ProbeEnv.companion_fails State.zero).trace ∧
    (xhci_plat_probe Config.sample XhciH.sample ProbeEnv.companion_fails State.zero).ret
      = .returned (-12) ∧
    hcd_registered .main false
      (xhci_plat_probe Config.sample XhciH.sample ProbeEnv.companion_fails State.zero).trace
      = false :=
  ⟨by decide, by decide,
    ((registration_paired Config.sample XhciH.sample).2.1 ProbeEnv.companion_fails State.zero
      (-12) (by decide) (by decide)).1,
    ((registration_paired Config.sample XhciH.sample).2.1 ProbeEnv.companion_fails State.zero
      (-12) (by decide) (by decide)).2.2.1⟩

/-! ## Wake-enable flag across suspend and resume -/

theorem rewa_stores_append (a b : List Ev) :
    rewa_stores (a ++ b) = rewa_stores a ++ rewa_stores b := by
  simp [rewa_stores, List.filterMap_append]

theorem phy_vendor_calls_append (a b : List Ev) :
    phy_vendor_calls (a ++ b) = phy_vendor_calls a ++ phy_vendor_calls b := by
  simp [phy_vendor_calls, List.filter_append]

theorem probe_audio_rewa (cfg : Config) (env : ProbeEnv) (parent : Device) (st : State) :
    (probe_audio cfg env parent st).st.is_rewa_enabled = st.is_rewa_enabled := by
  unfold probe_audio probe_success
  simp only []
  split_ifs <;> rfl

theorem probe_register_rewa (cfg : Config) (k : XhciH) (env : ProbeEnv) (parent : Device)
    (st : State) :
    (probe_register cfg k env parent st).st.is_rewa_enabled = st.is_rewa_enabled := by
  unfold probe_register
  simp only []
  split_ifs <;> simp [probe_audio_rewa]

theorem probe_parent_rewa (cfg : Config) (k : XhciH) (env : ProbeEnv) (sysdev : Device)
    (st : State) :
    (probe_parent cfg k env sysdev st).st.is_rewa_enabled = st.is_rewa_enabled := by
  unfold probe_parent
  simp only []
  cases env.ancestors.head? <;> simp [probe_register_rewa]

theorem probe_usb_phy_rewa (cfg : Config) (k : XhciH) (env : ProbeEnv) (sysdev : Device)
    (st : State) :
    (probe_usb_phy cfg k env sysdev st).st.is_rewa_enabled = st.is_rewa_enabled := by
  unfold probe_usb_phy
  simp only []
  split <;> (try split_ifs) <;> simp [probe_parent_rewa]

theorem probe_bus_clk_rewa (cfg : Config) (k : XhciH) (env : ProbeEnv) (sysdev : Device)
    (st : State) :
    (probe_bus_clk cfg k env sysdev st).st.is_rewa_enabled = st.is_rewa_enabled := by
  unfold probe_bus_clk
  simp only []
  split <;> (try split_ifs) <;> simp [probe_usb_phy_rewa]

theorem probe_reg_clk_rewa (cfg : Config) (k : XhciH) (env : ProbeEnv) (sysdev : Device)
    (st : State) :
    (probe_reg_clk cfg k env sysdev st).st.is_rewa_enabled = st.is_rewa_enabled := by
  unfold probe_reg_clk
  simp only []
  split <;> (try split_ifs) <;> simp [probe_bus_clk_rewa]

theorem probe_hcd_rewa (cfg : Config) (k : XhciH) (env : ProbeEnv) (sysdev : Device)
    (st : State) :
    (probe_hcd cfg k env sysdev st).st.is_rewa_enabled = st.is_rewa_enabled := by
  unfold probe_hcd
  simp only []
  split_ifs <;> (try split) <;> simp [probe_reg_clk_rewa]

/-- The flag `is_rewa_enabled` only ever holds 0 or 1: attach leaves it at 0,
suspend and resume keep it at 0 or 1, and teardown and the attribute write do
not touch it. -/
theorem rewa_flag_is_boolean :
    (∀ cfg k env st, (xhci_plat_probe cfg k env st).st.is_rewa_enabled = 0) ∧
    (∀ env st, (st.is_rewa_enabled = 0 ∨ st.is_rewa_enabled = 1) →
      ((xhci_plat_suspend env st).st.is_rewa_enabled = 0 ∨
        (xhci_plat_suspend env st).st.is_rewa_enabled = 1)) ∧
    (∀ env st, (st.is_rewa_enabled = 0 ∨ st.is_rewa_enabled = 1) →
      ((xhci_plat_resume env st).st.is_rewa_enabled = 0 ∨
        (xhci_plat_resume env st).st.is_rewa_enabled = 1)) ∧
    (∀ cfg k env st, (xhci_plat_remove cfg k env st).st.is_rewa_enabled = st.is_rewa_enabled) ∧
    (∀ st scanned n,
      (xhci_platg_store_ss_compliance st scanned n).st.is_rewa_enabled = st.is_rewa_enabled) := by
  refine ⟨?_, ?_, ?_, ?_, ?_⟩
  · intro cfg k env st
    unfold xhci_plat_probe
    simp only []
    split_ifs <;> simp [probe_hcd_rewa, probe_globals]
  · intro env st h
    unfold xhci_plat_suspend
    simp only []
    split_ifs <;> simp [h]
  · intro env st h
    unfold xhci_plat_resume
    simp only []
    split_ifs <;> simp [h]
  · intro cfg k env st
    unfold xhci_plat_remove remove_statements remove_body remove_hcd
    simp only []
    split_ifs <;> (try split) <;> (try split) <;> rfl
  · intro st scanned n
    unfold xhci_platg_store_ss_compliance
    cases scanned with
    | none => rfl
    | some v =>
      simp only []
      split_ifs <;> rfl

/-- C3: in a suspend followed by a resume whose resume quirk hook succeeds,
started with the flag `is_rewa_enabled` at 0 or 1 (the only values the file
stores), the suspend stores to the flag at most once, and stores 1 exactly
when `xhci_suspend` returned 0 and `otg_is_connect()` is not 1; the resume
stores to it at most once, and stores 0 exactly when the flag was 1 at its
entry; the flag is 0 when the resume returns; and the resume issues the three
PHY disarm calls (USB3 first) exactly when the flag was 1 at its entry, and no
PHY call otherwise. -/
theorem rewa_toggles_once_per_cycle (envS : SuspendEnv) (envR : ResumeEnv) (st : State)
    (hinv : st.is_rewa_enabled = 0 ∨ st.is_rewa_enabled = 1)
    (hq : (xhci_priv_resume_quirk envR).1 = 0) :
    rewa_stores (xhci_plat_suspend envS st).trace
      = (if envS.xhci_suspend_ret = 0 ∧ envS.otg_is_connect ≠ 1 then [1] else []) ∧
    (rewa_stores (xhci_plat_suspend envS st).trace).length ≤ 1 ∧
    ((xhci_plat_suspend envS st).st.is_rewa_enabled = 0 ∨
      (xhci_plat_suspend envS st).st.is_rewa_enabled = 1) ∧
    rewa_stores (xhci_plat_resume envR (xhci_plat_suspend envS st).st).trace
      = (if (xhci_plat_suspend envS st).st.is_rewa_enabled = 1 then [0] else []) ∧
    (rewa_stores (xhci_plat_resume envR (xhci_plat_suspend envS st).st).trace).length ≤ 1 ∧
    (xhci_plat_resume envR (xhci_plat_suspend envS st).st).st.is_rewa_enabled = 0 ∧
    phy_vendor_calls (xhci_plat_resume envR (xhci_plat_suspend envS st).st).trace
      = (if (xhci_plat_suspend envS st).st.is_rewa_enabled = 1 then
          [Ev.exynos_usbdrd_phy_vendor_set .usb3 1 1,
           Ev.exynos_usbdrd_phy_vendor_set .usb2 1 1,
           Ev.exynos_usbdrd_phy_vendor_set .usb2 0 0]
         else []) ∧
    (xhci_plat_resume envR (xhci_plat_suspend envS st).st).ret
      = .returned envR.xhci_resume_ret := by
  have hqt : rewa_stores (xhci_priv_resume_quirk envR).2 = [] ∧
      phy_vendor_calls (xhci_priv_resume_quirk envR).2 = [] := by
    unfold xhci_priv_resume_quirk
    cases envR.resume_quirk <;> simp [rewa_stores, phy_vendor_calls]
  have hs : (xhci_plat_suspend envS st).st.is_rewa_enabled = 0 ∨
      (xhci_plat_suspend envS st).st.is_rewa_enabled = 1 := by
    unfold xhci_plat_suspend
    simp only []
    split_ifs <;> simp [hinv]
  have h1 : rewa_stores (xhci_plat_suspend envS st).trace
      = (if envS.xhci_suspend_ret = 0 ∧ envS.otg_is_connect ≠ 1 then [1] else []) := by
    unfold xhci_plat_suspend
    simp only []
    by_cases ha : envS.xhci_suspend_ret = 0 <;> by_cases hb : envS.otg_is_connect = 1 <;>
      simp [ha, hb, rewa_stores]
  have h2 : rewa_stores (xhci_plat_resume envR (xhci_plat_suspend envS st).st).trace
      = (if (xhci_plat_suspend envS st).st.is_rewa_enabled = 1 then [0] else []) := by
    generalize (xhci_plat_suspend envS st).st = s1
    unfold xhci_plat_resume
    simp only [hq]
    by_cases ha : s1.is_rewa_enabled = 1 <;>
      simp only [ha, ne_eq, not_true_eq_false, if_false, if_true, rewa_stores_append, hqt.1,
        List.nil_append] <;>
      simp [rewa_stores]
  refine ⟨h1, ?_, hs, h2, ?_, ?_, ?_, ?_⟩
  · rw [h1]; split_ifs <;> simp
  · rw [h2]; split_ifs <;> simp
  · revert hs
    generalize (xhci_plat_suspend envS st).st = s1
    intro hs
    unfold xhci_plat_resume
    simp only [hq]
    by_cases ha : s1.is_rewa_enabled = 1
    · simp [ha]
    · rcases hs with hs | hs
      · simp [hs]
      · exact absurd hs ha
  · generalize (xhci_plat_suspend envS st).st = s1
    unfold xhci_plat_resume
    simp only [hq]
    by_cases ha : s1.is_rewa_enabled = 1 <;>
      simp only [ha, ne_eq, not_true_eq_false, if_false, if_true, phy_vendor_calls_append,
        hqt.2, List.nil_append] <;>
      simp [phy_vendor_calls]
  · generalize (xhci_plat_suspend envS st).st = s1
    unfold xhci_plat_resume
    simp only [hq]
    by_cases ha : s1.is_rewa_enabled = 1 <;> simp [ha]

/-- C3, at a concrete input: from the zero state, a suspend that succeeds
outside the OTG-connect-only state and a resume without quirk hook leave the
flag at 0. -/
theorem rewa_toggles_once_per_cycle_witness :
    (State.zero.is_rewa_enabled = 0 ∨ State.zero.is_rewa_enabled = 1) ∧
    (xhci_priv_resume_quirk ⟨none, 0⟩).1 = 0 ∧
    (xhci_plat_resume ⟨none, 0⟩ (xhci_plat_suspend ⟨true, 0, 0⟩ State.zero).st).st.is_rewa_enabled
      = 0 :=
  ⟨Or.inl rfl, rfl,
    (rewa_toggles_once_per_cycle ⟨true, 0, 0⟩ ⟨none, 0⟩ State.zero (Or.inl rfl)
      rfl).2.2.2.2.2.1⟩

/-! ## The `ss_compliance` attribute -/

theorem testBit_of_lt_two_pow_le (c n i : Nat) (hc : c < 2 ^ n) (hi : n ≤ i) :
    c.testBit i = false :=
  Nat.testBit_lt_two_pow (lt_of_lt_of_le hc (Nat.pow_le_pow_right (by decide) hi))

theorem testBit_ss_set (i : Nat) :
    Nat.testBit 0x10140 i = (decide (i = 6) || decide (i = 8) || decide (i = 16)) := by
  by_cases h : i < 17
  · interval_cases i <;> decide
  · rw [testBit_of_lt_two_pow_le 0x10140 17 i (by decide) (by omega)]
    have : i ≠ 6 ∧ i ≠ 8 ∧ i ≠ 16 := by omega
    simp [this]

theorem testBit_ss_keep (i : Nat) :
    Nat.testBit 0xFFFEFE1F i =
      (decide (i < 32) && !(decide (i = 5) || decide (i = 6) || decide (i = 7) ||
        decide (i = 8) || decide (i = 16))) := by
  by_cases h : i < 32
  · interval_cases i <;> decide
  · rw [testBit_of_lt_two_pow_le 0xFFFEFE1F 32 i (by decide) (by omega)]
    simp [h]

theorem ss_word_lt (r : Nat) : (r &&& 0xFFFEFE1F) ||| 0x10140 < 2 ^ 32 := by
  apply Nat.or_lt_two_pow
  · exact lt_of_le_of_lt Nat.and_le_right (by decide)
  · decide

theorem ss_word_pls (r : Nat) : (((r &&& 0xFFFEFE1F) ||| 0x10140) >>> 5) &&& 0xF = 10 := by
  apply Nat.eq_of_testBit_eq
  intro i
  simp only [Nat.testBit_land, Nat.testBit_shiftRight, Nat.testBit_lor, testBit_ss_set,
    testBit_ss_keep]
  by_cases h : i < 4
  · interval_cases i <;> simp <;> decide
  · rw [testBit_of_lt_two_pow_le 0xF 4 i (by decide) (by omega),
      testBit_of_lt_two_pow_le 10 4 i (by decide) (by omega)]
    simp

theorem to_ssize_t_of_lt (n : Nat) (hn : n < 2 ^ 63) : to_ssize_t n = n := by
  unfold to_ssize_t
  have h1 : n % 2 ^ 64 = n := Nat.mod_eq_of_lt (by omega)
  rw [h1, if_pos hn]

theorem store_one_regs (st : State) (n : Nat) :
    (xhci_platg_store_ss_compliance st (some 1) n).st.regs PORTSC_OFFSET
      = (readl st PORTSC_OFFSET &&& 0xFFFEFE1F) ||| 0x10140 := by
  have h1 : not32 ((0xF <<< 5) ||| (1 <<< 16)) = 0xFFFEFE1F := by decide
  have h2 : ((10 <<< 5) ||| (1 <<< 16) : Nat) = 0x10140 := by decide
  simp only [xhci_platg_store_ss_compliance, writel, if_true, h1, h2]
  rw [Nat.mod_eq_of_lt (Nat.mod_lt _ (by decide))]
  exact Nat.mod_eq_of_lt (ss_word_lt _)

/-- C4: for every content of the register window and every byte count `n`
below `2 ^ 63`, a write whose scanned value is 1 leaves in the status register
at offset 0x430 the word `(r AND NOT 0x101E0) OR 0x10140`, where `r` is the
32-bit word read there: bits 5..8 hold 10, bit 16 is 1, every other bit is
the bit of `r`; no other register changes and the write returns `n`. -/
theorem ss_compliance_store_one (st : State) (n : Nat) (hn : n < 2 ^ 63) :
    (xhci_platg_store_ss_compliance st (some 1) n).st.regs 0x430
      = (readl st 0x430 &&& not32 0x101E0) ||| 0x10140 ∧
    ((xhci_platg_store_ss_compliance st (some 1) n).st.regs 0x430 >>> 5) &&& 0xF = 10 ∧
    ((xhci_platg_store_ss_compliance st (some 1) n).st.regs 0x430).testBit 16 = true ∧
    (∀ i, i ≠ 5 → i ≠ 6 → i ≠ 7 → i ≠ 8 → i ≠ 16 →
      ((xhci_platg_store_ss_compliance st (some 1) n).st.regs 0x430).testBit i
        = (readl st 0x430).testBit i) ∧
    (∀ off, off ≠ 0x430 →
      (xhci_platg_store_ss_compliance st (some 1) n).st.regs off = st.regs off) ∧
    (xhci_platg_store_ss_compliance st (some 1) n).ret = n := by
  have hr := store_one_regs st n
  have hP : PORTSC_OFFSET = 0x430 := rfl
  rw [hP] at hr
  have hlt : readl st 0x430 < 2 ^ 32 := Nat.mod_lt _ (by decide)
  refine ⟨?_, ?_, ?_, ?_, ?_, ?_⟩
  · rw [hr]
    have : not32 0x101E0 = 0xFFFEFE1F := by decide
    rw [this]
  · rw [hr]; exact ss_word_pls _
  · rw [hr]
    simp [Nat.testBit_lor, testBit_ss_set]
  · intro i h5 h6 h7 h8 h16
    rw [hr]
    simp only [Nat.testBit_lor, Nat.testBit_land, testBit_ss_set, testBit_ss_keep]
    by_cases h : i < 32
    · simp [h, h5, h6, h7, h8, h16]
    · rw [testBit_of_lt_two_pow_le _ 32 i hlt (by omega)]
      simp [h6, h8, h16]
  · intro off hoff
    simp [xhci_platg_store_ss_compliance, writel, PORTSC_OFFSET, hoff]
  · simp [xhci_platg_store_ss_compliance, to_ssize_t_of_lt n hn]

/-- C4, at a concrete input: on a register reading 0xFFFFFFFF a two-byte write
of 1 leaves 0xFFFFFF5F and returns 2. -/
theorem ss_compliance_store_one_witness :
    (2 : Nat) < 2 ^ 63 ∧
    (xhci_platg_store_ss_compliance State.ones (some 1) 2).st.regs 0x430 = 0xFFFFFF5F ∧
    (xhci_platg_store_ss_compliance State.ones (some 1) 2).ret = 2 :=
  ⟨by decide,
    (ss_compliance_store_one State.ones 2 (by decide)).1.trans (by decide),
    (ss_compliance_store_one State.ones 2 (by decide)).2.2.2.2.2⟩

/-- C5 fails as stated: a two-byte write whose scanned value is 0 returns 2,
the byte count, not an error. -/
theorem ss_compliance_store_zero_is_consumed :
    (xhci_platg_store_ss_compliance State.ones (some 0) 2).ret = 2 ∧
    ¬ (xhci_platg_store_ss_compliance State.ones (some 0) 2).ret < 0 := by
  decide

/-- C5 as amended: a write whose input is not the value 1 makes no register
access and leaves the register window as it was; it returns `-EINVAL` when
the input does not scan as a number, and the byte count `n` when it scans as
any other integer. -/
theorem ss_compliance_store_other (st : State) (scanned : Option Int) (n : Nat)
    (hs : scanned ≠ some 1) (hn : n < 2 ^ 63) :
    (xhci_platg_store_ss_compliance st scanned n).st.regs = st.regs ∧
    (xhci_platg_store_ss_compliance st scanned n).trace = [] ∧
    (scanned = none → (xhci_platg_store_ss_compliance st scanned n).ret = -EINVAL) ∧
    (∀ v, scanned = some v → (xhci_platg_store_ss_compliance st scanned n).ret = n) := by
  cases scanned with
  | none => simp [xhci_platg_store_ss_compliance]
  | some v =>
    have hv : v ≠ 1 := fun h => hs (by rw [h])
    simp [xhci_platg_store_ss_compliance, hv, to_ssize_t_of_lt n hn]

/-- C5 as amended, at a concrete input: a two-byte write of 0. -/
theorem ss_compliance_store_other_witness :
    (some (0 : Int)) ≠ some 1 ∧ (2 : Nat) < 2 ^ 63 ∧
    (xhci_platg_store_ss_compliance State.ones (some 0) 2).st.regs = State.ones.regs ∧
    (xhci_platg_store_ss_compliance State.ones (some 0) 2).trace = [] :=
  ⟨by decide, by decide,
    (ss_compliance_store_other State.ones (some 0) 2 (by decide) (by decide)).1,
    (ss_compliance_store_other State.ones (some 0) 2 (by decide) (by decide)).2.1⟩

/-! ## The property walk -/

theorem probe_walk_testBit (k : XhciH) (chain : List Device) :
    ∀ (v : WalkVars) (i : Nat),
      (probe_walk k chain v).quirks.testBit i =
        (v.quirks.testBit i ||
          (chain.any (fun d => d.usb2_lpm_disable) && k.XHCI_HW_LPM_DISABLE.testBit i) ||
          (chain.any (fun d => d.usb3_lpm_capable) && k.XHCI_LPM_SUPPORT.testBit i) ||
          (chain.any (fun d => d.quirk_broken_port_ped) && k.XHCI_BROKEN_PORT_PED.testBit i)) := by
  induction chain with
  | nil => intro v i; simp [probe_walk]
  | cons d rest ih =>
    intro v i
    rw [probe_walk, ih]
    simp only [probe_walk_step, List.any_cons]
    cases d.usb2_lpm_disable <;> cases d.usb3_lpm_capable <;> cases d.quirk_broken_port_ped <;>
      simp [Nat.testBit_lor] <;>
      cases v.quirks.testBit i <;> cases k.XHCI_HW_LPM_DISABLE.testBit i <;>
      cases k.XHCI_LPM_SUPPORT.testBit i <;> cases k.XHCI_BROKEN_PORT_PED.testBit i <;>
      cases List.any rest (fun d => d.usb2_lpm_disable) <;>
      cases List.any rest (fun d => d.usb3_lpm_capable) <;>
      cases List.any rest (fun d => d.quirk_broken_port_ped) <;> rfl

theorem land_eq_of_testBit_imp (a m : Nat) (h : ∀ i, m.testBit i = true → a.testBit i = true) :
    a &&& m = m := by
  apply Nat.eq_of_testBit_eq
  intro i
  rw [Nat.testBit_land]
  cases hm : m.testBit i
  · simp
  · simp [h i hm]

theorem probe_bus_clk_walk (cfg : Config) (k : XhciH) (env : ProbeEnv) (sysdev : Device)
    (st : State)
    (h : Ev.devm_usb_get_phy_by_phandle ∈ (probe_bus_clk cfg k env sysdev st).trace) :
    ∃ pre st1, probe_bus_clk cfg k env sysdev st = (probe_usb_phy cfg k env sysdev st1).after pre ∧
      Ev.devm_usb_get_phy_by_phandle ∉ pre ∧
      st1.quirks = (probe_props k (env.dev :: env.ancestors) st.quirks).quirks ∧
      st1.imod_interval = (probe_props k (env.dev :: env.ancestors) st.quirks).imod_interval := by
  revert h
  unfold probe_bus_clk
  simp only []
  split <;> (try split_ifs) <;> intro h
  all_goals first
    | (exfalso; simp [probe_disable_clk, probe_disable_reg_clk, probe_put_hcd,
        probe_disable_runtime] at h; done)
    | exact ⟨_, _, rfl, by simp, rfl, rfl⟩

theorem probe_reg_clk_walk (cfg : Config) (k : XhciH) (env : ProbeEnv) (sysdev : Device)
    (st : State)
    (h : Ev.devm_usb_get_phy_by_phandle ∈ (probe_reg_clk cfg k env sysdev st).trace) :
    ∃ pre st1, probe_reg_clk cfg k env sysdev st = (probe_usb_phy cfg k env sysdev st1).after pre ∧
      Ev.devm_usb_get_phy_by_phandle ∉ pre ∧
      st1.quirks = (probe_props k (env.dev :: env.ancestors) st.quirks).quirks ∧
      st1.imod_interval = (probe_props k (env.dev :: env.ancestors) st.quirks).imod_interval := by
  revert h
  unfold probe_reg_clk
  simp only []
  split <;> (try split_ifs) <;> intro h
  all_goals first
    | (exfalso; simp [probe_put_hcd, probe_disable_runtime] at h; done)
    | (simp only [after_trace, List.mem_append] at h
       have h2 := h.resolve_left (by simp)
       obtain ⟨pre, st1, he, hp, hq, hi⟩ := probe_bus_clk_walk cfg k env sysdev _ h2
       rw [he, after_after]
       exact ⟨_, st1, rfl, by simp [hp], hq, hi⟩)

theorem probe_hcd_walk (cfg : Config) (k : XhciH) (env : ProbeEnv) (sysdev : Device)
    (st : State)
    (h : Ev.devm_usb_get_phy_by_phandle ∈ (probe_hcd cfg k env sysdev st).trace) :
    ∃ pre st1, probe_hcd cfg k env sysdev st = (probe_usb_phy cfg k env sysdev st1).after pre ∧
      Ev.devm_usb_get_phy_by_phandle ∉ pre ∧
      st1.quirks = (probe_props k (env.dev :: env.ancestors) st.quirks).quirks ∧
      st1.imod_interval = (probe_props k (env.dev :: env.ancestors) st.quirks).imod_interval := by
  revert h
  unfold probe_hcd
  simp only []
  split_ifs <;> (try split) <;> intro h
  all_goals first
    | (exfalso; simp [probe_put_hcd, probe_disable_runtime] at h; done)
    | (simp only [after_trace, List.mem_append] at h
       have h2 := h.resolve_left (by simp)
       obtain ⟨pre, st1, he, hp, hq, hi⟩ := probe_reg_clk_walk cfg k env sysdev _ h2
       rw [he, after_after]
       exact ⟨_, st1, rfl, by simp [hp], hq, hi⟩)

/-- Attach that makes the system PHY lookup has run the property walk over the
chain `pdev->dev`, parent, grandparent, ..., started from the `xhci->quirks`
it was entered with, and enters `probe_usb_phy` with the outcome of the
walk. -/
theorem probe_walk_done (cfg : Config) (k : XhciH) (env : ProbeEnv) (st : State)
    (h : Ev.devm_usb_get_phy_by_phandle ∈ (xhci_plat_probe cfg k env st).trace) :
    ∃ pre st1, xhci_plat_probe cfg k env st
        = (probe_usb_phy cfg k env (probe_sysdev cfg env.dev (env.dev :: env.ancestors))
            st1).after pre ∧
      Ev.devm_usb_get_phy_by_phandle ∉ pre ∧
      st1.quirks = (probe_props k (env.dev :: env.ancestors) st.quirks).quirks ∧
      st1.imod_interval = (probe_props k (env.dev :: env.ancestors) st.quirks).imod_interval := by
  have hd : Ev.devm_usb_get_phy_by_phandle
      ≠ (probe_dma64 (probe_sysdev cfg env.dev (env.dev :: env.ancestors))).2 := by
    rcases probe_dma64_cases (probe_sysdev cfg env.dev (env.dev :: env.ancestors)) with h | h <;>
      rw [h] <;> simp
  revert h
  unfold xhci_plat_probe
  simp only []
  split_ifs <;> intro h
  all_goals first
    | (exfalso; simp at h; done)
    | (exfalso; simp at h; exact hd h)
    | (simp only [after_trace, List.mem_append] at h
       have h2 := h.resolve_left (by simp [hd])
       obtain ⟨pre, st1, he, hp, hq, hi⟩ := probe_hcd_walk cfg k env _ _ h2
       rw [he, after_after]
       exact ⟨_, st1, rfl, by simp [hp, hd], hq, hi⟩)

theorem probe_audio_st (cfg : Config) (env : ProbeEnv) (parent : Device) (st : State) :
    (probe_audio cfg env parent st).st = st := by
  unfold probe_audio probe_success
  simp only []
  split_ifs <;> rfl

theorem probe_register_walk_vars (cfg : Config) (k : XhciH) (env : ProbeEnv)
    (parent : Device) (st : State) :
    (probe_register cfg k env parent st).st.quirks = st.quirks ∧
    (probe_register cfg k env parent st).st.imod_interval = st.imod_interval := by
  unfold probe_register
  simp only []
  split_ifs <;> first | exact ⟨rfl, rfl⟩ | (rw [after_st, probe_audio_st]; exact ⟨rfl, rfl⟩)

theorem probe_parent_walk_vars (cfg : Config) (k : XhciH) (env : ProbeEnv)
    (sysdev : Device) (st : State) :
    (∀ i, st.quirks.testBit i = true →
      (probe_parent cfg k env sysdev st).st.quirks.testBit i = true) ∧
    (probe_parent cfg k env sysdev st).st.imod_interval = st.imod_interval := by
  unfold probe_parent
  simp only []
  split
  · exact ⟨fun _ h => h, rfl⟩
  · rw [after_st]
    refine ⟨?_, (probe_register_walk_vars _ _ _ _ _).2⟩
    intro i hi
    rw [(probe_register_walk_vars _ _ _ _ _).1]
    simp only []
    split_ifs <;> simp [Nat.testBit_lor, hi]

theorem probe_usb_phy_walk_vars (cfg : Config) (k : XhciH) (env : ProbeEnv)
    (sysdev : Device) (st : State) :
    (∀ i, st.quirks.testBit i = true →
      (probe_usb_phy cfg k env sysdev st).st.quirks.testBit i = true) ∧
    (probe_usb_phy cfg k env sysdev st).st.imod_interval = st.imod_interval := by
  unfold probe_usb_phy
  simp only []
  split <;> (try split_ifs) <;>
    first
    | exact ⟨fun _ h => h, rfl⟩
    | (rw [after_st]
       exact ⟨fun i hi => (probe_parent_walk_vars cfg k env sysdev _).1 i hi,
         (probe_parent_walk_vars cfg k env sysdev _).2⟩)



/-- The property walk over any chain, started with any quirk word `q`: each
of the three quirk masks is set when some device of the chain has the matching
property, and every bit set in `q` is still set. -/
theorem probe_props_accumulates (k : XhciH) (chain : List Device) (q : Nat) :
    ((∃ d ∈ chain, d.usb2_lpm_disable = true) →
      ∀ i, k.XHCI_HW_LPM_DISABLE.testBit i = true →
        (probe_props k chain q).quirks.testBit i = true) ∧
    ((∃ d ∈ chain, d.usb3_lpm_capable = true) →
      ∀ i, k.XHCI_LPM_SUPPORT.testBit i = true →
        (probe_props k chain q).quirks.testBit i = true) ∧
    ((∃ d ∈ chain, d.quirk_broken_port_ped = true) →
      ∀ i, k.XHCI_BROKEN_PORT_PED.testBit i = true →
        (probe_props k chain q).quirks.testBit i = true) ∧
    (∀ i, q.testBit i = true → (probe_props k chain q).quirks.testBit i = true) := by
  have hb := probe_walk_testBit k chain ⟨q, 40000⟩
  refine ⟨?_, ?_, ?_, ?_⟩
  · rintro ⟨d, hd, hp⟩ i hi
    have ha : chain.any (fun d => d.usb2_lpm_disable) = true := List.any_eq_true.mpr ⟨d, hd, hp⟩
    rw [probe_props, hb, ha, hi]
    simp
  · rintro ⟨d, hd, hp⟩ i hi
    have ha : chain.any (fun d => d.usb3_lpm_capable) = true := List.any_eq_true.mpr ⟨d, hd, hp⟩
    rw [probe_props, hb, ha, hi]
    simp
  · rintro ⟨d, hd, hp⟩ i hi
    have ha : chain.any (fun d => d.quirk_broken_port_ped) = true :=
      List.any_eq_true.mpr ⟨d, hd, hp⟩
    rw [probe_props, hb, ha, hi]
    simp
  · intro i hi
    rw [probe_props, hb]
    simp [hi]

/-- C6: in every attach that runs the property walk (the walk is followed at
once by the system PHY lookup, so these are the runs that make that call), the
walk goes over the chain `pdev->dev`, parent, grandparent, ..., starting from
the `xhci->quirks` attach was entered with.  In the quirk word the walk
leaves, with which attach enters the system PHY step, and in the quirk word
at the end of attach, each of the bits `XHCI_HW_LPM_DISABLE`,
`XHCI_LPM_SUPPORT` and `XHCI_BROKEN_PORT_PED` is set when some device of the
chain has the matching property, wherever in the chain it is, and every bit
that was set when attach was entered is still set. -/
theorem quirk_walk_accumulates (cfg : Config) (k : XhciH) (env : ProbeEnv) (st : State)
    (hwalk : Ev.devm_usb_get_phy_by_phandle ∈ (xhci_plat_probe cfg k env st).trace) :
    (∃ pre st1, xhci_plat_probe cfg k env st
        = (probe_usb_phy cfg k env (probe_sysdev cfg env.dev (env.dev :: env.ancestors))
            st1).after pre ∧
      Ev.devm_usb_get_phy_by_phandle ∉ pre ∧
      st1.quirks = (probe_props k (env.dev :: env.ancestors) st.quirks).quirks ∧
      ((∃ d ∈ env.dev :: env.ancestors, d.usb2_lpm_disable = true) →
        st1.quirks &&& k.XHCI_HW_LPM_DISABLE = k.XHCI_HW_LPM_DISABLE) ∧
      ((∃ d ∈ env.dev :: env.ancestors, d.usb3_lpm_capable = true) →
        st1.quirks &&& k.XHCI_LPM_SUPPORT = k.XHCI_LPM_SUPPORT) ∧
      ((∃ d ∈ env.dev :: env.ancestors, d.quirk_broken_port_ped = true) →
        st1.quirks &&& k.XHCI_BROKEN_PORT_PED = k.XHCI_BROKEN_PORT_PED) ∧
      (∀ i, st.quirks.testBit i = true → st1.quirks.testBit i = true) ∧
      st1.quirks &&& st.quirks = st.quirks) ∧
    ((∃ d ∈ env.dev :: env.ancestors, d.usb2_lpm_disable = true) →
      (xhci_plat_probe cfg k env st).st.quirks &&& k.XHCI_HW_LPM_DISABLE
        = k.XHCI_HW_LPM_DISABLE) ∧
    ((∃ d ∈ env.dev :: env.ancestors, d.usb3_lpm_capable = true) →
      (xhci_plat_probe cfg k env st).st.quirks &&& k.XHCI_LPM_SUPPORT = k.XHCI_LPM_SUPPORT) ∧
    ((∃ d ∈ env.dev :: env.ancestors, d.quirk_broken_port_ped = true) →
      (xhci_plat_probe cfg k env st).st.quirks &&& k.XHCI_BROKEN_PORT_PED
        = k.XHCI_BROKEN_PORT_PED) ∧
    (∀ i, st.quirks.testBit i = true →
      (xhci_plat_probe cfg k env st).st.quirks.testBit i = true) ∧
    (xhci_plat_probe cfg k env st).st.quirks &&& st.quirks = st.quirks := by
  obtain ⟨pre, st1, he, hp, hq, _⟩ := probe_walk_done cfg k env st hwalk
  obtain ⟨h1, h2, h3, h4⟩ := probe_props_accumulates k (env.dev :: env.ancestors) st.quirks
  rw [← hq] at h1 h2 h3 h4
  have hmono : ∀ i, st1.quirks.testBit i = true →
      (xhci_plat_probe cfg k env st).st.quirks.testBit i = true := by
    intro i hi
    rw [he, after_st]
    exact (probe_usb_phy_walk_vars cfg k env _ st1).1 i hi
  refine ⟨⟨pre, st1, he, hp, hq, ?_, ?_, ?_, h4, ?_⟩, ?_, ?_, ?_, ?_, ?_⟩
  · exact fun h => land_eq_of_testBit_imp _ _ (h1 h)
  · exact fun h => land_eq_of_testBit_imp _ _ (h2 h)
  · exact fun h => land_eq_of_testBit_imp _ _ (h3 h)
  · exact land_eq_of_testBit_imp _ _ h4
  · exact fun h => land_eq_of_testBit_imp _ _ (fun i hi => hmono i (h1 h i hi))
  · exact fun h => land_eq_of_testBit_imp _ _ (fun i hi => hmono i (h2 h i hi))
  · exact fun h => land_eq_of_testBit_imp _ _ (fun i hi => hmono i (h3 h i hi))
  · exact fun i hi => hmono i (h4 i hi)
  · exact land_eq_of_testBit_imp _ _ (fun i hi => hmono i (h4 i hi))

/-- C6, at a concrete input: the controller's device and its parent without
`usb2-lpm-disable`, the grandparent with it; attach runs the walk and ends
with `XHCI_HW_LPM_DISABLE` set. -/
theorem quirk_walk_accumulates_witness :
    Ev.devm_usb_get_phy_by_phandle ∈
      (xhci_plat_probe Config.sample XhciH.sample ProbeEnv.lpm_grandparent State.zero).trace ∧
    (∃ d ∈ ProbeEnv.lpm_grandparent.dev :: ProbeEnv.lpm_grandparent.ancestors,
      d.usb2_lpm_disable = true) ∧
    ProbeEnv.lpm_grandparent.dev.usb2_lpm_disable = false ∧
    (ProbeEnv.lpm_grandparent.ancestors.map fun d => d.usb2_lpm_disable) = [false, true] ∧
    (xhci_plat_probe Config.sample XhciH.sample ProbeEnv.lpm_grandparent State.zero).st.quirks
        &&& XhciH.sample.XHCI_HW_LPM_DISABLE = XhciH.sample.XHCI_HW_LPM_DISABLE :=
  ⟨by decide, ⟨Device.lpm_off, by simp [ProbeEnv.lpm_grandparent], rfl⟩, rfl, rfl,
    (quirk_walk_accumulates Config.sample XhciH.sample ProbeEnv.lpm_grandparent State.zero
      (by decide)).2.1 ⟨Device.lpm_off, by simp [ProbeEnv.lpm_grandparent], rfl⟩⟩

theorem probe_walk_imod (k : XhciH) (chain : List Device) :
    ∀ v : WalkVars,
      (probe_walk k chain v).imod_interval =
        ((chain.reverse.findSome? fun d => d.imod_interval_ns).map (· % 2 ^ 32)).getD
          v.imod_interval := by
  induction chain with
  | nil => intro v; simp [probe_walk]
  | cons d rest ih =>
    intro v
    rw [probe_walk, ih]
    simp only [List.reverse_cons, List.findSome?_append, probe_walk_step]
    cases h1 : rest.reverse.findSome? (fun d => d.imod_interval_ns) <;>
      cases h2 : d.imod_interval_ns <;> simp [h2]

/-- C7 fails as stated: the controller's own device defines
`imod-interval-ns` as 100 and its parent as 200.  The walk leaves 200 and
attach returns 0 with `xhci->imod_interval` at 200, while the closest device
that defines the property defines 100. -/
theorem imod_walk_not_closest :
    (probe_props XhciH.sample [Device.with_imod 100, Device.with_imod 200] 0).imod_interval = 200 ∧
    [Device.with_imod 100, Device.with_imod 200].findSome? (fun d => d.imod_interval_ns)
      = some 100 ∧
    ProbeEnv.imod_chain.dev :: ProbeEnv.imod_chain.ancestors
      = [Device.with_imod 100, Device.with_imod 200] ∧
    Ev.devm_usb_get_phy_by_phandle ∈
      (xhci_plat_probe Config.sample XhciH.sample ProbeEnv.imod_chain State.zero).trace ∧
    (xhci_plat_probe Config.sample XhciH.sample ProbeEnv.imod_chain State.zero).ret
      = .returned 0 ∧
    (xhci_plat_probe Config.sample XhciH.sample ProbeEnv.imod_chain State.zero).st.imod_interval
      = 200 := by
  refine ⟨by decide, by decide, rfl, by decide, rfl, by decide⟩

/-- C7 as amended: in every attach that runs the property walk, over the
chain `pdev->dev`, parent, grandparent, ..., the interval the walk leaves,
with which attach enters the system PHY step, and the interval at the end of
attach are 40000 when no device of the chain defines `imod-interval-ns`, and
otherwise the value, as a `u32`, defined by the device farthest from the
controller that defines it (the last one the walk visits). -/
theorem imod_walk_takes_farthest (cfg : Config) (k : XhciH) (env : ProbeEnv) (st : State)
    (hwalk : Ev.devm_usb_get_phy_by_phandle ∈ (xhci_plat_probe cfg k env st).trace) :
    (∃ pre st1, xhci_plat_probe cfg k env st
        = (probe_usb_phy cfg k env (probe_sysdev cfg env.dev (env.dev :: env.ancestors))
            st1).after pre ∧
      Ev.devm_usb_get_phy_by_phandle ∉ pre ∧
      st1.imod_interval =
        (((env.dev :: env.ancestors).reverse.findSome? fun d => d.imod_interval_ns).map
          (· % 2 ^ 32)).getD 40000) ∧
    (xhci_plat_probe cfg k env st).st.imod_interval =
      (((env.dev :: env.ancestors).reverse.findSome? fun d => d.imod_interval_ns).map
        (· % 2 ^ 32)).getD 40000 := by
  obtain ⟨pre, st1, he, hp, _, hi⟩ := probe_walk_done cfg k env st hwalk
  rw [probe_props, probe_walk_imod] at hi
  refine ⟨⟨pre, st1, he, hp, hi⟩, ?_⟩
  rw [he, after_st, (probe_usb_phy_walk_vars cfg k env _ st1).2]
  exact hi

/-- C7 as amended, at a concrete input: the controller's own device defines
100 and its parent 200; attach ends with the value of the parent. -/
theorem imod_walk_takes_farthest_witness :
    Ev.devm_usb_get_phy_by_phandle ∈
      (xhci_plat_probe Config.sample XhciH.sample ProbeEnv.imod_chain State.zero).trace ∧
    (xhci_plat_probe Config.sample XhciH.sample ProbeEnv.imod_chain State.zero).st.imod_interval
      = (((ProbeEnv.imod_chain.dev :: ProbeEnv.imod_chain.ancestors).reverse.findSome?
          fun d => d.imod_interval_ns).map (· % 2 ^ 32)).getD 40000 :=
  ⟨by decide,
    (imod_walk_takes_farthest Config.sample XhciH.sample ProbeEnv.imod_chain State.zero
      (by decide)).2⟩

/-! ## Teardown: the wait and the removal flag -/

/-- Teardown in an arbitrary environment: it returns 0 after at most
`(T + 20) / 21` sleeps (none when a root hub is NULL, where the loop is
skipped), or it has read through a NULL `xhci->shared_hcd`, or, with the
Samsung block compiled in and a root hub NULL, it has read through the NULL
root hub before the loop. -/
theorem remove_outcomes (cfg : Config) (k : XhciH) (env : RemoveEnv) (st : State) :
    ((xhci_plat_remove cfg k env st).ret = .returned 0 ∧
      (xhci_plat_remove cfg k env st).trace.count Ev.usleep_range = remove_sleeps k env ∧
      remove_sleeps k env ≤ (k.XHCI_HUB_EVENT_TIMEOUT + 20) / 21) ∨
    ((xhci_plat_remove cfg k env st).ret = .null_deref ∧
      (st.shared_hcd = false ∨
        (cfg.CONFIG_USB_HOST_SAMSUNG_FEATURE = true ∧
          (env.rhdev = none ∨ env.srhdev = none)))) := by
  rcases remove_cases cfg k env st with ⟨pre, hpre, _, htr, hret, _⟩ | ⟨hret, hc, _, _⟩
  · left
    refine ⟨hret, ?_, ?_⟩
    · rw [htr, List.count_append, count_usleep_forbid pre hpre, count_usleep_remove_body]
      simp
    · unfold remove_sleeps
      split
      · exact leading_waits_le _ _ _
      · exact Nat.zero_le _
  · exact Or.inr ⟨hret, hc⟩

/-- A run of teardown that returns leaves `xhci->shared_hcd` NULL. -/
theorem remove_clears_shared (cfg : Config) (k : XhciH) (env : RemoveEnv) (st : State)
    (h : (xhci_plat_remove cfg k env st).ret = .returned 0) :
    (xhci_plat_remove cfg k env st).st.shared_hcd = false := by
  revert h
  unfold xhci_plat_remove remove_statements remove_body remove_hcd
  simp only []
  split_ifs <;> (try split) <;> (try split) <;> first | (intro _; rfl) | (intro h; cases h)

/-- Teardown entered again on the state a returning run of teardown left reads
through the NULL `xhci->shared_hcd` before it makes any call. -/
theorem remove_again_faults (cfg : Config) (k : XhciH) (env env2 : RemoveEnv) (st : State)
    (h : (xhci_plat_remove cfg k env st).ret = .returned 0) :
    xhci_plat_remove cfg k env2 (xhci_plat_remove cfg k env st).st
      = ⟨(xhci_plat_remove cfg k env st).st, [], .null_deref⟩ :=
  remove_of_no_shared cfg k env2 _ (remove_clears_shared cfg k env st h)

/-- C8: entered on an attached controller (`xhci->shared_hcd` set) with both
root hubs present, whatever the downstream devices do, the wait loop of
teardown ends and teardown returns 0.  With `T` the bound
`XHCI_HUB_EVENT_TIMEOUT` and `c = (T + 20) / 21` (the least `c` with
`T ≤ 21 * c`), it calls `usleep_range` once for every leading pass that sees a
device on either root hub, at most `c` times: `min N c` times when the first
pass to see none is pass `N`, and `c` times when every pass sees one.  The
calls of teardown are the optional `pm_runtime_forbid` calls, the wake-lock
release, these sleeps, and then the unregistration of the companion and of
the primary and the release of the mapping, the clocks and both contexts. -/
theorem remove_wait_terminates (cfg : Config) (k : XhciH) (st : State) (parent : Bool)
    (rh srh : RootHub) (s1 s2 : Bool) (hs : st.shared_hcd = true) :
    k.XHCI_HUB_EVENT_TIMEOUT ≤ 21 * ((k.XHCI_HUB_EVENT_TIMEOUT + 20) / 21) ∧
    21 * ((k.XHCI_HUB_EVENT_TIMEOUT + 20) / 21) < k.XHCI_HUB_EVENT_TIMEOUT + 21 ∧
    (xhci_plat_remove cfg k ⟨parent, some rh, some srh, s1, s2⟩ st).ret = .returned 0 ∧
    (xhci_plat_remove cfg k ⟨parent, some rh, some srh, s1, s2⟩ st).trace.count Ev.usleep_range
      = leading_waits (need_wait rh srh) ((k.XHCI_HUB_EVENT_TIMEOUT + 20) / 21) 0 ∧
    (∀ N, (∀ j, j < N → need_wait rh srh j = true) → need_wait rh srh N = false →
      (xhci_plat_remove cfg k ⟨parent, some rh, some srh, s1, s2⟩ st).trace.count
        Ev.usleep_range = min N ((k.XHCI_HUB_EVENT_TIMEOUT + 20) / 21)) ∧
    ((∀ j, need_wait rh srh j = true) →
      (xhci_plat_remove cfg k ⟨parent, some rh, some srh, s1, s2⟩ st).trace.count
        Ev.usleep_range = (k.XHCI_HUB_EVENT_TIMEOUT + 20) / 21) ∧
    (∃ pre, (∀ x ∈ pre, ∃ t, x = Ev.pm_runtime_forbid t) ∧
      (xhci_plat_remove cfg k ⟨parent, some rh, some srh, s1, s2⟩ st).trace =
        pre ++
        [Ev.pm_runtime_get_sync, Ev.pm_relax .main, Ev.pm_relax .shared,
         Ev.wakeup_source_unregister .main, Ev.wakeup_source_unregister .shared]
        ++ List.replicate
            (leading_waits (need_wait rh srh) ((k.XHCI_HUB_EVENT_TIMEOUT + 20) / 21) 0)
            Ev.usleep_range
        ++ [Ev.usb_remove_hcd .shared, Ev.usb_phy_shutdown st.usb_phy.is_valid,
            Ev.usb_remove_hcd .main, Ev.devm_iounmap, Ev.usb_put_hcd .shared,
            Ev.clk_disable_unprepare .bus st.clk.is_valid,
            Ev.clk_disable_unprepare .reg st.reg_clk.is_valid, Ev.usb_put_hcd .main,
            Ev.pm_runtime_disable, Ev.pm_runtime_put_noidle, Ev.pm_runtime_set_suspended]) := by
  have hcount : (xhci_plat_remove cfg k ⟨parent, some rh, some srh, s1, s2⟩ st).trace.count
      Ev.usleep_range
      = leading_waits (need_wait rh srh) ((k.XHCI_HUB_EVENT_TIMEOUT + 20) / 21) 0 := by
    rcases remove_cases cfg k ⟨parent, some rh, some srh, s1, s2⟩ st with
      ⟨pre, hpre, _, htr, _, _⟩ | ⟨_, h | ⟨_, hn⟩, _, _⟩
    · rw [htr, List.count_append, count_usleep_forbid pre hpre, count_usleep_remove_body]
      simp [remove_sleeps]
    · rw [hs] at h
      cases h
    · simp at hn
  refine ⟨by omega, by omega, ?_, hcount, ?_, ?_, ?_⟩
  · rcases remove_cases cfg k ⟨parent, some rh, some srh, s1, s2⟩ st with
      ⟨_, _, _, _, hret, _⟩ | ⟨_, h | ⟨_, hn⟩, _, _⟩
    · exact hret
    · rw [hs] at h
      cases h
    · simp at hn
  · intro N h1 h2
    rw [hcount]
    exact leading_waits_of_first_clear _ _ 0 N (by simpa using h1) (by simpa using h2)
  · intro h
    rw [hcount]
    exact leading_waits_of_never_clear _ _ 0 (by simpa using h)
  · rcases remove_cases cfg k ⟨parent, some rh, some srh, s1, s2⟩ st with
      ⟨pre, hpre, _, htr, _, _⟩ | ⟨_, h | ⟨_, hn⟩, _, _⟩
    · refine ⟨pre, hpre, ?_⟩
      rw [htr, remove_body_trace]
      simp [remove_sleeps]
    · rw [hs] at h
      cases h
    · simp at hn

/-- C8, at a concrete input: teardown is entered on the state a successful
attach left, a device stays on the primary root hub for three passes, the
bound is 100 (five passes at most), teardown sleeps three times. -/
theorem remove_wait_terminates_witness :
    State.bound.shared_hcd = true ∧
    (∀ j, j < 3 → need_wait (RootHub.busy_for 3) (fun _ => []) j = true) ∧
    need_wait (RootHub.busy_for 3) (fun _ => []) 3 = false ∧
    (xhci_plat_remove Config.sample XhciH.sample
      ⟨true, some (RootHub.busy_for 3), some (fun _ => []), true, true⟩ State.bound).trace.count
        Ev.usleep_range = 3 :=
  ⟨rfl, by decide, by decide,
    (remove_wait_terminates Config.sample XhciH.sample State.bound true (RootHub.busy_for 3)
      (fun _ => []) true true rfl).2.2.2.2.1 3 (by decide) (by decide)⟩

/-- C9 fails as stated: entered on the state a successful attach left, with
`XHCI_STATE_REMOVING` already set, teardown returns 0 after it released the
wake locks, unregistered the wakeup sources and both controllers and dropped
the primary context. -/
theorem remove_not_guarded_by_flag :
    State.removing.xhc_state &&& XhciH.sample.XHCI_STATE_REMOVING
      = XhciH.sample.XHCI_STATE_REMOVING ∧
    State.removing.shared_hcd = true ∧
    (xhci_plat_remove Config.sample XhciH.sample (RemoveEnv.busy_for 0) State.removing).ret
      = .returned 0 ∧
    Ev.pm_relax .main ∈
      (xhci_plat_remove Config.sample XhciH.sample (RemoveEnv.busy_for 0) State.removing).trace ∧
    Ev.wakeup_source_unregister .main ∈
      (xhci_plat_remove Config.sample XhciH.sample (RemoveEnv.busy_for 0) State.removing).trace ∧
    Ev.usb_remove_hcd .shared ∈
      (xhci_plat_remove Config.sample XhciH.sample (RemoveEnv.busy_for 0) State.removing).trace ∧
    Ev.usb_remove_hcd .main ∈
      (xhci_plat_remove Config.sample XhciH.sample (RemoveEnv.busy_for 0) State.removing).trace ∧
    Ev.usb_put_hcd .main ∈
      (xhci_plat_remove Config.sample XhciH.sample (RemoveEnv.busy_for 0) State.removing).trace ∧
    released (.wakeup_source .main)
      (xhci_plat_remove Config.sample XhciH.sample (RemoveEnv.busy_for 0) State.removing).trace
      = 1 := by
  have htr : (xhci_plat_remove Config.sample XhciH.sample (RemoveEnv.busy_for 0)
      State.removing).trace = (remove_body XhciH.sample (RemoveEnv.busy_for 0)
        { State.removing with usb3_portsc := none, pp_set_delayed := 0 }).trace := rfl
  rw [htr, remove_body_trace]
  refine ⟨by decide, rfl, rfl, ?_, ?_, ?_, ?_, ?_, ?_⟩ <;> simp [released, Ev.releases]

/-- C9 as amended: teardown sets the removal flag and never tests it.  Its
calls and its result do not depend on `xhci->xhc_state` at entry; it returns
0 unless it reads through a NULL `xhci->shared_hcd` or reads the runtime-PM
status of a NULL root hub in the Samsung block; and when it returns, the flag is set and the run has released each
wakeup source, each wake lock, each registration and each context once and
disabled each clock that is present once. -/
theorem remove_ignores_flag (cfg : Config) (k : XhciH) (env : RemoveEnv) (st : State)
    (x : Nat) :
    (xhci_plat_remove cfg k env { st with xhc_state := x }).trace
      = (xhci_plat_remove cfg k env st).trace ∧
    (xhci_plat_remove cfg k env { st with xhc_state := x }).ret
      = (xhci_plat_remove cfg k env st).ret ∧
    ((xhci_plat_remove cfg k env st).ret = .returned 0 ∨
      ((xhci_plat_remove cfg k env st).ret = .null_deref ∧
        (st.shared_hcd = false ∨
          (cfg.CONFIG_USB_HOST_SAMSUNG_FEATURE = true ∧
            (env.rhdev = none ∨ env.srhdev = none))))) ∧
    ((xhci_plat_remove cfg k env st).ret = .returned 0 →
      (xhci_plat_remove cfg k env st).st.xhc_state = st.xhc_state ||| k.XHCI_STATE_REMOVING ∧
      (∀ w, released (.wakeup_source w) (xhci_plat_remove cfg k env st).trace = 1 ∧
        released (.wake_lock w) (xhci_plat_remove cfg k env st).trace = 1) ∧
      (∀ h, released (.hcd_registration h) (xhci_plat_remove cfg k env st).trace = 1 ∧
        released (.hcd_context h) (xhci_plat_remove cfg k env st).trace = 1) ∧
      released (.clk_enabled .bus) (xhci_plat_remove cfg k env st).trace
        = (if st.clk.is_valid then 1 else 0) ∧
      released (.clk_enabled .reg) (xhci_plat_remove cfg k env st).trace
        = (if st.reg_clk.is_valid then 1 else 0)) := by
  have hpre0 : ∀ (r : Resource) (pre : List Ev),
      (∀ y ∈ pre, ∃ t, y = Ev.pm_runtime_forbid t) → released r pre = 0 := by
    intro r pre hpre
    unfold released
    rw [List.countP_eq_zero]
    intro y hy
    obtain ⟨t, rfl⟩ := hpre y hy
    simp [Ev.releases]
  refine ⟨?_, ?_, ?_, ?_⟩
  · unfold xhci_plat_remove remove_statements
    simp only []
    split_ifs <;> (try split) <;> (try split) <;> rfl
  · unfold xhci_plat_remove remove_statements
    simp only []
    split_ifs <;> (try split) <;> (try split) <;> rfl
  · rcases remove_cases cfg k env st with ⟨_, _, _, _, hret, _⟩ | ⟨hret, hc, _, _⟩
    · exact Or.inl hret
    · exact Or.inr ⟨hret, hc⟩
  · intro hret
    rcases remove_cases cfg k env st with ⟨pre, hpre, _, htr, _, _⟩ | ⟨hret', _, _, _⟩
    · refine ⟨?_, ?_, ?_, ?_, ?_⟩
      · revert hret
        unfold xhci_plat_remove remove_statements
        simp only []
        split_ifs <;> (try split) <;> (try split) <;> first | (intro _; rfl) | (intro h; cases h)
      · intro w
        have h1 : released (.wakeup_source w) (xhci_plat_remove cfg k env st).trace = 1 := by
          rw [htr]
          unfold released
          rw [List.countP_append]
          have := hpre0 (.wakeup_source w) pre hpre
          unfold released at this
          rw [this, remove_body_trace]
          cases w <;> simp [Ev.releases, List.countP_append, List.countP_replicate]
        have h2 : released (.wake_lock w) (xhci_plat_remove cfg k env st).trace = 1 := by
          rw [htr]
          unfold released
          rw [List.countP_append]
          have := hpre0 (.wake_lock w) pre hpre
          unfold released at this
          rw [this, remove_body_trace]
          cases w <;> simp [Ev.releases, List.countP_append, List.countP_replicate]
        exact ⟨h1, h2⟩
      · intro h
        have h1 : released (.hcd_registration h) (xhci_plat_remove cfg k env st).trace = 1 := by
          rw [htr]
          unfold released
          rw [List.countP_append]
          have := hpre0 (.hcd_registration h) pre hpre
          unfold released at this
          rw [this, remove_body_trace]
          cases h <;> simp [Ev.releases, List.countP_append, List.countP_replicate]
        have h2 : released (.hcd_context h) (xhci_plat_remove cfg k env st).trace = 1 := by
          rw [htr]
          unfold released
          rw [List.countP_append]
          have := hpre0 (.hcd_context h) pre hpre
          unfold released at this
          rw [this, remove_body_trace]
          cases h <;> simp [Ev.releases, List.countP_append, List.countP_replicate]
        exact ⟨h1, h2⟩
      · rw [htr]
        unfold released
        rw [List.countP_append]
        have := hpre0 (.clk_enabled .bus) pre hpre
        unfold released at this
        rw [this, remove_body_trace]
        cases st.clk.is_valid <;>
          simp [Ev.releases, List.countP_append, List.countP_replicate]
      · rw [htr]
        unfold released
        rw [List.countP_append]
        have := hpre0 (.clk_enabled .reg) pre hpre
        unfold released at this
        rw [this, remove_body_trace]
        cases st.reg_clk.is_valid <;>
          simp [Ev.releases, List.countP_append, List.countP_replicate]
    · rw [hret'] at hret
      cases hret

/-- C9 as amended, at a concrete input: teardown entered on the state a
successful attach left, with both root hubs present, returns 0 and leaves the
removal flag set. -/
theorem remove_ignores_flag_witness :
    (xhci_plat_remove Config.sample XhciH.sample (RemoveEnv.busy_for 0) State.bound).ret
      = .returned 0 ∧
    (xhci_plat_remove Config.sample XhciH.sample (RemoveEnv.busy_for 0) State.bound).st.xhc_state
      = State.bound.xhc_state ||| XhciH.sample.XHCI_STATE_REMOVING :=
  ⟨rfl,
    ((remove_ignores_flag Config.sample XhciH.sample (RemoveEnv.busy_for 0) State.bound 0).2.2.2
      rfl).1⟩

/-! ## DMA mask before the registers -/

theorem dma_calls_append (a b : List Ev) : dma_calls (a ++ b) = dma_calls a ++ dma_calls b := by
  simp [dma_calls]

theorem dma_calls_of_no_dma (tr : List Ev) (h : ∀ x ∈ tr, x.is_dma = false) :
    dma_calls tr = [] := by
  unfold dma_calls
  rw [List.filter_eq_nil_iff]
  intro x hx
  simp [h x hx]

/-- When the calls `A` touch no register and contain a successful DMA mask
call, every call after them has a successful DMA mask call before it. -/
theorem guarded_split (A X : List Ev) (d : Ev) (hd : d ∈ A) (hok : d.is_dma_ok = true)
    (hA : ∀ x ∈ A, x.touches_regs = false) (pre : List Ev) (e : Ev) (post : List Ev)
    (h : A ++ X = pre ++ e :: post) (he : e.touches_regs = true) :
    ∃ d ∈ pre, d.is_dma_ok = true := by
  rcases List.append_eq_append_iff.mp h with ⟨a', h1, _⟩ | ⟨c', h1, h2⟩
  · exact ⟨d, by rw [h1]; exact List.mem_append_left _ hd, hok⟩
  · cases c' with
    | nil =>
      refine ⟨d, ?_, hok⟩
      rw [h1] at hd
      simpa using hd
    | cons c rest =>
      simp only [List.cons_append, List.cons.injEq] at h2
      have : e ∈ A := by rw [h1, h2.1]; simp
      rw [hA e this] at he
      cases he

theorem unguarded_split (A : List Ev) (hA : ∀ x ∈ A, x.touches_regs = false)
    (pre : List Ev) (e : Ev) (post : List Ev) (h : A = pre ++ e :: post)
    (he : e.touches_regs = true) : ∃ d ∈ pre, d.is_dma_ok = true := by
  have : e ∈ A := by rw [h]; simp
  rw [hA e this] at he
  cases he

/-- C10: in every run of attach the DMA mask calls are none (attach failed
before), or one 64-bit call that returned 0, or a 64-bit call that failed
followed by one 32-bit call; when both fail attach returns the error of the
32-bit call and its calls are the wakeup-source calls and the two DMA mask
calls only, so no controller context is created and no register is mapped;
and every call that maps or touches the register window has a successful DMA
mask call before it. -/
theorem dma_mask_before_registers (cfg : Config) (k : XhciH) (env : ProbeEnv) (st : State) :
    (dma_calls (xhci_plat_probe cfg k env st).trace = [] ∨
      (dma_calls (xhci_plat_probe cfg k env st).trace
          = [(probe_dma64 (probe_sysdev cfg env.dev (env.dev :: env.ancestors))).2] ∧
        (probe_dma64 (probe_sysdev cfg env.dev (env.dev :: env.ancestors))).1 = 0) ∨
      (dma_calls (xhci_plat_probe cfg k env st).trace
          = [(probe_dma64 (probe_sysdev cfg env.dev (env.dev :: env.ancestors))).2,
             Ev.dma_set_mask_and_coherent 32
               (probe_sysdev cfg env.dev (env.dev :: env.ancestors)).dma_set32_ret] ∧
        (probe_dma64 (probe_sysdev cfg env.dev (env.dev :: env.ancestors))).1 ≠ 0)) ∧
    ((probe_dma64 (probe_sysdev cfg env.dev (env.dev :: env.ancestors))).2
        = Ev.dma_coerce_mask_and_coherent 64
            (probe_dma64 (probe_sysdev cfg env.dev (env.dev :: env.ancestors))).1 ∨
      (probe_dma64 (probe_sysdev cfg env.dev (env.dev :: env.ancestors))).2
        = Ev.dma_set_mask_and_coherent 64
            (probe_dma64 (probe_sysdev cfg env.dev (env.dev :: env.ancestors))).1) ∧
    (env.usb_disabled = false → 0 ≤ env.irq →
      (probe_dma64 (probe_sysdev cfg env.dev (env.dev :: env.ancestors))).1 ≠ 0 →
      (probe_sysdev cfg env.dev (env.dev :: env.ancestors)).dma_set32_ret ≠ 0 →
        (xhci_plat_probe cfg k env st).ret
          = .returned (probe_sysdev cfg env.dev (env.dev :: env.ancestors)).dma_set32_ret ∧
        (xhci_plat_probe cfg k env st).trace
          = [Ev.wakeup_source_register .main, Ev.pm_stay_awake .main,
             Ev.wakeup_source_register .shared, Ev.pm_stay_awake .shared,
             Ev.set_is_rewa_enabled 0,
             (probe_dma64 (probe_sysdev cfg env.dev (env.dev :: env.ancestors))).2,
             Ev.dma_set_mask_and_coherent 32
               (probe_sysdev cfg env.dev (env.dev :: env.ancestors)).dma_set32_ret] ∧
        (∀ x ∈ (xhci_plat_probe cfg k env st).trace, x.touches_regs = false ∧
          ∀ h ok, x ≠ Ev.usb_create_hcd h ok)) ∧
    (∀ pre e post, (xhci_plat_probe cfg k env st).trace = pre ++ e :: post →
      e.touches_regs = true → ∃ d ∈ pre, d.is_dma_ok = true) := by
  have hc := probe_cases cfg k env st
  simp only [] at hc
  have hdc := probe_dma64_cases (probe_sysdev cfg env.dev (env.dev :: env.ancestors))
  have hdd := probe_dma64_is_dma (probe_sysdev cfg env.dev (env.dev :: env.ancestors))
  have hdt := probe_dma64_no_touch (probe_sysdev cfg env.dev (env.dev :: env.ancestors))
  refine ⟨?_, hdc, ?_, ?_⟩
  · rcases hc with ⟨_, htr⟩ | ⟨_, _, h3, h4, _, htr⟩ | ⟨_, _, h3, h4, st1, heq⟩ |
      ⟨_, _, h3, st1, heq⟩
    · left
      rw [htr]
      rfl
    · right; right
      refine ⟨?_, h3⟩
      rw [htr]
      rcases hdc with h | h <;> rw [h] <;> simp [dma_calls, Ev.is_dma]
    · right; right
      refine ⟨?_, h3⟩
      rw [heq, after_trace, dma_calls_append,
        dma_calls_of_no_dma _ (probe_hcd_no_dma cfg k env _ st1), h4]
      rcases hdc with h | h <;> rw [h] <;> simp [dma_calls, Ev.is_dma]
    · right; left
      refine ⟨?_, h3⟩
      rw [heq, after_trace, dma_calls_append,
        dma_calls_of_no_dma _ (probe_hcd_no_dma cfg k env _ st1)]
      rcases hdc with h | h <;> rw [h] <;> simp [dma_calls, Ev.is_dma]
  · intro h1 h2 h3 h4
    rcases hc with ⟨h, _⟩ | ⟨_, _, _, _, hret, htr⟩ | ⟨_, _, _, h4', _⟩ | ⟨_, _, h3', _⟩
    · rcases h with h | h
      · rw [h1] at h; cases h
      · omega
    · refine ⟨hret, by rw [htr]; rfl, ?_⟩
      rw [htr]
      intro x hx
      simp only [List.cons_append, List.nil_append, List.mem_cons, List.mem_singleton,
        List.mem_nil_iff, or_false] at hx
      rcases hx with rfl | rfl | rfl | rfl | rfl | rfl | rfl
      all_goals first
        | exact ⟨rfl, fun _ _ h => by cases h⟩
        | (refine ⟨hdt, fun h ok hh => ?_⟩
           rcases hdc with hd | hd <;> rw [hd] at hh <;> cases hh)
    · exact absurd h4' h4
    · exact absurd h3' h3
  · intro pre e post hsplit he
    rcases hc with ⟨_, htr⟩ | ⟨_, _, h3, h4, _, htr⟩ | ⟨_, _, h3, h4, st1, heq⟩ |
      ⟨_, _, h3, st1, heq⟩
    · rw [htr] at hsplit
      exact unguarded_split _ (by simp [Ev.touches_regs]) pre e post hsplit he
    · rw [htr] at hsplit
      exact unguarded_split _
        (probe_head_no_touch _ [_] (by intro x hx; rw [List.mem_singleton.mp hx]; rfl))
        pre e post hsplit he
    · rw [heq, after_trace] at hsplit
      exact guarded_split _ _ (Ev.dma_set_mask_and_coherent 32 0) (by simp) rfl
        (probe_head_no_touch _ [_] (by intro x hx; rw [List.mem_singleton.mp hx]; rfl))
        pre e post hsplit he
    · rw [heq, after_trace] at hsplit
      exact guarded_split _ _ _ (by simp) (probe_dma64_ok _ h3)
        (probe_head_no_touch _ [] (by simp)) pre e post hsplit he

/-- C10, at a concrete input: both DMA mask calls fail with -5 and attach
returns -5. -/
theorem dma_mask_before_registers_witness :
    ProbeEnv.no_dma.usb_disabled = false ∧ 0 ≤ ProbeEnv.no_dma.irq ∧
    (probe_dma64 (probe_sysdev Config.sample ProbeEnv.no_dma.dev
      (ProbeEnv.no_dma.dev :: ProbeEnv.no_dma.ancestors))).1 ≠ 0 ∧
    (probe_sysdev Config.sample ProbeEnv.no_dma.dev
      (ProbeEnv.no_dma.dev :: ProbeEnv.no_dma.ancestors)).dma_set32_ret ≠ 0 ∧
    (xhci_plat_probe Config.sample XhciH.sample ProbeEnv.no_dma State.zero).ret
      = .returned (-5) :=
  ⟨rfl, by decide, by decide, by decide,
    ((dma_mask_before_registers Config.sample XhciH.sample ProbeEnv.no_dma State.zero).2.2.1
      rfl (by decide) (by decide) (by decide)).1⟩

/-! ## The system PHY lookup -/

theorem probe_bus_clk_reaches (cfg : Config) (k : XhciH) (env : ProbeEnv) (sysdev : Device)
    (st : State)
    (h : Ev.devm_usb_get_phy_by_phandle ∈ (probe_bus_clk cfg k env sysdev st).trace) :
    ∃ pre st1, probe_bus_clk cfg k env sysdev st = (probe_usb_phy cfg k env sysdev st1).after pre ∧
      Ev.devm_usb_get_phy_by_phandle ∉ pre ∧ (∀ x ∈ pre, x.is_hcd_reg = false ∧ x.is_phy_get = false) ∧
      st1.clk = env.clk ∧ st1.reg_clk = st.reg_clk := by
  revert h
  unfold probe_bus_clk
  simp only []
  split <;> (try split_ifs) <;> intro h
  all_goals first
    | (exfalso; simp [probe_disable_clk, probe_disable_reg_clk, probe_put_hcd,
        probe_disable_runtime] at h; done)
    | exact ⟨_, _, rfl, by simp, by simp [Ev.is_hcd_reg, Ev.is_phy_get], rfl, rfl⟩

theorem probe_reg_clk_reaches (cfg : Config) (k : XhciH) (env : ProbeEnv) (sysdev : Device)
    (st : State)
    (h : Ev.devm_usb_get_phy_by_phandle ∈ (probe_reg_clk cfg k env sysdev st).trace) :
    ∃ pre st1, probe_reg_clk cfg k env sysdev st = (probe_usb_phy cfg k env sysdev st1).after pre ∧
      Ev.devm_usb_get_phy_by_phandle ∉ pre ∧ (∀ x ∈ pre, x.is_hcd_reg = false ∧ x.is_phy_get = false) ∧
      st1.clk = env.clk ∧ st1.reg_clk = env.reg_clk := by
  revert h
  unfold probe_reg_clk
  simp only []
  split <;> (try split_ifs) <;> intro h
  all_goals first
    | (exfalso; simp [probe_put_hcd, probe_disable_runtime] at h; done)
    | (simp only [after_trace, List.mem_append] at h
       have h2 := h.resolve_left (by simp)
       obtain ⟨pre, st1, he, hp, hr, hc, hrc⟩ := probe_bus_clk_reaches cfg k env sysdev _ h2
       rw [he, after_after]
       refine ⟨_, st1, rfl, by simp [hp], ?_, hc, hrc⟩
       intro x hx
       rw [List.mem_append] at hx
       rcases hx with hx | hx
       · revert hx
         revert x
         simp [Ev.is_hcd_reg, Ev.is_phy_get]
       · exact hr x hx)

theorem probe_hcd_reaches (cfg : Config) (k : XhciH) (env : ProbeEnv) (sysdev : Device)
    (st : State)
    (h : Ev.devm_usb_get_phy_by_phandle ∈ (probe_hcd cfg k env sysdev st).trace) :
    ∃ pre st1, probe_hcd cfg k env sysdev st = (probe_usb_phy cfg k env sysdev st1).after pre ∧
      Ev.devm_usb_get_phy_by_phandle ∉ pre ∧ (∀ x ∈ pre, x.is_hcd_reg = false ∧ x.is_phy_get = false) ∧
      st1.clk = env.clk ∧ st1.reg_clk = env.reg_clk := by
  revert h
  unfold probe_hcd
  simp only []
  split_ifs <;> (try split) <;> intro h
  all_goals first
    | (exfalso; simp [probe_put_hcd, probe_disable_runtime] at h; done)
    | (simp only [after_trace, List.mem_append] at h
       have h2 := h.resolve_left (by simp)
       obtain ⟨pre, st1, he, hp, hr, hc, hrc⟩ := probe_reg_clk_reaches cfg k env sysdev _ h2
       rw [he, after_after]
       refine ⟨_, st1, rfl, by simp [hp], ?_, hc, hrc⟩
       intro x hx
       rw [List.mem_append] at hx
       rcases hx with hx | hx
       · revert hx
         revert x
         simp [Ev.is_hcd_reg, Ev.is_phy_get]
       · exact hr x hx)

/-- Attach that makes the system PHY lookup has got there through calls that
are neither that lookup, nor a controller (un)registration, nor an Exynos PHY
lookup, with both clocks looked up. -/
theorem probe_reaches_usb_phy (cfg : Config) (k : XhciH) (env : ProbeEnv) (st : State)
    (h : Ev.devm_usb_get_phy_by_phandle ∈ (xhci_plat_probe cfg k env st).trace) :
    ∃ pre st1, xhci_plat_probe cfg k env st
        = (probe_usb_phy cfg k env (probe_sysdev cfg env.dev (env.dev :: env.ancestors))
            st1).after pre ∧
      Ev.devm_usb_get_phy_by_phandle ∉ pre ∧ (∀ x ∈ pre, x.is_hcd_reg = false ∧ x.is_phy_get = false) ∧
      st1.clk = env.clk ∧ st1.reg_clk = env.reg_clk := by
  have hd : (probe_dma64 (probe_sysdev cfg env.dev (env.dev :: env.ancestors))).2
      ≠ Ev.devm_usb_get_phy_by_phandle := by
    rcases probe_dma64_cases (probe_sysdev cfg env.dev (env.dev :: env.ancestors)) with h | h <;>
      rw [h] <;> simp
  have hd2 : (probe_dma64 (probe_sysdev cfg env.dev (env.dev :: env.ancestors))).2.is_hcd_reg
      = false ∧
      (probe_dma64 (probe_sysdev cfg env.dev (env.dev :: env.ancestors))).2.is_phy_get
        = false := by
    rcases probe_dma64_cases (probe_sysdev cfg env.dev (env.dev :: env.ancestors)) with h | h <;>
      rw [h] <;> exact ⟨rfl, rfl⟩
  rcases probe_cases cfg k env st with ⟨_, ht⟩ | ⟨_, _, _, _, _, ht⟩ | ⟨_, _, _, _, st1, he⟩ |
      ⟨_, _, _, st1, he⟩
  · rw [ht] at h
    simp at h
  · rw [ht] at h
    simp at h
    exact absurd h.symm hd
  · rw [he, after_trace, List.mem_append] at h
    have h2 := h.resolve_left (by simp; exact fun h => hd h.symm)
    obtain ⟨pre, st2, he2, hp, hr, hc, hrc⟩ := probe_hcd_reaches cfg k env _ st1 h2
    rw [he, he2, after_after]
    refine ⟨_, st2, rfl, ?_, ?_, hc, hrc⟩
    · simp [hp]
      exact fun h => hd h.symm
    · intro x hx
      simp only [List.mem_append, List.mem_cons, List.mem_singleton, List.not_mem_nil,
        or_false] at hx
      rcases hx with ((rfl | rfl | rfl | rfl | rfl) | rfl | rfl) | hx
      all_goals first | exact ⟨rfl, rfl⟩ | exact hd2 | exact hr x hx
  · rw [he, after_trace, List.mem_append] at h
    have h2 := h.resolve_left (by simp; exact fun h => hd h.symm)
    obtain ⟨pre, st2, he2, hp, hr, hc, hrc⟩ := probe_hcd_reaches cfg k env _ st1 h2
    rw [he, he2, after_after]
    refine ⟨_, st2, rfl, ?_, ?_, hc, hrc⟩
    · simp [hp]
      exact fun h => hd h.symm
    · intro x hx
      simp only [List.mem_append, List.mem_cons, List.mem_singleton, List.not_mem_nil,
        or_false] at hx
      rcases hx with ((rfl | rfl | rfl | rfl | rfl) | rfl) | hx
      all_goals first | exact ⟨rfl, rfl⟩ | exact hd2 | exact hr x hx



theorem calls_after_first (e : Ev) (pre post : List Ev) (h : e ∉ pre) :
    calls_after e (pre ++ e :: post) = post := by
  unfold calls_after
  induction pre with
  | nil => simp [List.dropWhile]
  | cons a t ih =>
    have ha : (a != e) = true := by
      simp only [bne_iff_ne, ne_eq]
      exact fun hh => h (by simp [hh])
    have ht : e ∉ t := fun hh => h (by simp [hh])
    simp only [List.cons_append, List.dropWhile, ha]
    exact ih ht

theorem probe_parent_first_call (cfg : Config) (k : XhciH) (env : ProbeEnv) (sysdev : Device)
    (st : State) :
    (env.ancestors = [] ∧ (probe_parent cfg k env sysdev st).trace = [] ∧
      (probe_parent cfg k env sysdev st).ret = .null_deref) ∨
    (∃ p rest t, env.ancestors = p :: rest ∧
      (probe_parent cfg k env sysdev st).trace
        = Ev.devm_phy_get .usb2 :: Ev.devm_phy_get .usb3 :: t) := by
  cases h : env.ancestors with
  | nil =>
    left
    unfold probe_parent
    simp [h]
  | cons p rest =>
    right
    refine ⟨p, rest, (probe_parent cfg k env sysdev st).trace.drop 2, rfl, ?_⟩
    unfold probe_parent
    simp [h, Result.after]

theorem probe_audio_keeps_usb_phy (cfg : Config) (env : ProbeEnv) (parent : Device)
    (st : State) : (probe_audio cfg env parent st).st.usb_phy = st.usb_phy := by
  unfold probe_audio probe_success
  simp only []
  split_ifs <;> rfl

theorem probe_register_keeps_usb_phy (cfg : Config) (k : XhciH) (env : ProbeEnv)
    (parent : Device) (st : State) :
    (probe_register cfg k env parent st).st.usb_phy = st.usb_phy := by
  unfold probe_register
  simp only []
  split_ifs <;> first | rfl | (rw [after_st, probe_audio_keeps_usb_phy])

theorem probe_parent_keeps_usb_phy (cfg : Config) (k : XhciH) (env : ProbeEnv)
    (sysdev : Device) (st : State) :
    (probe_parent cfg k env sysdev st).st.usb_phy = st.usb_phy := by
  unfold probe_parent
  simp only []
  split
  · rfl
  · rw [after_st, probe_register_keeps_usb_phy]



theorem probe_usb_phy_err (cfg : Config) (k : XhciH) (env : ProbeEnv) (sysdev : Device)
    (st : State) (e : Int) (h : sysdev.usb_phy = .err e) :
    probe_usb_phy cfg k env sysdev st =
      if e = -EPROBE_DEFER then
        ⟨{ st with usb_phy := .err e },
          Ev.devm_usb_get_phy_by_phandle :: probe_put_usb3_hcd { st with usb_phy := .err e },
          .returned e⟩
      else
        (probe_parent cfg k env sysdev { st with usb_phy := .null }).after
          [Ev.devm_usb_get_phy_by_phandle] := by
  unfold probe_usb_phy
  rw [h]
  simp only []
  split_ifs <;> rfl

/-- C11 as amended: when attach gets as far as the system PHY lookup and the
lookup fails with `e`, attach returns from that step, with `-EPROBE_DEFER` and
with the releases of label `put_usb3_hcd` as its only calls after the lookup,
exactly when `e = -EPROBE_DEFER`, and no call of that run registers or
unregisters a controller.  For every other `e` the PHY is treated as absent
(`hcd->usb_phy` is NULL from there to the end) and attach goes on to the steps
after the lookup: its remaining calls and its result are those of
`probe_parent`, which with a parent present begin with the two Exynos PHY
lookups. -/
theorem usb_phy_lookup_error (cfg : Config) (k : XhciH) (env : ProbeEnv) (st : State) (e : Int)
    (hreach : Ev.devm_usb_get_phy_by_phandle ∈ (xhci_plat_probe cfg k env st).trace)
    (hphy : (probe_sysdev cfg env.dev (env.dev :: env.ancestors)).usb_phy = .err e) :
    (((xhci_plat_probe cfg k env st).ret = .returned (-EPROBE_DEFER) ∧
      calls_after Ev.devm_usb_get_phy_by_phandle (xhci_plat_probe cfg k env st).trace
        = [Ev.usb_put_hcd .shared, Ev.clk_disable_unprepare .bus env.clk.is_valid,
           Ev.clk_disable_unprepare .reg env.reg_clk.is_valid, Ev.usb_put_hcd .main,
           Ev.pm_runtime_put_noidle, Ev.pm_runtime_disable]) ↔ e = -EPROBE_DEFER) ∧
    (e = -EPROBE_DEFER →
      ∀ x ∈ (xhci_plat_probe cfg k env st).trace, x.is_hcd_reg = false) ∧
    (e ≠ -EPROBE_DEFER →
      (xhci_plat_probe cfg k env st).st.usb_phy = .null ∧
      (∃ pre st1, st1.usb_phy = .null ∧ Ev.devm_usb_get_phy_by_phandle ∉ pre ∧
        (∀ x ∈ pre, x.is_hcd_reg = false) ∧
        xhci_plat_probe cfg k env st
          = (probe_parent cfg k env (probe_sysdev cfg env.dev (env.dev :: env.ancestors))
              st1).after (pre ++ [Ev.devm_usb_get_phy_by_phandle]) ∧
        calls_after Ev.devm_usb_get_phy_by_phandle (xhci_plat_probe cfg k env st).trace
          = (probe_parent cfg k env (probe_sysdev cfg env.dev (env.dev :: env.ancestors))
              st1).trace) ∧
      (∀ p rest, env.ancestors = p :: rest →
        ∃ t, calls_after Ev.devm_usb_get_phy_by_phandle (xhci_plat_probe cfg k env st).trace
          = Ev.devm_phy_get .usb2 :: Ev.devm_phy_get .usb3 :: t)) := by
  obtain ⟨pre, st1, he, hp, hr, hc, hrc⟩ := probe_reaches_usb_phy cfg k env st hreach
  rw [probe_usb_phy_err cfg k env _ st1 e hphy] at he
  by_cases hd : e = -EPROBE_DEFER
  · rw [if_pos hd] at he
    have htr : (xhci_plat_probe cfg k env st).trace
        = pre ++ Ev.devm_usb_get_phy_by_phandle ::
          [Ev.usb_put_hcd .shared, Ev.clk_disable_unprepare .bus env.clk.is_valid,
           Ev.clk_disable_unprepare .reg env.reg_clk.is_valid, Ev.usb_put_hcd .main,
           Ev.pm_runtime_put_noidle, Ev.pm_runtime_disable] := by
      rw [he]
      simp [Result.after, probe_put_usb3_hcd, probe_disable_clk, probe_disable_reg_clk,
        probe_put_hcd, probe_disable_runtime, hc, hrc]
    refine ⟨⟨fun _ => hd, fun _ => ⟨?_, ?_⟩⟩, fun _ => ?_, fun hne => absurd hd hne⟩
    · rw [he, after_ret, hd]
    · rw [htr, calls_after_first _ _ _ hp]
    · intro x hx
      rw [htr, List.mem_append] at hx
      rcases hx with hx | hx
      · exact (hr x hx).1
      · revert hx
        revert x
        simp [Ev.is_hcd_reg]
  · rw [if_neg hd, after_after] at he
    have hca : calls_after Ev.devm_usb_get_phy_by_phandle (xhci_plat_probe cfg k env st).trace
        = (probe_parent cfg k env (probe_sysdev cfg env.dev (env.dev :: env.ancestors))
            { st1 with usb_phy := .null }).trace := by
      rw [he, after_trace, List.append_assoc]
      exact calls_after_first _ _ _ hp
    refine ⟨⟨fun h => ?_, fun h => absurd h hd⟩, fun h => absurd h hd, fun _ => ⟨?_, ?_, ?_⟩⟩
    · exfalso
      have h2 := h.2
      rw [hca] at h2
      rcases probe_parent_first_call cfg k env
          (probe_sysdev cfg env.dev (env.dev :: env.ancestors)) { st1 with usb_phy := .null } with
        ⟨_, ht, _⟩ | ⟨p, rest, t, _, ht⟩
      · rw [ht] at h2
        cases h2
      · rw [ht] at h2
        cases h2
    · rw [he, after_st, probe_parent_keeps_usb_phy]
    · exact ⟨pre, _, rfl, hp, fun x hx => (hr x hx).1, he, hca⟩
    · intro p rest hanc
      rw [hca]
      rcases probe_parent_first_call cfg k env
          (probe_sysdev cfg env.dev (env.dev :: env.ancestors)) { st1 with usb_phy := .null } with
        ⟨hn, _, _⟩ | ⟨_, _, t, _, ht⟩
      · rw [hanc] at hn
        cases hn
      · exact ⟨t, ht⟩

/-- C11 as amended, at a concrete input: every step before the system PHY
lookup succeeds and the lookup fails with `-EPROBE_DEFER`; attach returns
`-EPROBE_DEFER` after it dropped the companion context, disabled both clocks
and dropped the primary context and the runtime-PM reference. -/
theorem usb_phy_lookup_error_witness :
    Ev.devm_usb_get_phy_by_phandle ∈
      (xhci_plat_probe Config.sample XhciH.sample ProbeEnv.phy_deferred State.zero).trace ∧
    (probe_sysdev Config.sample ProbeEnv.phy_deferred.dev
      (ProbeEnv.phy_deferred.dev :: ProbeEnv.phy_deferred.ancestors)).usb_phy
      = .err (-EPROBE_DEFER) ∧
    (xhci_plat_probe Config.sample XhciH.sample ProbeEnv.phy_deferred State.zero).ret
      = .returned (-EPROBE_DEFER) ∧
    calls_after Ev.devm_usb_get_phy_by_phandle
      (xhci_plat_probe Config.sample XhciH.sample ProbeEnv.phy_deferred State.zero).trace
      = [Ev.usb_put_hcd .shared, Ev.clk_disable_unprepare .bus true,
         Ev.clk_disable_unprepare .reg true, Ev.usb_put_hcd .main,
         Ev.pm_runtime_put_noidle, Ev.pm_runtime_disable] :=
  ⟨by decide, rfl,
    (usb_phy_lookup_error Config.sample XhciH.sample ProbeEnv.phy_deferred State.zero
      (-EPROBE_DEFER) (by decide) rfl).1.2 rfl⟩

/-- C11 fails as stated: with the system PHY lookup failing with `-ENODEV`,
which is not retry-later, and the registration of the primary failing with
`-EPROBE_DEFER`, attach returns `-EPROBE_DEFER`, no controller having been
registered; and when that registration fails with `-ENODEV`, attach returns
`-ENODEV`, the code of the lookup error. -/
theorem usb_phy_defer_from_later_step :
    Ev.devm_usb_get_phy_by_phandle ∈
      (xhci_plat_probe Config.sample XhciH.sample ProbeEnv.late_defer State.zero).trace ∧
    (probe_sysdev Config.sample ProbeEnv.late_defer.dev
      (ProbeEnv.late_defer.dev :: ProbeEnv.late_defer.ancestors)).usb_phy = .err (-ENODEV) ∧
    -ENODEV ≠ -EPROBE_DEFER ∧
    (xhci_plat_probe Config.sample XhciH.sample ProbeEnv.late_defer State.zero).ret
      = .returned (-EPROBE_DEFER) ∧
    Ev.usb_add_hcd .main 0 ∉
      (xhci_plat_probe Config.sample XhciH.sample ProbeEnv.late_defer State.zero).trace ∧
    Ev.usb_add_hcd .shared 0 ∉
      (xhci_plat_probe Config.sample XhciH.sample ProbeEnv.late_defer State.zero).trace ∧
    Ev.devm_usb_get_phy_by_phandle ∈
      (xhci_plat_probe Config.sample XhciH.sample ProbeEnv.late_enodev State.zero).trace ∧
    (probe_sysdev Config.sample ProbeEnv.late_enodev.dev
      (ProbeEnv.late_enodev.dev :: ProbeEnv.late_enodev.ancestors)).usb_phy = .err (-ENODEV) ∧
    (xhci_plat_probe Config.sample XhciH.sample ProbeEnv.late_enodev State.zero).ret
      = .returned (-ENODEV) := by
  refine ⟨by decide, rfl, by decide, rfl, by decide, by decide, by decide, rfl, rfl⟩



/-! ## The absent parent -/

theorem probe_audio_returns (cfg : Config) (env : ProbeEnv) (parent : Device) (st : State) :
    (probe_audio cfg env parent st).ret ≠ .null_deref := by
  unfold probe_audio probe_success
  simp only []
  split_ifs <;> simp

theorem probe_register_returns (cfg : Config) (k : XhciH) (env : ProbeEnv) (parent : Device)
    (st : State) : (probe_register cfg k env parent st).ret ≠ .null_deref := by
  unfold probe_register
  simp only []
  split_ifs <;> first | (rw [after_ret]; exact probe_audio_returns _ _ _ _) | simp

theorem probe_parent_fault (cfg : Config) (k : XhciH) (env : ProbeEnv) (sysdev : Device)
    (st : State) (h : (probe_parent cfg k env sysdev st).ret = .null_deref) :
    env.ancestors = [] := by
  rcases probe_parent_first_call cfg k env sysdev st with ⟨hn, _, _⟩ | ⟨p, rest, t, hanc, _⟩
  · exact hn
  · exfalso
    revert h
    unfold probe_parent
    simp only [hanc, List.head?_cons, after_ret]
    exact probe_register_returns _ _ _ _ _

theorem probe_usb_phy_fault (cfg : Config) (k : XhciH) (env : ProbeEnv) (sysdev : Device)
    (st : State) (h : (probe_usb_phy cfg k env sysdev st).ret = .null_deref) :
    env.ancestors = [] := by
  revert h
  unfold probe_usb_phy
  simp only []
  split <;> (try split_ifs) <;> intro h
  all_goals first
    | cases h
    | exact probe_parent_fault cfg k env sysdev _ h

theorem probe_bus_clk_fault (cfg : Config) (k : XhciH) (env : ProbeEnv) (sysdev : Device)
    (st : State) (h : (probe_bus_clk cfg k env sysdev st).ret = .null_deref) :
    env.ancestors = [] := by
  revert h
  unfold probe_bus_clk
  simp only []
  split <;> (try split_ifs) <;> intro h
  all_goals first
    | cases h
    | exact probe_usb_phy_fault cfg k env sysdev _ h

theorem probe_reg_clk_fault (cfg : Config) (k : XhciH) (env : ProbeEnv) (sysdev : Device)
    (st : State) (h : (probe_reg_clk cfg k env sysdev st).ret = .null_deref) :
    env.ancestors = [] := by
  revert h
  unfold probe_reg_clk
  simp only []
  split <;> (try split_ifs) <;> intro h
  all_goals first
    | cases h
    | exact probe_bus_clk_fault cfg k env sysdev _ h

theorem probe_hcd_fault (cfg : Config) (k : XhciH) (env : ProbeEnv) (sysdev : Device)
    (st : State) (h : (probe_hcd cfg k env sysdev st).ret = .null_deref) :
    env.ancestors = [] := by
  revert h
  unfold probe_hcd
  simp only []
  split_ifs <;> (try split) <;> intro h
  all_goals first
    | cases h
    | exact probe_reg_clk_fault cfg k env sysdev _ h

/-- The only read through a NULL pointer in attach is the read through an
absent parent. -/
theorem probe_fault_only_without_parent (cfg : Config) (k : XhciH) (env : ProbeEnv)
    (st : State) (h : (xhci_plat_probe cfg k env st).ret = .null_deref) :
    env.ancestors = [] := by
  revert h
  unfold xhci_plat_probe
  simp only []
  split_ifs <;> intro h
  all_goals first
    | cases h
    | exact probe_hcd_fault cfg k env _ _ h

/-- Attach of a device without parent that gets as far as the system PHY
lookup skips both Exynos PHY lookups, registers no controller, and reads
`parent->of_node` through the NULL parent unless the system PHY step itself
ends attach. -/
theorem probe_without_parent (cfg : Config) (k : XhciH) (env : ProbeEnv) (st : State)
    (hreach : Ev.devm_usb_get_phy_by_phandle ∈ (xhci_plat_probe cfg k env st).trace)
    (hanc : env.ancestors = []) :
    (∀ x ∈ (xhci_plat_probe cfg k env st).trace,
      x.is_hcd_reg = false ∧ x.is_phy_get = false) ∧
    ((xhci_plat_probe cfg k env st).ret = .null_deref ↔
      ((probe_sysdev cfg env.dev (env.dev :: env.ancestors)).usb_phy ≠ .err (-EPROBE_DEFER) ∧
       ((probe_sysdev cfg env.dev (env.dev :: env.ancestors)).usb_phy.is_valid = true →
        (probe_sysdev cfg env.dev (env.dev :: env.ancestors)).usb_phy_init_ret = 0))) := by
  obtain ⟨pre, st1, he, hp, hr, hc, hrc⟩ := probe_reaches_usb_phy cfg k env st hreach
  have hpar : ∀ s, probe_parent cfg k env (probe_sysdev cfg env.dev (env.dev :: env.ancestors)) s
      = ⟨(probe_parent cfg k env (probe_sysdev cfg env.dev (env.dev :: env.ancestors)) s).st,
          [], .null_deref⟩ := by
    intro s
    rcases probe_parent_first_call cfg k env
        (probe_sysdev cfg env.dev (env.dev :: env.ancestors)) s with
      ⟨_, ht, hret⟩ | ⟨p, rest, _, hanc2, _⟩
    · rw [← ht, ← hret]
    · rw [hanc] at hanc2
      cases hanc2
  have hall : ∀ l : List Ev, (∀ x ∈ l, x.is_hcd_reg = false ∧ x.is_phy_get = false) →
      ∀ x ∈ pre ++ l, x.is_hcd_reg = false ∧ x.is_phy_get = false := by
    intro l hl x hx
    rw [List.mem_append] at hx
    rcases hx with hx | hx
    · exact hr x hx
    · exact hl x hx
  rw [he]
  unfold probe_usb_phy
  cases hu : (probe_sysdev cfg env.dev (env.dev :: env.ancestors)).usb_phy with
  | err e =>
    simp only []
    by_cases hd : e = -EPROBE_DEFER
    · rw [if_pos hd]
      refine ⟨?_, ?_⟩
      · simp only [after_trace]
        exact hall _ (by simp [Ev.is_hcd_reg, Ev.is_phy_get, probe_put_usb3_hcd,
          probe_disable_clk, probe_disable_reg_clk, probe_put_hcd, probe_disable_runtime])
      · simp [hd]
    · rw [if_neg hd, hpar]
      refine ⟨?_, ?_⟩
      · simp only [after_trace]
        exact hall _ (by simp [Ev.is_hcd_reg, Ev.is_phy_get])
      · simp [hd, Ptr.is_valid]
  | null =>
    simp only [Ptr.is_valid, Bool.false_eq_true, if_false, ne_eq, not_true_eq_false]
    rw [hpar]
    refine ⟨?_, ?_⟩
    · simp only [after_trace]
      exact hall _ (by simp [Ev.is_hcd_reg, Ev.is_phy_get])
    · simp
  | valid =>
    simp only [Ptr.is_valid, if_true]
    by_cases hi : (probe_sysdev cfg env.dev (env.dev :: env.ancestors)).usb_phy_init_ret = 0
    · rw [hi]
      simp only [ne_eq, not_true_eq_false, if_false]
      rw [hpar]
      refine ⟨?_, ?_⟩
      · simp only [after_trace]
        exact hall _ (by simp [Ev.is_hcd_reg, Ev.is_phy_get])
      · simp
    · rw [if_pos hi]
      refine ⟨?_, ?_⟩
      · simp only [after_trace]
        exact hall _ (by simp [Ev.is_hcd_reg, Ev.is_phy_get, probe_put_usb3_hcd,
          probe_disable_clk, probe_disable_reg_clk, probe_put_hcd, probe_disable_runtime])
      · simp [hi]

/-- C12: attach of a platform device without parent, every other step as in
a successful attach.  Both Exynos PHY lookups are skipped and no call follows
the system PHY lookup, but attach then reads `parent->of_node` for
`xhci_l2_support` through the NULL parent.  The same environment with a
parent returns 0. -/
theorem probe_orphan_reads_parent :
    ProbeEnv.orphan.ancestors.head? = none ∧
    (xhci_plat_probe Config.sample XhciH.sample ProbeEnv.orphan State.zero).ret
      = .null_deref ∧
    Ev.devm_phy_get .usb2 ∉
      (xhci_plat_probe Config.sample XhciH.sample ProbeEnv.orphan State.zero).trace ∧
    Ev.devm_phy_get .usb3 ∉
      (xhci_plat_probe Config.sample XhciH.sample ProbeEnv.orphan State.zero).trace ∧
    calls_after Ev.devm_usb_get_phy_by_phandle
      (xhci_plat_probe Config.sample XhciH.sample ProbeEnv.orphan State.zero).trace = [] ∧
    (xhci_plat_probe Config.sample XhciH.sample ProbeEnv.good State.zero).ret = .returned 0 := by
  refine ⟨rfl, rfl, by decide, by decide, by decide, rfl⟩

end XhciPlat
